import Mathlib

/-!
# fizzy: the stacks of `lib/fizzy/stack.hpp` and instantiation

The first part is a shallow embedding of the two classes of `stack.hpp`:

* `Stack<T>`, a thin wrapper around `std::vector<T>`; the vector is a `List T`
  whose last element is the back of the vector (the top of the stack).
* `OperandStack`, a raw array of `uint64_t` slots with a pointer `m_top` to
  the top item.  Pointers are byte addresses and all pointer and `size_t`
  arithmetic is taken modulo `2^64`, which is what makes the "one below the
  base" position of the constructor and of `shrink(0)` expressible.

Member functions that can hit an `assert` or touch a slot outside the
allocated array return `Except Fault _`.

The second part is a model of `instantiate`, written from the specification
(sections 3, 4.3, 4.4 and 4.6) and checked against the scenarios of
`instantiate_test.cpp`: import resolution, allocation of the table, the memory
and the globals, validation and application of the segments, and the start
function, which an interpreter given as a parameter runs.

The third part embeds `json_to_value` of the spectest harness
(`spectests.cpp`) together with the library calls it makes, and the class
`test_runner` of the same file: `run_from_file`, `invoke`, `pass`, `fail` and
`skip`.  The functions of the library and of the file system that the runner
calls are parameters of it; an exception that the runner does not catch and
the overflow of an `int` counter end a member function without a result.
-/

namespace fizzy

/-! ## Machine parameters -/

/-- Number of values of a `size_t` and of a pointer: `2^64`. -/
abbrev WORD : Nat := 18446744073709551616

/-- The value of `sizeof(uint64_t)`: the distance in bytes between two slots. -/
abbrev SLOT : Nat := 8

/-- Ways in which a member function can go wrong: an `assert` of the class
fails, or a slot outside the allocated array is read or written. -/
inductive Fault where
  | assertion
  | out_of_bounds
  deriving DecidableEq, Repr

deriving instance DecidableEq for Except

/-! ## `Stack<T>` -/

/-- The class `Stack<T>`: the inherited `std::vector<T>`, front of the vector
first. -/
structure Stack (T : Type) where
  items : List T
  deriving DecidableEq, Repr

namespace Stack

variable {T : Type}

/-- A default-constructed `Stack<T>`: the empty vector. -/
def new : Stack T := ⟨[]⟩

/-- Inherited `std::vector<T>::size`. -/
def size (s : Stack T) : Nat := s.items.length

/-- Inherited `std::vector<T>::empty`. -/
def empty (s : Stack T) : Bool := s.items.isEmpty

/-- Inherited `std::vector<T>::clear`. -/
def clear (_s : Stack T) : Stack T := ⟨[]⟩

/-- Member `push`: `emplace_back(val)`. -/
def push (s : Stack T) (val : T) : Stack T := ⟨s.items ++ [val]⟩

/-- Member `top`: `back()`; the vector must not be empty. The stack itself is
returned unchanged next to the item read through the reference. -/
def top (s : Stack T) : Option (T × Stack T) :=
  match s.items.getLast? with
  | some res => some (res, s)
  | none => none

/-- Member `pop`: `res = top(); pop_back(); return res`. -/
def pop (s : Stack T) : Option (T × Stack T) :=
  match s.top with
  | some (res, s1) => some (res, ⟨s1.items.dropLast⟩)
  | none => none

/-- The call `std::vector<T>::resize(n)`: keeps the first `n` items, or appends
value-initialised items up to length `n`. -/
def resize [Inhabited T] (l : List T) (n : Nat) : List T :=
  l.take n ++ List.replicate (n - l.length) default

/-- Member `drop`: `resize(size() - num_elements)`, the subtraction being done
in `size_t`. -/
def drop [Inhabited T] (s : Stack T) (num_elements : Nat) : Stack T :=
  ⟨resize s.items ((s.size + WORD - num_elements % WORD) % WORD)⟩

/-- Pushes the items of `vs` in order, first item first. -/
def push_all (s : Stack T) (vs : List T) : Stack T :=
  vs.foldl push s

/-- Calls `pop` `n` times and collects the returned items in call order. -/
def pop_n : Nat → Stack T → Option (List T × Stack T)
  | 0, s => some ([], s)
  | n + 1, s =>
    match s.pop with
    | some (v, s1) =>
      match pop_n n s1 with
      | some (vs, s2) => some (v :: vs, s2)
      | none => none
    | none => none

end Stack

/-! ## `OperandStack` -/

/-- The class `OperandStack`.

* `m_top`: the pointer to the top item, a byte address below `WORD`;
* `m_storage`: the contents of the array owned by the `unique_ptr`, one entry
  per `uint64_t` slot, so that its length is the `max_stack_height` given to
  the constructor;
* `base`: the address `m_storage.get()` of slot 0, chosen by the allocator.

An item is a `uint64_t`, here a `Nat`; the class copies items and does no
arithmetic on them, so no reduction modulo `WORD` is applied to them. -/
structure OperandStack where
  m_top : Nat
  m_storage : List Nat
  base : Nat
  deriving DecidableEq, Repr

namespace OperandStack

/-- Pointer plus a `size_t` number of slots: `p + n`. -/
def ptr_add (p n : Nat) : Nat := (p + SLOT * (n % WORD)) % WORD

/-- Pointer minus a `size_t` number of slots: `p - n`. -/
def ptr_sub (p n : Nat) : Nat := (p + WORD - (SLOT * (n % WORD)) % WORD) % WORD

/-- Pointer difference `p - q` in slots, converted to `size_t`: the byte
distance modulo `WORD` is read as a signed `ptrdiff_t`, divided by the slot
width, and the quotient is converted to unsigned. -/
def ptr_diff (p q : Nat) : Nat :=
  let d := (p + WORD - q % WORD) % WORD
  if d < WORD / 2 then d / SLOT else (WORD - (WORD - d) / SLOT) % WORD

/-- The index of the slot that the pointer `p` designates, if `p` points to a
slot of the allocated array. -/
def slot_of (s : OperandStack) (p : Nat) : Except Fault Nat :=
  let off := (p + WORD - s.base % WORD) % WORD
  if off % SLOT = 0 ∧ off / SLOT < s.m_storage.length then .ok (off / SLOT)
  else .error .out_of_bounds

/-- Read through a pointer: `*p`. -/
def load (s : OperandStack) (p : Nat) : Except Fault Nat :=
  match s.slot_of p with
  | .ok k => .ok (s.m_storage.getD k 0)
  | .error e => .error e

/-- Write through a pointer: `*p = v`. -/
def store (s : OperandStack) (p v : Nat) : Except Fault OperandStack :=
  match s.slot_of p with
  | .ok k => .ok { s with m_storage := s.m_storage.set k v }
  | .error e => .error e

/-- The constructor `OperandStack(max_stack_height)`; `base` is the address
of the zero-initialised array that `std::make_unique<uint64_t[]>` returns.
Sets `m_top = m_storage.get() - 1`. -/
def new (base max_stack_height : Nat) : OperandStack :=
  { m_top := ptr_sub base 1
    m_storage := List.replicate max_stack_height 0
    base := base }

/-- The storage capacity in slots: the `max_stack_height` of the constructor. -/
def max_height (s : OperandStack) : Nat := s.m_storage.length

/-- Member `size`: `static_cast<size_t>(m_top + 1 - &m_storage[0])`. -/
def size (s : OperandStack) : Nat := ptr_diff (ptr_add s.m_top 1) s.base

/-- Member `top`, read through the returned reference:
`assert(size() != 0); return *m_top`. -/
def top (s : OperandStack) : Except Fault (Nat × OperandStack) :=
  if s.size = 0 then .error .assertion
  else match s.load s.m_top with
    | .ok v => .ok (v, s)
    | .error e => .error e

/-- Member `top`, assigned through the returned reference: `top() = v`. -/
def top_assign (s : OperandStack) (v : Nat) : Except Fault OperandStack :=
  if s.size = 0 then .error .assertion
  else s.store s.m_top v

/-- Member `operator[]`, read through the returned reference:
`assert(index < size()); return *(m_top - index)`. -/
def index (s : OperandStack) (index : Nat) : Except Fault (Nat × OperandStack) :=
  if ¬ index < s.size then .error .assertion
  else match s.load (ptr_sub s.m_top index) with
    | .ok v => .ok (v, s)
    | .error e => .error e

/-- Member `operator[]`, assigned through the returned reference:
`stack[index] = v`. -/
def index_assign (s : OperandStack) (index v : Nat) : Except Fault OperandStack :=
  if ¬ index < s.size then .error .assertion
  else s.store (ptr_sub s.m_top index) v

/-- Member `push`: `*++m_top = item`. The max height is not checked. -/
def push (s : OperandStack) (item : Nat) : Except Fault OperandStack :=
  let s1 := { s with m_top := ptr_add s.m_top 1 }
  s1.store s1.m_top item

/-- Member `pop`: `assert(size() != 0); return *m_top--`. -/
def pop (s : OperandStack) : Except Fault (Nat × OperandStack) :=
  if s.size = 0 then .error .assertion
  else match s.load s.m_top with
    | .ok v => .ok (v, { s with m_top := ptr_sub s.m_top 1 })
    | .error e => .error e

/-- Member `shrink`:
`assert(size <= this->size()); m_top = m_storage.get() + (size - 1)`, where
`size - 1` is computed in `size_t`. -/
def shrink (s : OperandStack) (size : Nat) : Except Fault OperandStack :=
  if ¬ size ≤ s.size then .error .assertion
  else .ok { s with m_top := ptr_add s.base ((size + WORD - 1) % WORD) }

/-- Pushes the items of `vs` in order, first item first. -/
def push_all (s : OperandStack) : List Nat → Except Fault OperandStack
  | [] => .ok s
  | v :: vs =>
    match s.push v with
    | .ok s1 => push_all s1 vs
    | .error e => .error e

/-- Calls `pop` `n` times and collects the returned items in call order. -/
def pop_n : Nat → OperandStack → Except Fault (List Nat × OperandStack)
  | 0, s => .ok ([], s)
  | n + 1, s =>
    match s.pop with
    | .ok (v, s1) =>
      match pop_n n s1 with
      | .ok (vs, s2) => .ok (v :: vs, s2)
      | .error e => .error e
    | .error e => .error e

/-- A call of a member function of `OperandStack`, with its arguments; the two
reference-returning members appear once for a read and once for an
assignment through the reference. -/
inductive Call where
  | push (item : Nat)
  | pop
  | top
  | top_assign (v : Nat)
  | index (i : Nat)
  | index_assign (i v : Nat)
  | shrink (n : Nat)
  deriving DecidableEq, Repr

/-- The documented precondition of a call: `push` below the max height,
`top` and `pop` on a non-empty stack, `stack[i]` with `i < size()`,
`shrink(n)` with `n <= size()`. -/
def Call.pre (c : Call) (s : OperandStack) : Bool :=
  match c with
  | .push _ => decide (s.size < s.max_height)
  | .pop => decide (s.size ≠ 0)
  | .top => decide (s.size ≠ 0)
  | .top_assign _ => decide (s.size ≠ 0)
  | .index i => decide (i < s.size)
  | .index_assign i _ => decide (i < s.size)
  | .shrink n => decide (n ≤ s.size)

/-- Makes the call `c` on `s`: the value it returns, if it returns one, and the
stack after it. -/
def Call.exec (c : Call) (s : OperandStack) : Except Fault (Option Nat × OperandStack) :=
  match c with
  | .push item =>
    match s.push item with
    | .ok s1 => .ok (none, s1)
    | .error e => .error e
  | .pop =>
    match s.pop with
    | .ok (v, s1) => .ok (some v, s1)
    | .error e => .error e
  | .top =>
    match s.top with
    | .ok (v, s1) => .ok (some v, s1)
    | .error e => .error e
  | .top_assign v =>
    match s.top_assign v with
    | .ok s1 => .ok (none, s1)
    | .error e => .error e
  | .index i =>
    match s.index i with
    | .ok (v, s1) => .ok (some v, s1)
    | .error e => .error e
  | .index_assign i v =>
    match s.index_assign i v with
    | .ok s1 => .ok (none, s1)
    | .error e => .error e
  | .shrink n =>
    match s.shrink n with
    | .ok s1 => .ok (none, s1)
    | .error e => .error e

/-- Makes the calls of `cs` one after the other and collects what they return;
stops at the first fault. -/
def run : OperandStack → List Call → Except Fault (List (Option Nat) × OperandStack)
  | s, [] => .ok ([], s)
  | s, c :: cs =>
    match c.exec s with
    | .ok (r, s1) =>
      match run s1 cs with
      | .ok (rs, s2) => .ok (r :: rs, s2)
      | .error e => .error e
    | .error e => .error e

/-- Every call of `cs` is made within its precondition, in the state in which
it is made. Nothing is asked of the calls that follow a fault. -/
def within_pre : OperandStack → List Call → Bool
  | _, [] => true
  | s, c :: cs =>
    c.pre s &&
      match c.exec s with
      | .ok (_, s1) => within_pre s1 cs
      | .error _ => true

/-- The stack over storage `st` at address `base` whose top pointer designates
slot `n - 1`, that is, the stack of height `n` (for `n = 0` the position one
slot below the base). -/
def with_height (base : Nat) (st : List Nat) (n : Nat) : OperandStack :=
  { m_top := (base + SLOT * n + WORD - SLOT) % WORD
    m_storage := st
    base := base }

/-- The class invariant: the array is an object of at most `PTRDIFF_MAX`
bytes, the height does not exceed the capacity, and `m_top` designates the
slot just below position `size()` of the array. -/
def Inv (s : OperandStack) : Prop :=
  SLOT * s.m_storage.length < WORD / 2 ∧ s.size ≤ s.m_storage.length ∧
    s.m_top = (s.base + SLOT * s.size + WORD - SLOT) % WORD

instance (s : OperandStack) : Decidable (Inv s) := by
  unfold Inv; infer_instance

end OperandStack

/-! ## Instantiation: the data model

The instantiator (`instantiate.cpp`) and the interpreter (`execute.cpp`) are
not among the sources at hand; their unit tests (`instantiate_test.cpp`) are.
The definitions of this part follow the specification, section by section,
and take from the tests the names of the fields and the texts of the errors.
-/

/-- Modelled from the spec: the constant `PageSize` of `limits.hpp`, the page
size of 65,536 bytes. -/
abbrev PageSize : Nat := 65536

/-- Modelled from the spec: the constant `MemoryPagesLimit` of `limits.hpp`,
the hard memory cap of 268,435,456 bytes counted in pages. -/
abbrev MemoryPagesLimit : Nat := 4096

/-- Modelled from the spec: the type `bytes`, a sequence of bytes. -/
abbrev bytes : Type := List Nat

/-- Modelled from the spec: the type `table_elements`, a sequence of optional
function indices; `none` is "no entry". -/
abbrev table_elements : Type := List (Option Nat)

/-- Modelled from the spec: `ValType`, section 3. -/
inductive ValType where
  | i32
  | i64
  deriving DecidableEq, Repr

/-- Modelled from the spec: `FuncType`, section 3. -/
structure FuncType where
  inputs : List ValType
  outputs : List ValType
  deriving DecidableEq, Repr

/-- Modelled from the spec: `Limits`, section 3; `min` and `max` are `u32`. -/
structure Limits where
  min : Nat
  max : Option Nat
  deriving DecidableEq, Repr

/-- Modelled from the spec: `Table`, section 3. -/
structure Table where
  limits : Limits
  deriving DecidableEq, Repr

/-- Modelled from the spec: `Memory`, section 3; the limits count pages. -/
structure Memory where
  limits : Limits
  deriving DecidableEq, Repr

/-- Modelled from the spec: `ConstantExpression`, section 3. -/
inductive ConstantExpression where
  | Constant (value : Nat)
  | GlobalGet (global_index : Nat)
  deriving DecidableEq, Repr

/-- Modelled from the spec: `Global`, section 3. -/
structure Global where
  is_mutable : Bool
  expression : ConstantExpression
  deriving DecidableEq, Repr

/-- Modelled from the spec: the kind of an import together with its
descriptor, section 3: the type index of a function, the limits of a table or
of a memory, the mutability of a global. -/
inductive ImportDesc where
  | Function (type_index : Nat)
  | Table (table : fizzy.Table)
  | Memory (memory : fizzy.Memory)
  | Global (is_mutable : Bool)
  deriving DecidableEq, Repr

/-- Modelled from the spec: `Import`, section 3. -/
structure Import where
  module : String
  name : String
  desc : ImportDesc
  deriving DecidableEq, Repr

/-- Modelled from the spec: an element segment, section 3. -/
structure Element where
  offset : ConstantExpression
  init : List Nat
  deriving DecidableEq, Repr

/-- Modelled from the spec: a data segment, section 3. -/
structure Data where
  offset : ConstantExpression
  init : bytes
  deriving DecidableEq, Repr

/-- Modelled from the spec: the instructions of section 4.6 that the function
bodies of this development use. -/
inductive Instr where
  | unreachable
  | i32_const (value : Nat)
  | drop
  | memory_grow
  | i32_store8 (offset : Nat)
  deriving DecidableEq, Repr

/-- Modelled from the spec: `Module`, section 3, the sections in canonical
order; `funcsec` holds type indices and `codesec` holds the bodies. -/
structure Module where
  typesec : List FuncType := []
  importsec : List Import := []
  funcsec : List Nat := []
  tablesec : List Table := []
  memorysec : List Memory := []
  globalsec : List Global := []
  startfunc : Option Nat := none
  elementsec : List Element := []
  codesec : List (List Instr) := []
  datasec : List Data := []
  deriving DecidableEq, Repr

/-- Modelled from the spec: a function supplied by the host for an import,
the host callable (named by a number) and its type. -/
structure ExternalFunction where
  function : Nat
  type : FuncType
  deriving DecidableEq, Repr

/-- Modelled from the spec: a table supplied by the host for an import, the
pointer to its storage (`none` is the null pointer) and its limits. -/
structure ExternalTable where
  table : Option table_elements
  limits : Limits
  deriving DecidableEq, Repr

/-- Modelled from the spec: a memory supplied by the host for an import, the
pointer to its storage (`none` is the null pointer) and its limits. -/
structure ExternalMemory where
  data : Option bytes
  limits : Limits
  deriving DecidableEq, Repr

/-- Modelled from the spec: a global supplied by the host for an import, the
pointer to its 64-bit value (`none` is the null pointer) and its mutability. -/
structure ExternalGlobal where
  value : Option Nat
  is_mutable : Bool
  deriving DecidableEq, Repr

/-- Modelled from the spec: `Instance`, section 3. An imported table or memory
is shared with the host: what the instance holds is what the host sees. -/
structure Instance where
  module : Module
  memory : Option bytes
  memory_max_pages : Nat
  table : Option table_elements
  globals : List Nat
  imported_functions : List ExternalFunction
  imported_globals : List ExternalGlobal
  deriving DecidableEq, Repr

/-- Modelled from the spec: `execution_result`, section 4.6. -/
structure execution_result where
  trapped : Bool
  result : Option Nat
  deriving DecidableEq, Repr

/-- Modelled from the spec: `instantiate_error`, section 7, with its textual
reason. -/
structure instantiate_error where
  message : String
  deriving DecidableEq, Repr

/-! ## Instantiation: import resolution (section 4.4) -/

/-- Modelled from the spec: the declared types of the imported functions of a
module, in declaration order; a type index outside the type section gives
`none`, which no supplied function matches. -/
def imported_function_types (module : Module) : List (Option FuncType) :=
  module.importsec.filterMap fun imp =>
    match imp.desc with
    | .Function type_index => some module.typesec[type_index]?
    | _ => none

/-- Modelled from the spec: the limits of the imported tables of a module. -/
def imported_table_types (module : Module) : List Table :=
  module.importsec.filterMap fun imp =>
    match imp.desc with
    | .Table table => some table
    | _ => none

/-- Modelled from the spec: the limits of the imported memories of a module. -/
def imported_memory_types (module : Module) : List Memory :=
  module.importsec.filterMap fun imp =>
    match imp.desc with
    | .Memory memory => some memory
    | _ => none

/-- Modelled from the spec: the declared mutability of the imported globals of
a module, in declaration order. -/
def imported_globals_mutability (module : Module) : List Bool :=
  module.importsec.filterMap fun imp =>
    match imp.desc with
    | .Global is_mutable => some is_mutable
    | _ => none

/-- Modelled from the spec: the comparison of the supplied functions with the
declared types one by one, from index `i` on (step 1 of import resolution:
"each supplied function carries a FuncType that must equal the corresponding
declared type; mismatch reports a type error"). The spec does not give the
text of the type error. -/
def match_function_types :
    List (Option FuncType) → List ExternalFunction → Nat → Except instantiate_error Unit
  | t :: ts, f :: fs, i =>
    if t ≠ some f.type then
      .error ⟨"Function " ++ toString i ++ " type does not match the imported function type"⟩
    else match_function_types ts fs (i + 1)
  | _, _, _ => .ok ()

/-- Modelled from the spec: step 1 of import resolution, the missing function
`match_imported_functions`: the count must match exactly, then the types. -/
def match_imported_functions (module_imported_types : List (Option FuncType))
    (imported_functions : List ExternalFunction) : Except instantiate_error Unit :=
  if module_imported_types.length ≠ imported_functions.length then
    .error ⟨"Module requires " ++ toString module_imported_types.length ++
      " imported functions, " ++ toString imported_functions.length ++ " provided"⟩
  else match_function_types module_imported_types imported_functions 0

/-- Modelled from the spec: the strictness rule of steps 2 and 3, the missing
function `match_limits`: "provided `min ≥ module.min`, and provided `max`,
which must be present, `≤ module.max` when module declares one". -/
def match_limits (external_limits module_limits : Limits) : Except instantiate_error Unit :=
  if external_limits.min < module_limits.min then
    .error ⟨"Provided import\x27s min is below import\x27s min defined in module."⟩
  else
    match module_limits.max with
    | none => .ok ()
    | some module_max =>
      match external_limits.max with
      | some external_max =>
        if external_max ≤ module_max then .ok ()
        else .error ⟨"Provided import\x27s max is above import\x27s max defined in module."⟩
      | none => .error ⟨"Provided import\x27s max is above import\x27s max defined in module."⟩

/-- Modelled from the spec: step 2 of import resolution, the missing function
`match_imported_tables`: exactly one table when the module imports one and
none otherwise, the strictness rule, no null data, and a storage whose size is
between the provided `min` and `max` inclusive. -/
def match_imported_tables (module_imported_tables : List Table)
    (imported_tables : List ExternalTable) : Except instantiate_error Unit :=
  if 1 < imported_tables.length then .error ⟨"Only 1 imported table is allowed."⟩
  else
    match module_imported_tables, imported_tables with
    | [], [] => .ok ()
    | [], _ :: _ =>
      .error ⟨"Trying to provide imported table to a module that doesn\x27t define one."⟩
    | _ :: _, [] => .error ⟨"Module defines an imported table but none was provided."⟩
    | module_table :: _, imported :: _ =>
      match match_limits imported.limits module_table.limits with
      | .error e => .error e
      | .ok () =>
        match imported.table with
        | none => .error ⟨"Provided imported table has a null pointer to data."⟩
        | some table =>
          if table.length < imported.limits.min ∨
              (imported.limits.max.any fun max => max < table.length) then
            .error ⟨"Provided imported table doesn\x27t fit provided limits"⟩
          else .ok ()

/-- Modelled from the spec: step 3 of import resolution, the missing function
`match_imported_memories`: "memory imports mirror tables: exactly one when
declared, strictness rule on limits, presence of `max`, non-null storage,
storage size in pages within `[min, max]`, and provided `max` must not exceed
the 256 MiB hard cap". -/
def match_imported_memories (module_imported_memories : List Memory)
    (imported_memories : List ExternalMemory) : Except instantiate_error Unit :=
  if 1 < imported_memories.length then .error ⟨"Only 1 imported memory is allowed."⟩
  else
    match module_imported_memories, imported_memories with
    | [], [] => .ok ()
    | [], _ :: _ =>
      .error ⟨"Trying to provide imported memory to a module that doesn\x27t define one."⟩
    | _ :: _, [] => .error ⟨"Module defines an imported memory but none was provided."⟩
    | module_memory :: _, imported :: _ =>
      match match_limits imported.limits module_memory.limits with
      | .error e => .error e
      | .ok () =>
        match imported.data with
        | none => .error ⟨"Provided imported memory has a null pointer to data."⟩
        | some data =>
          if data.length < imported.limits.min * PageSize ∨
              (imported.limits.max.any fun max => max * PageSize < data.length) then
            .error ⟨"Provided imported memory doesn\x27t fit provided limits"⟩
          else if imported.limits.max.any fun max => MemoryPagesLimit < max then
            .error ⟨"Imported memory limits cannot exceed hard memory limit of 268435456 bytes."⟩
          else .ok ()

/-- Modelled from the spec: the comparison of the supplied globals with the
declared mutabilities one by one, from index `i` on (step 4: "mutability of
provided global must match the declared mutability; pointer non-null"). -/
def match_global_types :
    List Bool → List ExternalGlobal → Nat → Except instantiate_error Unit
  | is_mutable :: ms, g :: gs, i =>
    if g.is_mutable ≠ is_mutable then
      .error ⟨"Global " ++ toString i ++
        " mutability doesn\x27t match module\x27s global mutability"⟩
    else if g.value = none then
      .error ⟨"Global " ++ toString i ++ " has a null pointer to value"⟩
    else match_global_types ms gs (i + 1)
  | _, _, _ => .ok ()

/-- Modelled from the spec: step 4 of import resolution, the missing function
`match_imported_globals`: the count must match, then every global. -/
def match_imported_globals (module_imported_globals : List Bool)
    (imported_globals : List ExternalGlobal) : Except instantiate_error Unit :=
  if module_imported_globals.length ≠ imported_globals.length then
    .error ⟨"Module requires " ++ toString module_imported_globals.length ++
      " imported globals, " ++ toString imported_globals.length ++ " provided"⟩
  else match_global_types module_imported_globals imported_globals 0

/-! ## Instantiation: globals, allocation, segments, start (sections 4.3, 4.4) -/

/-- Modelled from the spec: the constant-expression evaluator of section 4.3,
the missing function `eval_constant_expression`. The global index space has
the imported globals first and the globals of the module after them, and the
module globals computed so far are `globals`. A mutable or an out-of-range
global is rejected. Following the unit tests
`element_section_offset_from_global` and `data_section_offset_from_global`,
an immutable global of the module itself is accepted. -/
def eval_constant_expression (expr : ConstantExpression)
    (imported_globals : List ExternalGlobal) (global_types : List Global)
    (globals : List Nat) : Except instantiate_error Nat :=
  match expr with
  | .Constant value => .ok value
  | .GlobalGet global_index =>
    if global_index < imported_globals.length then
      match imported_globals[global_index]? with
      | some g =>
        match g.is_mutable, g.value with
        | false, some value => .ok value
        | _, _ =>
          .error ⟨"Constant expression can use global_get only for const globals."⟩
      | none => .error ⟨"Constant expression can use global_get only for const globals."⟩
    else
      match global_types[global_index - imported_globals.length]?,
        globals[global_index - imported_globals.length]? with
      | some g, some value =>
        if g.is_mutable then
          .error ⟨"Constant expression can use global_get only for const globals."⟩
        else .ok value
      | _, _ => .error ⟨"Constant expression can use global_get only for const globals."⟩

/-- Modelled from the spec: the initialisation of the module-declared globals,
"by evaluating each `init` constant expression in declaration order"; an
initializer that names a global of the module itself is "reported as `Global
can be initialized by another const global only if it's imported.`".
`globals` holds the values computed so far. -/
def init_globals (imported_globals : List ExternalGlobal) (global_types : List Global) :
    List Global → List Nat → Except instantiate_error (List Nat)
  | [], globals => .ok globals
  | g :: gs, globals =>
    if (match g.expression with
        | .GlobalGet global_index => decide (imported_globals.length ≤ global_index)
        | .Constant _ => false) then
      .error ⟨"Global can be initialized by another const global only if it\x27s imported."⟩
    else
      match eval_constant_expression g.expression imported_globals global_types globals with
      | .error e => .error e
      | .ok value => init_globals imported_globals global_types gs (globals ++ [value])

/-- Modelled from the spec: the allocation of the table, the missing function
`allocate_table`: a second table is rejected; a module-declared table "is
allocated at size `min`, initialized to no entry"; an imported table is the
storage supplied by the host. -/
def allocate_table (module_tables : List Table) (imported_tables : List ExternalTable) :
    Except instantiate_error (Option table_elements) :=
  if 1 < module_tables.length + imported_tables.length then
    .error ⟨"Cannot support more than 1 table section."⟩
  else
    match module_tables, imported_tables with
    | t :: _, _ => .ok (some (List.replicate t.limits.min none))
    | [], imported :: _ => .ok imported.table
    | [], [] => .ok none

/-- Modelled from the spec: the allocation of the memory, the missing function
`allocate_memory`, which returns the memory and `memory_max_pages`: a second
memory is rejected; a module-declared memory "is allocated at `min` pages of
zeroed bytes; `memory_max_pages` is the declared `max` if present, otherwise
the hard cap divided by page size", and both limits must be within the hard
cap; an imported memory is the storage supplied by the host, with the provided
`max` or the hard cap. -/
def allocate_memory (module_memories : List Memory) (imported_memories : List ExternalMemory) :
    Except instantiate_error (Option bytes × Nat) :=
  if 1 < module_memories.length + imported_memories.length then
    .error ⟨"Cannot support more than 1 memory section."⟩
  else
    match module_memories, imported_memories with
    | m :: _, _ =>
      if MemoryPagesLimit < m.limits.min ∨ MemoryPagesLimit < m.limits.max.getD MemoryPagesLimit
      then .error ⟨"Cannot exceed hard memory limit of 268435456 bytes."⟩
      else .ok (some (List.replicate (m.limits.min * PageSize) 0),
        m.limits.max.getD MemoryPagesLimit)
    | [], imported :: _ => .ok (imported.data, imported.limits.max.getD MemoryPagesLimit)
    | [], [] => .ok (none, MemoryPagesLimit)

/-- Modelled from the spec: the size of an optional storage; an absent table
or memory has no entry and no byte. -/
def storage_size {α : Type} (storage : Option (List α)) : Nat :=
  match storage with
  | some l => l.length
  | none => 0

/-- Modelled from the spec: the bounds check of the segments of one kind
before any of them is applied ("validate every segment's bounds before
applying any"). A segment is given by its offset expression and its content;
`size` is the size of the table or of the memory and `out_of_bounds` the
error of this kind of segment. Returns every segment with its offset. -/
def check_segments {α : Type} (imported_globals : List ExternalGlobal)
    (global_types : List Global) (globals : List Nat) (size : Nat)
    (out_of_bounds : instantiate_error) :
    List (ConstantExpression × List α) → Except instantiate_error (List (Nat × List α))
  | [] => .ok []
  | (expr, init) :: rest =>
    match eval_constant_expression expr imported_globals global_types globals with
    | .error e => .error e
    | .ok offset =>
      if size < offset + init.length then .error out_of_bounds
      else
        match check_segments imported_globals global_types globals size out_of_bounds rest with
        | .error e => .error e
        | .ok segments => .ok ((offset, init) :: segments)

/-- Modelled from the spec: the element segments of a module as offset
expressions and table entries. -/
def element_segments (module : Module) : List (ConstantExpression × List (Option Nat)) :=
  module.elementsec.map fun element => (element.offset, element.init.map some)

/-- Modelled from the spec: the data segments of a module as offset
expressions and bytes. -/
def data_segments (module : Module) : List (ConstantExpression × List Nat) :=
  module.datasec.map fun data => (data.offset, data.init)

/-- The address `addr` is one that the segment with content `init` at
`offset` covers. -/
def covers {α : Type} (offset : Nat) (init : List α) (addr : Nat) : Prop :=
  offset ≤ addr ∧ addr < offset + init.length

/-- Modelled from the spec: the copy of the content `init` of a segment into a
storage at `offset`; the segment is within bounds when this is called. -/
def write_at {α : Type} (storage : List α) (offset : Nat) (init : List α) : List α :=
  storage.take offset ++ init ++ storage.drop (offset + init.length)

/-- Modelled from the spec: the application of the segments "in declaration
order", each at its offset. -/
def apply_segments {α : Type} (storage : List α) : List (Nat × List α) → List α
  | [] => storage
  | (offset, init) :: rest => apply_segments (write_at storage offset init) rest

/-- Modelled from the spec: import resolution and declared-resource
allocation of section 4.4, the first part of the missing function
`instantiate`: the four steps of import resolution in their order, then the
table, the memory and the globals. The result is the instance before any
segment is applied. -/
def allocate (module : Module) (imported_functions : List ExternalFunction)
    (imported_tables : List ExternalTable) (imported_memories : List ExternalMemory)
    (imported_globals : List ExternalGlobal) : Except instantiate_error Instance :=
  match match_imported_functions (imported_function_types module) imported_functions with
  | .error e => .error e
  | .ok () =>
    match match_imported_tables (imported_table_types module) imported_tables with
    | .error e => .error e
    | .ok () =>
      match match_imported_memories (imported_memory_types module) imported_memories with
      | .error e => .error e
      | .ok () =>
        match match_imported_globals (imported_globals_mutability module) imported_globals with
        | .error e => .error e
        | .ok () =>
          match allocate_table module.tablesec imported_tables with
          | .error e => .error e
          | .ok table =>
            match allocate_memory module.memorysec imported_memories with
            | .error e => .error e
            | .ok (memory, memory_max) =>
              match init_globals imported_globals module.globalsec module.globalsec [] with
              | .error e => .error e
              | .ok globals =>
                .ok { module := module
                      memory := memory
                      memory_max_pages := memory_max
                      table := table
                      globals := globals
                      imported_functions := imported_functions
                      imported_globals := imported_globals }

/-- Modelled from the spec: segment application of section 4.4 as a stage on
the instance, whose table and memory are the storage of the host when they are
imported: the error that has ended the stage, if there is one, and the instance
at the end of the stage. The stage follows the first of the two strategies of
the spec, "validate every segment's bounds before applying any, then apply in
declaration order": the two validations read the instance, and the segments
are written, elements first, then data, once both validations have passed.
The spec leaves open which kind is validated first; the elements are. -/
def segment_stage (inst : Instance) : Option instantiate_error × Instance :=
  match check_segments inst.imported_globals inst.module.globalsec inst.globals
      (storage_size inst.table) ⟨"Element segment is out of table bounds"⟩
      (element_segments inst.module) with
  | .error e => (some e, inst)
  | .ok elements =>
    match check_segments inst.imported_globals inst.module.globalsec inst.globals
        (storage_size inst.memory) ⟨"Data segment is out of memory bounds"⟩
        (data_segments inst.module) with
    | .error e => (some e, inst)
    | .ok datas =>
      (none, { inst with
            table := inst.table.map fun table => apply_segments table elements
            memory := inst.memory.map fun memory => apply_segments memory datas })

/-- Modelled from the spec: the result of segment application, the second part
of the missing function `instantiate`: the error of the stage, or the instance
with the segments applied. -/
def fill_segments (inst : Instance) : Except instantiate_error Instance :=
  match segment_stage inst with
  | (some e, _) => .error e
  | (none, filled) => .ok filled

/-- Modelled from the spec: what `instantiate` leaves behind: the instance or
the error, and the tables and memories of the host as they are after the
call. -/
structure Outcome where
  result : Except instantiate_error Instance
  imported_tables : List ExternalTable
  imported_memories : List ExternalMemory

/-- Modelled from the spec: the tables of the host once an instance shares
them: the storage of an imported table is the table of the instance. -/
def shared_tables (inst : Instance) (imported_tables : List ExternalTable) :
    List ExternalTable :=
  imported_tables.map fun t => { t with table := inst.table }

/-- Modelled from the spec: the memories of the host once an instance shares
them: the storage of an imported memory is the memory of the instance. -/
def shared_memories (inst : Instance) (imported_memories : List ExternalMemory) :
    List ExternalMemory :=
  imported_memories.map fun m => { m with data := inst.memory }

/-- Modelled from the spec: the missing function `instantiate` of section 4.4.
The interpreter is the parameter `execute`, which returns the result of a call
and the instance after it. An error of import resolution or of allocation
comes before anything is written and leaves the tables and memories of the
host as they were; from the segment stage on, an imported table or memory is
the one of the instance, so that the host sees what the instance holds when
the call ends: at an error of the segment stage, what `segment_stage` has left;
the start function, if there is one, "is invoked with no arguments after
segments are applied", and a trap fails the instantiation. -/
def instantiate (execute : Instance → Nat → List Nat → execution_result × Instance)
    (module : Module) (imported_functions : List ExternalFunction)
    (imported_tables : List ExternalTable) (imported_memories : List ExternalMemory)
    (imported_globals : List ExternalGlobal) : Outcome :=
  match allocate module imported_functions imported_tables imported_memories
      imported_globals with
  | .error e => ⟨.error e, imported_tables, imported_memories⟩
  | .ok allocated =>
    match segment_stage allocated with
    | (some e, failed) =>
      ⟨.error e, shared_tables failed imported_tables,
        shared_memories failed imported_memories⟩
    | (none, inst) =>
      match module.startfunc with
      | none =>
        ⟨.ok inst, shared_tables inst imported_tables,
          shared_memories inst imported_memories⟩
      | some func_idx =>
        match execute inst func_idx [] with
        | (res, started) =>
          if res.trapped then
            ⟨.error ⟨"Start function failed to execute"⟩,
              shared_tables started imported_tables, shared_memories started imported_memories⟩
          else
            ⟨.ok started, shared_tables started imported_tables,
              shared_memories started imported_memories⟩

/-- Modelled from the spec: the interpreter of section 4.6 on a straight-line
body, from the operand stack `stack`: the result is whether the body trapped,
the operand stack and the instance at the end. `unreachable` traps;
`memory.grow` pops a number of pages and pushes the page count of before, or
pushes -1 as an `i32` and leaves the memory alone if the new size would exceed
`memory_max_pages`; `i32.store8` pops a value and a base address and traps if
the byte at base plus offset is outside the memory. A body that `parse`
returns never pops from an empty stack and uses a memory only if there is one;
here such a body traps. -/
def run_body : List Instr → Instance → List Nat → Bool × List Nat × Instance
  | [], inst, stack => (false, stack, inst)
  | .unreachable :: _, inst, stack => (true, stack, inst)
  | .i32_const value :: rest, inst, stack => run_body rest inst (value :: stack)
  | .drop :: rest, inst, _ :: stack => run_body rest inst stack
  | .memory_grow :: rest, inst, pages :: stack =>
    match inst.memory with
    | some memory =>
      if inst.memory_max_pages < memory.length / PageSize + pages then
        run_body rest inst (4294967295 :: stack)
      else
        run_body rest
          { inst with memory := some (memory ++ List.replicate (pages * PageSize) 0) }
          (memory.length / PageSize :: stack)
    | none => (true, stack, inst)
  | .i32_store8 offset :: rest, inst, value :: base :: stack =>
    match inst.memory with
    | some memory =>
      if memory.length < base + offset + 1 then (true, stack, inst)
      else
        run_body rest
          { inst with memory := some (memory.set (base + offset) (value % 256)) } stack
    | none => (true, stack, inst)
  | _ :: _, inst, stack => (true, stack, inst)

/-- Modelled from the spec: the missing function `execute` of section 4.6, for
the functions of the module whose bodies are straight-line code over `Instr`.
The function index space has the imported functions first; a call of a host
function is outside this model and is a trap here, as is a function without a
body. The modelled instructions read no local, so the arguments are not
used. On non-trap termination the result is the top of the operand stack if
the function declares an output, and absent otherwise. -/
def execute (inst : Instance) (func_idx : Nat) (_args : List Nat) :
    execution_result × Instance :=
  if func_idx < inst.imported_functions.length then (⟨true, none⟩, inst)
  else
    match inst.module.codesec[func_idx - inst.imported_functions.length]? with
    | none => (⟨true, none⟩, inst)
    | some body =>
      match run_body body inst [] with
      | (true, _, after) => (⟨true, none⟩, after)
      | (false, stack, after) =>
        match inst.module.funcsec[func_idx - inst.imported_functions.length]? with
        | none => (⟨false, none⟩, after)
        | some type_index =>
          match inst.module.typesec[type_index]? with
          | none => (⟨false, none⟩, after)
          | some type =>
            if type.outputs = [] then (⟨false, none⟩, after)
            else (⟨false, stack.head?⟩, after)

/-! ## Modules of the unit tests -/

/-- The module of the unit test
`element_section_out_of_bounds_doesnt_change_imported_table`: an imported
table of minimum 3 and two element segments of two entries each, at offsets 0
and 2; the second one is out of bounds. -/
def module_element_out_of_bounds : Module :=
  { typesec := [⟨[], [.i32]⟩]
    importsec := [⟨"m", "tab", .Table ⟨⟨3, none⟩⟩⟩]
    funcsec := [0]
    elementsec := [⟨.Constant 0, [0, 0]⟩, ⟨.Constant 2, [0, 0]⟩] }

/-- The first module of the unit test
`data_elem_section_errors_dont_change_imports`: an imported table of minimum 3
and an imported memory of minimum one page, one element segment of two entries
at offset 0, which is in bounds, and two data segments of one byte each, at
offsets 0 and 65536; the second one is out of bounds. -/
def module_data_error : Module :=
  { typesec := [⟨[], [.i32]⟩]
    importsec := [⟨"m", "tab", .Table ⟨⟨3, none⟩⟩⟩, ⟨"m", "mem", .Memory ⟨⟨1, none⟩⟩⟩]
    funcsec := [0]
    elementsec := [⟨.Constant 0, [0, 0]⟩]
    datasec := [⟨.Constant 0, [97]⟩, ⟨.Constant 65536, [97]⟩] }

/-- A module that declares one memory of no page and at most one, and whose
start function is `i32.const 1; memory.grow; drop`. -/
def module_start_grows : Module :=
  { typesec := [⟨[], []⟩]
    funcsec := [0]
    memorysec := [⟨⟨0, some 1⟩⟩]
    startfunc := some 0
    codesec := [[.i32_const 1, .memory_grow, .drop]] }

/-- The module of the unit test `data_section_fills_imported_memory`: an
imported memory of exactly one page and two data segments that overlap. -/
def module_data_section : Module :=
  { importsec := [⟨"mod", "m", .Memory ⟨⟨1, some 1⟩⟩⟩]
    datasec := [⟨.Constant 1, [170, 255]⟩, ⟨.Constant 2, [85, 85]⟩] }

/-- The module `module_data_section` with a start function that stores the
byte 7 at address 0: `i32.const 0; i32.const 7; i32.store8 0`. -/
def module_start_stores : Module :=
  { typesec := [⟨[], []⟩]
    importsec := [⟨"mod", "m", .Memory ⟨⟨1, some 1⟩⟩⟩]
    funcsec := [0]
    startfunc := some 0
    codesec := [[.i32_const 0, .i32_const 7, .i32_store8 0]]
    datasec := [⟨.Constant 1, [170, 255]⟩, ⟨.Constant 2, [85, 85]⟩] }

/-- The instance of `module` that has the memory `memory` of at most one page
and nothing else. -/
def instance_with_memory (module : Module) (memory : bytes) : Instance :=
  { module := module
    memory := some memory
    memory_max_pages := 1
    table := none
    globals := []
    imported_functions := []
    imported_globals := [] }

/-- The module of the unit test `element_section_fills_imported_table`. -/
def module_element_section : Module :=
  { importsec := [⟨"mod", "t", .Table ⟨⟨4, none⟩⟩⟩]
    elementsec := [⟨.Constant 1, [170, 255]⟩, ⟨.Constant 2, [85, 102]⟩] }

/-- The module of the unit test `start_unreachable`: one function without
inputs and outputs whose body is `unreachable`, and it is the start function. -/
def module_start_unreachable : Module :=
  { typesec := [⟨[], []⟩]
    funcsec := [0]
    startfunc := some 0
    codesec := [[.unreachable]] }

/-- The instance of `module` that has no table, no memory and no global, and
no import. -/
def bare_instance (module : Module) : Instance :=
  { module := module
    memory := none
    memory_max_pages := MemoryPagesLimit
    table := none
    globals := []
    imported_functions := []
    imported_globals := [] }

/-- The module of the unit tests `imported_functions_not_enough` and
`imported_function_wrong_type`: one imported function of type `i32 -> i32`. -/
def module_imported_function : Module :=
  { typesec := [⟨[.i32], [.i32]⟩]
    importsec := [⟨"mod", "foo", .Function 0⟩] }

/-- The module of the unit test `imported_functions_multiple`: two imported
functions, of type `i32 -> i32` and of type `() -> ()`. -/
def module_imported_functions_multiple : Module :=
  { typesec := [⟨[.i32], [.i32]⟩, ⟨[], []⟩]
    importsec := [⟨"mod", "foo1", .Function 0⟩, ⟨"mod", "foo2", .Function 1⟩] }

/-- The module of the unit tests on imported globals: two imported globals,
the first one mutable, the second one not. -/
def module_imported_globals : Module :=
  { importsec := [⟨"mod", "g1", .Global true⟩, ⟨"mod", "g2", .Global false⟩] }

/-- The module of the unit test `globals_with_imported`: one imported mutable
global and two globals of the module, initialised to 42 and 43. -/
def module_globals_with_imported : Module :=
  { importsec := [⟨"mod", "g1", .Global true⟩]
    globalsec := [⟨true, .Constant 42⟩, ⟨false, .Constant 43⟩] }

/-- The first module of the unit test `globals_initialized_from_imported`: one
imported immutable global and one global initialised from it. -/
def module_global_from_imported : Module :=
  { importsec := [⟨"mod", "g1", .Global false⟩]
    globalsec := [⟨true, .GlobalGet 0⟩] }

/-- The second module of the unit test `globals_initialized_from_imported`:
one imported mutable global and one global initialised from it. -/
def module_global_from_mutable : Module :=
  { importsec := [⟨"mod", "g1", .Global true⟩]
    globalsec := [⟨true, .GlobalGet 0⟩] }

/-- The third module of the unit test `globals_initialized_from_imported`:
nothing is imported, and a second global is initialised from the first one. -/
def module_global_from_global : Module :=
  { globalsec := [⟨true, .Constant 42⟩, ⟨true, .GlobalGet 0⟩] }

/-- The module of the unit test `element_section_offset_from_global`: a table
of four entries, an immutable global of the module with the value 1, and an
element segment whose offset is this global. -/
def module_element_offset_from_global : Module :=
  { tablesec := [⟨⟨4, none⟩⟩]
    globalsec := [⟨false, .Constant 1⟩]
    elementsec := [⟨.GlobalGet 0, [170, 255]⟩] }

/-- The module of the unit test `element_section_offset_from_imported_global`:
as before, the global being imported. -/
def module_element_offset_from_imported_global : Module :=
  { importsec := [⟨"mod", "g1", .Global false⟩]
    tablesec := [⟨⟨4, none⟩⟩]
    elementsec := [⟨.GlobalGet 0, [170, 255]⟩] }

/-- The module of the unit test `element_section_offset_from_mutable_global`:
the global of the module is mutable. -/
def module_element_offset_from_mutable_global : Module :=
  { tablesec := [⟨⟨4, none⟩⟩]
    globalsec := [⟨true, .Constant 42⟩]
    elementsec := [⟨.GlobalGet 0, [170, 255]⟩] }

/-- The module of the unit test `data_section_offset_from_global`: a memory of
one page, an immutable global of the module with the value 42, and a data
segment whose offset is this global. -/
def module_data_offset_from_global : Module :=
  { memorysec := [⟨⟨1, some 1⟩⟩]
    globalsec := [⟨false, .Constant 42⟩]
    datasec := [⟨.GlobalGet 0, [170, 255]⟩] }

/-- The instance of `module_data_offset_from_global` before its data segment
is applied: a memory of one page of zero bytes and the global of value 42. -/
def instance_data_offset_from_global : Instance :=
  { module := module_data_offset_from_global
    memory := some (List.replicate (1 * PageSize) 0)
    memory_max_pages := 1
    table := none
    globals := [42]
    imported_functions := []
    imported_globals := [] }

/-! ## The abstraction of an `OperandStack` as a list -/

/-- The live slots of an `OperandStack` from bottom to top: the first `size()`
slots of the array. -/
def OperandStack.live_slots (s : OperandStack) : List Nat :=
  s.m_storage.take s.size

/-! ## The spectest harness (`spectests.cpp`) -/

/-- The exceptions of the library calls that `json_to_value` makes:
`nlohmann::json::type_error` from `get<std::string>` on a value that is not a
string, `std::invalid_argument` and `std::out_of_range` from `std::stoull`. -/
inductive Exception where
  | type_error
  | invalid_argument
  | out_of_range
  deriving DecidableEq, Repr

/-- A value of `nlohmann::json`. -/
inductive json where
  | null
  | boolean (value : Bool)
  | number (value : Int)
  | string (value : String)
  | array (items : List json)
  | object (members : List (String × json))

/-- The call `v.get<std::string>()`: the content of a JSON string; a value of
another type throws. -/
def json.get_string : json → Except Exception String
  | .string value => .ok value
  | _ => .error .type_error

/-- The function `isspace` of the C library in the "C" locale: space, and the
control characters from horizontal tab to carriage return. -/
def isspace (c : Char) : Bool :=
  c.toNat = 32 || (9 ≤ c.toNat && c.toNat ≤ 13)

/-- The function `isdigit` of the C library: `0` to `9`. -/
def isdigit (c : Char) : Bool :=
  48 ≤ c.toNat && c.toNat ≤ 57

/-- The call `std::stoull(str)`, base 10, that is `strtoull` with the checks of
`std::stoull`: white space is skipped, one sign is accepted, the longest run of
decimal digits is converted; no digit at all throws `std::invalid_argument`, a
value that an `unsigned long long` cannot hold throws `std::out_of_range`, and
a minus sign negates the value in `unsigned long long`. What follows the
digits is ignored. -/
def stoull (str : String) : Except Exception Nat :=
  let skipped := str.data.dropWhile isspace
  let negative := skipped.head? = some '-'
  let unsigned := if skipped.head? = some '-' ∨ skipped.head? = some '+' then skipped.tail
    else skipped
  let digits := unsigned.takeWhile isdigit
  if digits = [] then .error .invalid_argument
  else
    let value := digits.foldl (fun acc c => 10 * acc + (c.toNat - 48)) 0
    if WORD ≤ value then .error .out_of_range
    else .ok (if negative then (WORD - value) % WORD else value)

/-- The template argument `T` of `json_to_value`, as the harness instantiates
it. -/
inductive IntType where
  | int32_t
  | int64_t
  deriving DecidableEq, Repr

/-- The width in bits of `std::make_unsigned_t<T>`. -/
def IntType.bits : IntType → Nat
  | .int32_t => 32
  | .int64_t => 64

/-- The function template `json_to_value<T>`:
`static_cast<std::make_unsigned_t<T>>(std::stoull(v.get<std::string>()))`,
converted to the return type `uint64_t`. -/
def json_to_value (T : IntType) (v : json) : Except Exception Nat :=
  match v.get_string with
  | .error e => .error e
  | .ok str =>
    match stoull str with
    | .error e => .error e
    | .ok value => .ok (value % 2 ^ T.bits % WORD)

/-! ## The spectest harness: the test runner -/

/-- What ends a member function of `test_runner` before it returns: an
exception that nothing in the runner catches, which is
`nlohmann::json::parse_error` from `json::parse`,
`nlohmann::json::out_of_range` from `at` with a key or an index that is not
there, or one of the exceptions of `Exception`; or the overflow of an `int`,
whose behaviour is undefined. -/
inductive Abort where
  | json_parse_error
  | json_out_of_range
  | exception (e : Exception)
  | signed_overflow
  deriving DecidableEq, Repr

/-- The constant `UnnamedModule`. -/
def UnnamedModule : String := "_unnamed"

/-- The largest value of an `int`. -/
def INT_MAX : Int := 2147483647

/-- The call `j.find(key)`, with `none` for `j.end()`: the member of an object
with this key; a value that is not an object has no member. -/
def json.find (j : json) (key : String) : Option json :=
  match j with
  | .object members => members.lookup key
  | _ => none

/-- The call `j.at(key)`: the member of an object with this key; a missing key
throws `out_of_range` and a value that is not an object throws `type_error`. -/
def json.at_key (j : json) (key : String) : Except Abort json :=
  match j with
  | .object members =>
    match members.lookup key with
    | some value => .ok value
    | none => .error .json_out_of_range
  | _ => .error (.exception .type_error)

/-- The call `j.at(idx)`: the element of an array at this index; an index that
is not there throws `out_of_range` and a value that is not an array throws
`type_error`. -/
def json.at_index (j : json) (idx : Nat) : Except Abort json :=
  match j with
  | .array items =>
    match items[idx]? with
    | some value => .ok value
    | none => .error .json_out_of_range
  | _ => .error (.exception .type_error)

/-- The call `j.at(key).get<std::string>()`. -/
def json.string_at (j : json) (key : String) : Except Abort String :=
  match j.at_key key with
  | .error e => .error e
  | .ok value =>
    match value.get_string with
    | .error e => .error (.exception e)
    | .ok str => .ok str

/-- The call `j.get<int>()`: a number converts, a boolean is 0 or 1, and a value
of another type throws. The conversion of a number that an `int` cannot hold is
not modelled: the runner only prints the value. -/
def json.get_int : json → Except Abort Int
  | .number value => .ok value
  | .boolean value => .ok (if value then 1 else 0)
  | _ => .error (.exception .type_error)

/-- The call `j.empty()`: `null` is empty, an array or an object is empty if it
has no element, and every other value is not. -/
def json.empty : json → Bool
  | .null => true
  | .array items => items.isEmpty
  | .object members => members.isEmpty
  | _ => false

/-- The values that a range-based `for` over `j` visits: the elements of an
array, the values of the members of an object, nothing for `null`, and the
value itself for every other value. -/
def json.elements : json → List json
  | .array items => items
  | .object members => members.map fun member => member.2
  | .null => []
  | .boolean value => [.boolean value]
  | .number value => [.number value]
  | .string value => [.string value]

/-- The exception `fizzy::parser_error`, with its text. -/
structure parser_error where
  message : String
  deriving DecidableEq, Repr

/-- The functions of the library and of the file system that the runner calls:
`fizzy::parse`, `fizzy::instantiate` without imports,
`fizzy::find_exported_function`, `fizzy::execute`, which returns the result and
the instance after the call, `load_wasm_file`, which reads the file `filename`
next to the file at `json_file_path`, and `json::parse` on the file at a path.
The runner is a function of them. -/
structure Library where
  parse : bytes → Except parser_error Module
  instantiate : Module → Except instantiate_error Instance
  find_exported_function : Module → String → Option Nat
  execute : Instance → Nat → List Nat → execution_result × Instance
  load_wasm_file : String → String → bytes
  json_parse : String → Option json

/-- The structure `test_settings`. -/
structure test_settings where
  skip_validation : Bool := false
  deriving DecidableEq, Repr

/-- The structure `test_results`: three `int` counters. -/
structure test_results where
  passed : Int := 0
  failed : Int := 0
  skipped : Int := 0
  deriving DecidableEq, Repr

/-- The data members of the class `test_runner`; `instances` is the
`std::unordered_map` from names to instances, as a list of its entries. -/
structure test_runner where
  settings : test_settings
  instances : List (String × Instance)
  results : test_results

/-- The results `after` are the results `before` with exactly one of the three
counters incremented by one and the two others as they were. -/
def test_results.one_more (before after : test_results) : Prop :=
  after = { before with passed := before.passed + 1 } ∨
  after = { before with failed := before.failed + 1 } ∨
  after = { before with skipped := before.skipped + 1 }

/-- The increment `++n` of an `int`. -/
def increment (n : Int) : Except Abort Int :=
  if n = INT_MAX then .error .signed_overflow else .ok (n + 1)

/-- The smallest value of an `int`. -/
def INT_MIN : Int := -2147483648

/-- The sum `a + b` of two `int`s. -/
def add (a b : Int) : Except Abort Int :=
  if a + b < INT_MIN ∨ INT_MAX < a + b then .error .signed_overflow else .ok (a + b)

namespace test_runner

/-- The constructor `test_runner(ts)`: no instance and three counters at 0. -/
def new (ts : test_settings) : test_runner :=
  { settings := ts, instances := [], results := {} }

/-- The call `instances.erase(name)`. -/
def erase (instances : List (String × Instance)) (name : String) : List (String × Instance) :=
  instances.filter fun entry => entry.1 ≠ name

/-- The assignment `instances[name] = inst`. -/
def assign (instances : List (String × Instance)) (name : String) (inst : Instance) :
    List (String × Instance) :=
  (name, inst) :: erase instances name

/-- Member `pass`: `++results.passed`; the output is not modelled. -/
def pass (r : test_runner) : Except Abort test_runner :=
  match increment r.results.passed with
  | .error e => .error e
  | .ok n => .ok { r with results := { r.results with passed := n } }

/-- Member `fail`: `++results.failed`; the output is not modelled. -/
def fail (r : test_runner) : Except Abort test_runner :=
  match increment r.results.failed with
  | .error e => .error e
  | .ok n => .ok { r with results := { r.results with failed := n } }

/-- Member `skip`: `++results.skipped`; the output is not modelled. -/
def skip (r : test_runner) : Except Abort test_runner :=
  match increment r.results.skipped with
  | .error e => .error e
  | .ok n => .ok { r with results := { r.results with skipped := n } }

/-- The conversion that `invoke` makes of an argument and `run_from_file` of an
expected value, `v` being the argument or the expected value and `type` its
`"type"`: `json_to_value<int32_t>(v.at("value"))` for `i32`,
`json_to_value<int64_t>(v.at("value"))` for `i64`, and `none` for a type that
is not supported, for which the caller skips. -/
def value_of_type (type : String) (v : json) : Except Abort (Option Nat) :=
  if type = "i32" then
    match v.at_key "value" with
    | .error e => .error e
    | .ok value =>
      match json_to_value .int32_t value with
      | .error e => .error (.exception e)
      | .ok n => .ok (some n)
  else if type = "i64" then
    match v.at_key "value" with
    | .error e => .error e
    | .ok value =>
      match json_to_value .int64_t value with
      | .error e => .error (.exception e)
      | .ok n => .ok (some n)
  else .ok none

/-- The loop of `invoke` over `action.at("args")`: the arguments converted so
far are followed by the next one; `none` is the `return std::nullopt` at an
argument whose type is not supported, which the caller precedes by `skip`. -/
def invoke_args : List json → Except Abort (Option (List Nat))
  | [] => .ok (some [])
  | arg :: rest =>
    match arg.string_at "type" with
    | .error e => .error e
    | .ok arg_type =>
      match value_of_type arg_type arg with
      | .error e => .error e
      | .ok none => .ok none
      | .ok (some arg_value) =>
        match invoke_args rest with
        | .error e => .error e
        | .ok none => .ok none
        | .ok (some args) => .ok (some (arg_value :: args))

/-- Member `invoke`: the result of the call, or `none` for `std::nullopt`, and
the runner after it. The instance that `execute` has run on takes the place of
the one in `instances`. -/
def invoke (lib : Library) (action : json) (r : test_runner) :
    Except Abort (Option execution_result × test_runner) :=
  match (match action.find "module" with
      | some name => name.get_string
      | none => .ok UnnamedModule) with
  | .error e => .error (.exception e)
  | .ok module_name =>
    match r.instances.lookup module_name with
    | none =>
      match r.skip with
      | .error e => .error e
      | .ok r1 => .ok (none, r1)
    | some inst =>
      match action.string_at "field" with
      | .error e => .error e
      | .ok func_name =>
        match lib.find_exported_function inst.module func_name with
        | none =>
          match r.skip with
          | .error e => .error e
          | .ok r1 => .ok (none, r1)
        | some func_idx =>
          match action.at_key "args" with
          | .error e => .error e
          | .ok args_json =>
            match invoke_args args_json.elements with
            | .error e => .error e
            | .ok none =>
              match r.skip with
              | .error e => .error e
              | .ok r1 => .ok (none, r1)
            | .ok (some args) =>
              match lib.execute inst func_idx args with
              | (result, after) =>
                .ok (some result,
                  { r with instances := assign r.instances module_name after })

/-- The branch `type == "module"` of the loop of `run_from_file`. -/
def run_module (lib : Library) (path : String) (cmd : json) (r : test_runner) :
    Except Abort test_runner :=
  match cmd.string_at "filename" with
  | .error e => .error e
  | .ok filename =>
    match (match cmd.find "name" with
        | some _ => cmd.string_at "name"
        | none => .ok UnnamedModule) with
    | .error e => .error e
    | .ok name =>
      match lib.parse (lib.load_wasm_file path filename) with
      | .error _ =>
        match r.fail with
        | .error e => .error e
        | .ok r1 => .ok { r1 with instances := erase r1.instances name }
      | .ok module =>
        match lib.instantiate module with
        | .error _ =>
          match r.fail with
          | .error e => .error e
          | .ok r1 => .ok { r1 with instances := erase r1.instances name }
        | .ok inst => pass { r with instances := assign r.instances name inst }

/-- The part of the branch `type == "assert_return" || type == "action"` that
follows an `invoke` that has returned a result. -/
def check_result (cmd : json) (result : execution_result) (r : test_runner) :
    Except Abort test_runner :=
  if result.trapped then r.fail
  else
    match cmd.at_key "expected" with
    | .error e => .error e
    | .ok expected =>
      if expected.empty then
        if result.result.isNone then r.pass else r.fail
      else
        match result.result with
        | none => r.fail
        | some actual_value =>
          match expected.at_index 0 with
          | .error e => .error e
          | .ok first =>
            match first.string_at "type" with
            | .error e => .error e
            | .ok expected_type =>
              match value_of_type expected_type first with
              | .error e => .error e
              | .ok none => r.skip
              | .ok (some expected_value) =>
                if expected_value ≠ actual_value then r.fail else r.pass

/-- The branch `type == "assert_return" || type == "action"` of the loop of
`run_from_file`. -/
def run_assert_return (lib : Library) (cmd : json) (r : test_runner) :
    Except Abort test_runner :=
  match cmd.at_key "action" with
  | .error e => .error e
  | .ok action =>
    match action.string_at "type" with
    | .error e => .error e
    | .ok action_type =>
      if action_type = "invoke" then
        match r.invoke lib action with
        | .error e => .error e
        | .ok (none, r1) => .ok r1
        | .ok (some result, r1) => check_result cmd result r1
      else r.skip

/-- The branch `type == "assert_trap"` of the loop of `run_from_file`. -/
def run_assert_trap (lib : Library) (cmd : json) (r : test_runner) :
    Except Abort test_runner :=
  match cmd.at_key "action" with
  | .error e => .error e
  | .ok action =>
    match action.string_at "type" with
    | .error e => .error e
    | .ok action_type =>
      if action_type ≠ "invoke" then r.skip
      else
        match r.invoke lib action with
        | .error e => .error e
        | .ok (none, r1) => .ok r1
        | .ok (some result, r1) => if ¬ result.trapped then r1.fail else r1.pass

/-- The branch `type == "assert_invalid" || type == "assert_malformed"` of the
loop of `run_from_file`. -/
def run_assert_invalid (lib : Library) (path : String) (type : String) (cmd : json)
    (r : test_runner) : Except Abort test_runner :=
  if type = "assert_invalid" ∧ r.settings.skip_validation then r.skip
  else
    match cmd.string_at "module_type" with
    | .error e => .error e
    | .ok module_type =>
      if module_type ≠ "binary" then r.skip
      else
        match cmd.string_at "filename" with
        | .error e => .error e
        | .ok filename =>
          match lib.parse (lib.load_wasm_file path filename) with
          | .error _ => r.pass
          | .ok _ =>
            match cmd.string_at "text" with
            | .error e => .error e
            | .ok _ => r.fail

/-- The body of the loop of `run_from_file` for the command `cmd`; `path` is
the path of the JSON file. -/
def run_command (lib : Library) (path : String) (cmd : json) (r : test_runner) :
    Except Abort test_runner :=
  match cmd.string_at "type" with
  | .error e => .error e
  | .ok type =>
    match cmd.at_key "line" with
    | .error e => .error e
    | .ok line =>
      match line.get_int with
      | .error e => .error e
      | .ok _ =>
        if type = "module" then run_module lib path cmd r
        else if type = "assert_return" ∨ type = "action" then run_assert_return lib cmd r
        else if type = "assert_trap" then run_assert_trap lib cmd r
        else if type = "assert_invalid" ∨ type = "assert_malformed" then
          run_assert_invalid lib path type cmd r
        else r.skip

/-- The loop of `run_from_file` over the commands. -/
def run_commands (lib : Library) (path : String) :
    List json → test_runner → Except Abort test_runner
  | [], r => .ok r
  | cmd :: rest, r =>
    match run_command lib path cmd r with
    | .error e => .error e
    | .ok r1 => run_commands lib path rest r1

/-- Member `run_from_file`: the file is parsed, the commands under
`"commands"` are run in order, the sum of the three counters is computed for
the log, and the results are returned; the runner after the call is returned
with them. -/
def run_from_file (lib : Library) (path : String) (r : test_runner) :
    Except Abort (test_results × test_runner) :=
  match lib.json_parse path with
  | none => .error .json_parse_error
  | some j =>
    match j.at_key "commands" with
    | .error e => .error e
    | .ok commands =>
      match run_commands lib path commands.elements r with
      | .error e => .error e
      | .ok r1 =>
        match add r1.results.passed r1.results.failed with
        | .error e => .error e
        | .ok sum =>
          match add sum r1.results.skipped with
          | .error e => .error e
          | .ok _ => .ok (r1.results, r1)

end test_runner

/-! ## A test script for the runner -/

/-- A module with two functions: function 0 returns the `i32` 7 and function 1
traps. -/
def module_of_script : Module :=
  { typesec := [⟨[], [.i32]⟩, ⟨[], []⟩]
    funcsec := [0, 1]
    codesec := [[.i32_const 7], [.unreachable]] }

/-- A command of a test script that invokes the function `field` of the unnamed
module. -/
def invoke_command (type : String) (line : Int) (field : String) (args expected : List json) :
    json :=
  .object [("type", .string type), ("line", .number line),
    ("action", .object [("type", .string "invoke"), ("field", .string field),
      ("args", .array args)]),
    ("expected", .array expected)]

/-- A typed value of a test script. -/
def typed_value (type value : String) : json :=
  .object [("type", .string type), ("value", .string value)]

/-- A test script of ten commands: an invocation before any module is there, a
module that instantiates, a return value that is met and one that is not, a
function that traps as expected, a function that is not exported, a malformed
binary, a module whose start function traps, a command that the runner does
not know and an argument of a type that the runner does not support. -/
def script : json :=
  .object [("commands", .array [
    invoke_command "assert_return" 1 "seven" [] [typed_value "i32" "7"],
    .object [("type", .string "module"), ("line", .number 2),
      ("filename", .string "good.wasm")],
    invoke_command "assert_return" 3 "seven" [] [typed_value "i32" "7"],
    invoke_command "assert_return" 4 "seven" [] [typed_value "i32" "8"],
    invoke_command "assert_trap" 5 "trap" [] [],
    invoke_command "assert_return" 6 "missing" [] [],
    .object [("type", .string "assert_malformed"), ("line", .number 7),
      ("filename", .string "bad.wasm"), ("text", .string "unexpected end"),
      ("module_type", .string "binary")],
    .object [("type", .string "module"), ("line", .number 8),
      ("name", .string "$m"), ("filename", .string "start_traps.wasm")],
    .object [("type", .string "register"), ("line", .number 9)],
    invoke_command "assert_return" 10 "seven" [typed_value "f32" "1"] []])]

/-- A library for the test script: the file `good.wasm` holds
`module_of_script`, which exports its functions as `seven` and `trap`, the file
`start_traps.wasm` holds `module_start_unreachable`, every other file is
rejected by `parse`, and `script.json` holds `script`; `instantiate` and
`execute` are the functions of this development. -/
def library_of_script : Library :=
  { parse := fun binary =>
      if binary = [0] then .ok module_of_script
      else if binary = [1] then .ok module_start_unreachable
      else .error ⟨"invalid module"⟩
    instantiate := fun module => (instantiate execute module [] [] [] []).result
    find_exported_function := fun _ name =>
      if name = "seven" then some 0 else if name = "trap" then some 1 else none
    execute := execute
    load_wasm_file := fun _ filename =>
      if filename = "good.wasm" then [0]
      else if filename = "start_traps.wasm" then [1]
      else []
    json_parse := fun path => if path = "script.json" then some script else none }

/-! ## Arithmetic of the top pointer -/

namespace OperandStack

theorem size_with_height (base : Nat) (st : List Nat) (n : Nat)
    (hn : SLOT * n < WORD / 2) : (with_height base st n).size = n := by
  simp only [size, with_height, ptr_diff, ptr_add, WORD, SLOT] at *
  split <;> omega

theorem slot_of_with_height (base : Nat) (st : List Nat) (n i : Nat)
    (hl : SLOT * st.length < WORD / 2) (hn : n ≤ st.length) (hi : i < n) :
    (with_height base st n).slot_of (ptr_sub (with_height base st n).m_top i)
      = .ok (n - 1 - i) := by
  simp only [slot_of, with_height, ptr_sub, WORD, SLOT] at *
  rw [if_pos (by constructor <;> omega)]
  congr 1
  omega

theorem m_top_with_height_lt (base : Nat) (st : List Nat) (n : Nat) :
    (with_height base st n).m_top < WORD := by
  simp only [with_height, WORD, SLOT]
  omega

theorem ptr_sub_zero (p : Nat) (hp : p < WORD) : ptr_sub p 0 = p := by
  simp only [ptr_sub, WORD, SLOT] at *
  omega

theorem ptr_add_with_height (base : Nat) (st : List Nat) (n : Nat) :
    ptr_add (with_height base st n).m_top 1 = (with_height base st (n + 1)).m_top := by
  simp only [with_height, ptr_add, WORD, SLOT]
  omega

theorem ptr_sub_with_height (base : Nat) (st : List Nat) (n : Nat) (hn : 0 < n) :
    ptr_sub (with_height base st n).m_top 1 = (with_height base st (n - 1)).m_top := by
  simp only [with_height, ptr_sub, WORD, SLOT]
  omega

theorem eq_with_height {s : OperandStack} (h : Inv s) :
    s = with_height s.base s.m_storage s.size := by
  cases s
  simp only [with_height, mk.injEq, and_true, true_and]
  exact h.2.2

theorem inv_with_height (base : Nat) (st : List Nat) (n : Nat)
    (hl : SLOT * st.length < WORD / 2) (hn : n ≤ st.length) :
    Inv (with_height base st n) := by
  have hs : (with_height base st n).size = n :=
    size_with_height base st n (by simp only [WORD, SLOT] at *; omega)
  refine ⟨hl, ?_, ?_⟩
  · rw [hs]; exact hn
  · rw [hs]; rfl

theorem new_eq_with_height (base cap : Nat) :
    new base cap = with_height base (List.replicate cap 0) 0 := by
  simp only [new, with_height, ptr_sub, WORD, SLOT, mk.injEq, and_true]

/-! ## The member functions on a stack of known height -/

theorem push_with_height (base : Nat) (st : List Nat) (n x : Nat)
    (hl : SLOT * st.length < WORD / 2) (hn : n < st.length) :
    (with_height base st n).push x = .ok (with_height base (st.set n x) (n + 1)) := by
  simp only [push, store, slot_of, with_height, ptr_add, WORD, SLOT] at *
  rw [if_pos (by constructor <;> omega)]
  simp only [Except.ok.injEq, mk.injEq, and_true]
  constructor
  · omega
  · congr 1
    omega

theorem load_top_with_height (base : Nat) (st : List Nat) (n i : Nat)
    (hl : SLOT * st.length < WORD / 2) (hn : n ≤ st.length) (hi : i < n) :
    (with_height base st n).load (ptr_sub (with_height base st n).m_top i)
      = .ok (st.getD (n - 1 - i) 0) := by
  simp only [load, slot_of_with_height base st n i hl hn hi]
  rfl

theorem store_top_with_height (base : Nat) (st : List Nat) (n i v : Nat)
    (hl : SLOT * st.length < WORD / 2) (hn : n ≤ st.length) (hi : i < n) :
    (with_height base st n).store (ptr_sub (with_height base st n).m_top i) v
      = .ok (with_height base (st.set (n - 1 - i) v) n) := by
  simp only [store, slot_of_with_height base st n i hl hn hi]
  rfl

theorem index_with_height (base : Nat) (st : List Nat) (n i : Nat)
    (hl : SLOT * st.length < WORD / 2) (hn : n ≤ st.length) (hi : i < n) :
    (with_height base st n).index i
      = .ok (st.getD (n - 1 - i) 0, with_height base st n) := by
  have hs : (with_height base st n).size = n :=
    size_with_height base st n (by simp only [WORD, SLOT] at *; omega)
  simp only [index, hs, hi, not_true_eq_false, if_false,
    load_top_with_height base st n i hl hn hi]

theorem index_assign_with_height (base : Nat) (st : List Nat) (n i v : Nat)
    (hl : SLOT * st.length < WORD / 2) (hn : n ≤ st.length) (hi : i < n) :
    (with_height base st n).index_assign i v
      = .ok (with_height base (st.set (n - 1 - i) v) n) := by
  have hs : (with_height base st n).size = n :=
    size_with_height base st n (by simp only [WORD, SLOT] at *; omega)
  simp only [index_assign, hs, hi, not_true_eq_false, if_false,
    store_top_with_height base st n i v hl hn hi]

theorem top_eq_index (s : OperandStack) (h : s.m_top < WORD) : s.top = s.index 0 := by
  simp only [top, index, ptr_sub_zero _ h, Nat.pos_iff_ne_zero, not_not]

theorem top_assign_eq_index_assign (s : OperandStack) (v : Nat) (h : s.m_top < WORD) :
    s.top_assign v = s.index_assign 0 v := by
  simp only [top_assign, index_assign, ptr_sub_zero _ h, Nat.pos_iff_ne_zero, not_not]

theorem top_with_height (base : Nat) (st : List Nat) (n : Nat)
    (hl : SLOT * st.length < WORD / 2) (hn : n ≤ st.length) (h0 : 0 < n) :
    (with_height base st n).top = .ok (st.getD (n - 1) 0, with_height base st n) := by
  rw [top_eq_index _ (m_top_with_height_lt base st n), index_with_height base st n 0 hl hn h0]
  rfl

theorem top_assign_with_height (base : Nat) (st : List Nat) (n v : Nat)
    (hl : SLOT * st.length < WORD / 2) (hn : n ≤ st.length) (h0 : 0 < n) :
    (with_height base st n).top_assign v = .ok (with_height base (st.set (n - 1) v) n) := by
  rw [top_assign_eq_index_assign _ _ (m_top_with_height_lt base st n),
    index_assign_with_height base st n 0 v hl hn h0]
  rfl

theorem pop_with_height (base : Nat) (st : List Nat) (n : Nat)
    (hl : SLOT * st.length < WORD / 2) (hn : n ≤ st.length) (h0 : 0 < n) :
    (with_height base st n).pop = .ok (st.getD (n - 1) 0, with_height base st (n - 1)) := by
  have hs : (with_height base st n).size = n :=
    size_with_height base st n (by simp only [WORD, SLOT] at *; omega)
  have hld := load_top_with_height base st n 0 hl hn h0
  rw [ptr_sub_zero _ (m_top_with_height_lt base st n)] at hld
  simp only [pop, hs, Nat.pos_iff_ne_zero.mp h0, if_false, hld,
    ptr_sub_with_height base st n h0]
  rfl

theorem shrink_with_height (base : Nat) (st : List Nat) (n k : Nat)
    (hl : SLOT * st.length < WORD / 2) (hn : n ≤ st.length) (hk : k ≤ n) :
    (with_height base st n).shrink k = .ok (with_height base st k) := by
  have hs : (with_height base st n).size = n :=
    size_with_height base st n (by simp only [WORD, SLOT] at *; omega)
  simp only [shrink, hs, hk, not_true_eq_false, if_false]
  simp only [with_height, ptr_add, WORD, SLOT, Except.ok.injEq, mk.injEq, and_true]
  omega

theorem exists_with_height {s : OperandStack} (h : Inv s) :
    ∃ base st n, SLOT * st.length < WORD / 2 ∧ n ≤ st.length ∧
      s = with_height base st n :=
  ⟨s.base, s.m_storage, s.size, h.1, h.2.1, eq_with_height h⟩

theorem size_with_height_of_le (base : Nat) (st : List Nat) (n : Nat)
    (hl : SLOT * st.length < WORD / 2) (hn : n ≤ st.length) :
    (with_height base st n).size = n :=
  size_with_height base st n (by simp only [WORD, SLOT] at *; omega)

theorem getD_set_self (st : List Nat) (n x : Nat) (hn : n < st.length) :
    (st.set n x).getD n 0 = x := by
  simp [List.getD_eq_getElem?_getD, List.getElem?_set_self hn]

theorem getD_set_ne (st : List Nat) (n k x : Nat) (hk : n ≠ k) :
    (st.set n x).getD k 0 = st.getD k 0 := by
  simp [List.getD_eq_getElem?_getD, List.getElem?_set_ne hk]

theorem push_all_with_height (base : Nat) (vs : List Nat) :
    ∀ (low rest : List Nat), SLOT * (low ++ rest).length < WORD / 2 →
      vs.length ≤ rest.length →
      (with_height base (low ++ rest) low.length).push_all vs
        = .ok (with_height base (low ++ vs ++ rest.drop vs.length)
            (low.length + vs.length)) := by
  induction vs with
  | nil => intro low rest _ _; simp [push_all]
  | cons v vs ih =>
    intro low rest hl hlen
    cases rest with
    | nil => simp at hlen
    | cons r rest =>
      have hlt : low.length < (low ++ r :: rest).length := by simp
      have hset : (low ++ r :: rest).set low.length v = (low ++ [v]) ++ rest := by simp
      have hl2 : SLOT * ((low ++ [v]) ++ rest).length < WORD / 2 := by
        simp only [List.length_append, List.length_cons, List.length_nil, WORD, SLOT] at hl ⊢
        omega
      have hlen2 : vs.length ≤ rest.length := by
        simp only [List.length_cons] at hlen; omega
      have ih2 := ih (low ++ [v]) rest hl2 hlen2
      simp only [List.length_append, List.length_cons, List.length_nil] at ih2
      simp only [push_all, push_with_height base (low ++ r :: rest) low.length v hl hlt, hset]
      rw [ih2]
      simp [Nat.add_assoc, Nat.add_comm 1]

theorem pop_n_with_height (base : Nat) (vs : List Nat) :
    ∀ (low rest : List Nat), SLOT * (low ++ vs ++ rest).length < WORD / 2 →
      pop_n vs.length (with_height base (low ++ vs ++ rest) (low.length + vs.length))
        = .ok (vs.reverse, with_height base (low ++ vs ++ rest) low.length) := by
  induction vs using List.reverseRecOn with
  | nil => intro low rest _; simp [pop_n]
  | append_singleton vs v ih =>
    intro low rest hl
    have hst : low ++ (vs ++ [v]) ++ rest = low ++ vs ++ (v :: rest) := by simp
    rw [hst] at hl ⊢
    have hget : (low ++ vs ++ v :: rest).getD (low.length + vs.length) 0 = v := by
      have : low.length + vs.length = (low ++ vs).length := by simp
      rw [this, List.getD_eq_getElem?_getD, List.getElem?_append_right (Nat.le_refl _)]
      simp
    have hpop := pop_with_height base (low ++ vs ++ v :: rest)
      (low.length + (vs.length + 1)) hl (by simp) (by omega)
    have he : low.length + (vs.length + 1) - 1 = low.length + vs.length := by omega
    rw [he, hget] at hpop
    simp only [List.length_append, List.length_cons, List.length_nil, pop_n, hpop,
      ih low (v :: rest) hl, List.reverse_append, List.reverse_cons, List.reverse_nil,
      List.nil_append, List.singleton_append]

/-! ## Calls within their preconditions -/

theorem exec_of_pre (c : Call) (s : OperandStack) (hs : Inv s) (hp : c.pre s = true) :
    ∃ r s1, c.exec s = .ok (r, s1) ∧ Inv s1 ∧ s1.max_height = s.max_height ∧
      s1.base = s.base := by
  obtain ⟨b, st, n, hl, hn, rfl⟩ := exists_with_height hs
  have hsz := size_with_height_of_le b st n hl hn
  cases c with
  | push x =>
    simp only [Call.pre, hsz, decide_eq_true_eq] at hp
    have hlt : n < st.length := hp
    refine ⟨none, with_height b (st.set n x) (n + 1), ?_, ?_, ?_, by simp only [with_height]⟩
    · simp only [Call.exec, push_with_height b st n x hl hlt]
    · exact inv_with_height b _ (n + 1) (by rw [List.length_set]; exact hl)
        (by rw [List.length_set]; exact hlt)
    · simp only [max_height, with_height, List.length_set]
  | pop =>
    simp only [Call.pre, hsz, decide_eq_true_eq] at hp
    refine ⟨some (st.getD (n - 1) 0), with_height b st (n - 1), ?_, ?_,
      by simp only [max_height, with_height], by simp only [with_height]⟩
    · simp only [Call.exec, pop_with_height b st n hl hn (Nat.pos_of_ne_zero hp)]
    · exact inv_with_height b st (n - 1) hl (by omega)
  | top =>
    simp only [Call.pre, hsz, decide_eq_true_eq] at hp
    refine ⟨some (st.getD (n - 1) 0), with_height b st n, ?_, hs, rfl, rfl⟩
    simp only [Call.exec, top_with_height b st n hl hn (Nat.pos_of_ne_zero hp)]
  | top_assign v =>
    simp only [Call.pre, hsz, decide_eq_true_eq] at hp
    refine ⟨none, with_height b (st.set (n - 1) v) n, ?_, ?_, ?_, by simp only [with_height]⟩
    · simp only [Call.exec, top_assign_with_height b st n v hl hn (Nat.pos_of_ne_zero hp)]
    · exact inv_with_height b _ n (by rw [List.length_set]; exact hl)
        (by rw [List.length_set]; exact hn)
    · simp only [max_height, with_height, List.length_set]
  | index i =>
    simp only [Call.pre, hsz, decide_eq_true_eq] at hp
    refine ⟨some (st.getD (n - 1 - i) 0), with_height b st n, ?_, hs, rfl, rfl⟩
    simp only [Call.exec, index_with_height b st n i hl hn hp]
  | index_assign i v =>
    simp only [Call.pre, hsz, decide_eq_true_eq] at hp
    refine ⟨none, with_height b (st.set (n - 1 - i) v) n, ?_, ?_, ?_,
      by simp only [with_height]⟩
    · simp only [Call.exec, index_assign_with_height b st n i v hl hn hp]
    · exact inv_with_height b _ n (by rw [List.length_set]; exact hl)
        (by rw [List.length_set]; exact hn)
    · simp only [max_height, with_height, List.length_set]
  | shrink k =>
    simp only [Call.pre, hsz, decide_eq_true_eq] at hp
    refine ⟨none, with_height b st k, ?_, ?_,
      by simp only [max_height, with_height], by simp only [with_height]⟩
    · simp only [Call.exec, shrink_with_height b st n k hl hn hp]
    · exact inv_with_height b st k hl (Nat.le_trans hp hn)

theorem run_of_within_pre (cs : List Call) :
    ∀ s : OperandStack, Inv s → within_pre s cs = true →
      ∃ rs s1, run s cs = .ok (rs, s1) ∧ rs.length = cs.length ∧ Inv s1 ∧
        s1.max_height = s.max_height ∧ s1.base = s.base := by
  induction cs with
  | nil => intro s hs _; exact ⟨[], s, rfl, rfl, hs, rfl, rfl⟩
  | cons c cs ih =>
    intro s hs hp
    simp only [within_pre, Bool.and_eq_true] at hp
    obtain ⟨r, s1, he, hs1, hm1, hb1⟩ := exec_of_pre c s hs hp.1
    have hp2 := hp.2
    rw [he] at hp2
    obtain ⟨rs, s2, hr, hlen, hs2, hm2, hb2⟩ := ih s1 hs1 hp2
    refine ⟨r :: rs, s2, ?_, by simp [hlen], hs2, hm2.trans hm1, hb2.trans hb1⟩
    simp only [run, he, hr]

/-! ## The claims on `OperandStack` -/

/-- C1: `OperandStack` is LIFO. On every stack that satisfies the class
invariant and whose `size()` is below its max height, `push(x)` followed by
`pop()` returns `x` and leaves a stack with the same `size()` and the same
item at every index from the top as before the push. -/
theorem push_pop_lifo (s : OperandStack) (x : Nat) (hs : Inv s)
    (hlt : s.size < s.max_height) :
    ∃ s1 s2, s.push x = .ok s1 ∧ s1.pop = .ok (x, s2) ∧ s2.size = s.size ∧
      ∀ i, i < s.size → ∃ v, s.index i = .ok (v, s) ∧ s2.index i = .ok (v, s2) := by
  obtain ⟨base, st, n, hl, hn, rfl⟩ := exists_with_height hs
  rw [size_with_height_of_le base st n hl hn] at hlt ⊢
  have hlt2 : n < st.length := hlt
  have hl2 : SLOT * (st.set n x).length < WORD / 2 := by rw [List.length_set]; exact hl
  have hn2 : n ≤ (st.set n x).length := by rw [List.length_set]; exact hn
  refine ⟨with_height base (st.set n x) (n + 1), with_height base (st.set n x) n,
    push_with_height base st n x hl hlt2, ?_, size_with_height_of_le _ _ _ hl2 hn2, ?_⟩
  · rw [pop_with_height base (st.set n x) (n + 1) hl2
      (by rw [List.length_set]; exact hlt2) (Nat.succ_pos n)]
    simp only [Nat.add_sub_cancel, getD_set_self st n x hlt2]
  · intro i hi
    refine ⟨st.getD (n - 1 - i) 0, index_with_height base st n i hl hn hi, ?_⟩
    rw [index_with_height base (st.set n x) n i hl2 hn2 hi,
      getD_set_ne st n (n - 1 - i) x (by omega)]

/-- A concrete instance of `push_pop_lifo`: the stack of max height 3 at
address 4096 holding 1 and 2, and the pushed value 7. -/
theorem push_pop_lifo_witness :
    ∃ s1 s2, (with_height 4096 [1, 2, 0] 2).push 7 = .ok s1 ∧ s1.pop = .ok (7, s2) ∧
      s2.size = (with_height 4096 [1, 2, 0] 2).size ∧
      ∀ i, i < (with_height 4096 [1, 2, 0] 2).size →
        ∃ v, (with_height 4096 [1, 2, 0] 2).index i = .ok (v, with_height 4096 [1, 2, 0] 2) ∧
          s2.index i = .ok (v, s2) :=
  push_pop_lifo (with_height 4096 [1, 2, 0] 2) 7 (by decide) (by decide)

/-- C2: indexed peek counts from the top. After the items `vs` are pushed in
order onto a freshly constructed stack whose max height is at least their
number, `stack[i]` returns the item pushed `i` places before the last one, for
every `i` below the number of items, and `stack[0]` is the slot of `top()`, for
reading and for assigning. The array is assumed to be allocatable, that is, of
at most `PTRDIFF_MAX` bytes. -/
theorem index_counts_from_top (base cap : Nat) (vs : List Nat)
    (hcap : SLOT * cap < WORD / 2) (hn : vs.length ≤ cap) :
    ∃ s, (new base cap).push_all vs = .ok s ∧
      (∀ i (hi : i < vs.length),
        s.index i = .ok (vs.get ⟨vs.length - 1 - i, by omega⟩, s)) ∧
      s.top = s.index 0 ∧ ∀ v, s.top_assign v = s.index_assign 0 v := by
  have hl : SLOT * (([] : List Nat) ++ List.replicate cap 0).length < WORD / 2 := by
    simpa using hcap
  have hpush := push_all_with_height base vs [] (List.replicate cap 0) hl (by simpa using hn)
  simp only [List.nil_append, List.length_nil, Nat.zero_add] at hpush
  rw [new_eq_with_height]
  refine ⟨_, hpush, ?_, top_eq_index _ (m_top_with_height_lt _ _ _),
    fun v => top_assign_eq_index_assign _ v (m_top_with_height_lt _ _ _)⟩
  intro i hi
  have hlen : (vs ++ List.drop vs.length (List.replicate cap 0)).length = cap := by
    simp only [List.length_append, List.length_drop, List.length_replicate]
    omega
  rw [index_with_height base _ vs.length i (by rw [hlen]; exact hcap)
    (by rw [hlen]; exact hn) hi]
  have hk : vs.length - 1 - i < vs.length := by omega
  rw [List.getD_eq_getElem?_getD, List.getElem?_append_left hk, List.getElem?_eq_getElem hk]
  rfl

/-- A concrete instance of `index_counts_from_top`: three items pushed onto a
fresh stack of max height 4 at address 4096. -/
theorem index_counts_from_top_witness :
    ∃ s, (new 4096 4).push_all [1, 2, 3] = .ok s ∧
      (∀ i (hi : i < [1, 2, 3].length),
        s.index i = .ok ([1, 2, 3].get ⟨[1, 2, 3].length - 1 - i, by omega⟩, s)) ∧
      s.top = s.index 0 ∧ ∀ v, s.top_assign v = s.index_assign 0 v :=
  index_counts_from_top 4096 4 [1, 2, 3] (by decide) (by decide)

/-- C3: `shrink(n)` retains only the bottom `n` slots. On every stack that
satisfies the class invariant and every `n <= size()`, `shrink(n)` succeeds,
`size()` is `n` afterwards and `stack[i]` is the item that was at
`stack[i + (s - n)]` before the call, `s` being the old size; for `n >= 1` the
new `top()` is the content of slot `n - 1` of the array and the bottom item,
slot 0 of the array, is still read by `stack[n - 1]`. -/
theorem shrink_retains_bottom (s : OperandStack) (n : Nat) (hs : Inv s)
    (hn : n ≤ s.size) :
    ∃ s1, s.shrink n = .ok s1 ∧ s1.size = n ∧
      (∀ i, i < n →
        ∃ v, s1.index i = .ok (v, s1) ∧ s.index (i + (s.size - n)) = .ok (v, s)) ∧
      (0 < n →
        s1.top = .ok (s.m_storage.getD (n - 1) 0, s1) ∧
        s.index (s.size - n) = .ok (s.m_storage.getD (n - 1) 0, s) ∧
        s1.index (n - 1) = .ok (s.m_storage.getD 0 0, s1) ∧
        s.index (s.size - 1) = .ok (s.m_storage.getD 0 0, s)) := by
  obtain ⟨base, st, m, hl, hm, rfl⟩ := exists_with_height hs
  rw [size_with_height_of_le base st m hl hm] at hn ⊢
  have hnl : n ≤ st.length := Nat.le_trans hn hm
  refine ⟨with_height base st n, shrink_with_height base st m n hl hm hn,
    size_with_height_of_le base st n hl hnl, ?_, ?_⟩
  · intro i hi
    refine ⟨st.getD (n - 1 - i) 0, index_with_height base st n i hl hnl hi, ?_⟩
    rw [index_with_height base st m (i + (m - n)) hl hm (by omega)]
    have he : m - 1 - (i + (m - n)) = n - 1 - i := by omega
    rw [he]
  · intro h0
    have e1 : m - 1 - (m - n) = n - 1 := by omega
    have e2 : n - 1 - (n - 1) = 0 := by omega
    have e3 : m - 1 - (m - 1) = 0 := by omega
    refine ⟨top_with_height base st n hl hnl h0, ?_, ?_, ?_⟩
    · rw [index_with_height base st m (m - n) hl hm (by omega), e1]; rfl
    · rw [index_with_height base st n (n - 1) hl hnl (by omega), e2]; rfl
    · rw [index_with_height base st m (m - 1) hl hm (by omega), e3]; rfl

/-- A concrete instance of `shrink_retains_bottom`: a stack of height 3 shrunk
to height 2. -/
theorem shrink_retains_bottom_witness :
    ∃ s1, (with_height 4096 [5, 6, 7] 3).shrink 2 = .ok s1 ∧ s1.size = 2 ∧
      (∀ i, i < 2 →
        ∃ v, s1.index i = .ok (v, s1) ∧
          (with_height 4096 [5, 6, 7] 3).index (i + ((with_height 4096 [5, 6, 7] 3).size - 2))
            = .ok (v, with_height 4096 [5, 6, 7] 3)) ∧
      (0 < 2 →
        s1.top = .ok ((with_height 4096 [5, 6, 7] 3).m_storage.getD (2 - 1) 0, s1) ∧
        (with_height 4096 [5, 6, 7] 3).index ((with_height 4096 [5, 6, 7] 3).size - 2)
          = .ok ((with_height 4096 [5, 6, 7] 3).m_storage.getD (2 - 1) 0,
              with_height 4096 [5, 6, 7] 3) ∧
        s1.index (2 - 1) = .ok ((with_height 4096 [5, 6, 7] 3).m_storage.getD 0 0, s1) ∧
        (with_height 4096 [5, 6, 7] 3).index ((with_height 4096 [5, 6, 7] 3).size - 1)
          = .ok ((with_height 4096 [5, 6, 7] 3).m_storage.getD 0 0,
              with_height 4096 [5, 6, 7] 3)) :=
  shrink_retains_bottom (with_height 4096 [5, 6, 7] 3) 2 (by decide) (by decide)

/-- C4: size accounting. A stack constructed with any max height, 0 included,
has `size() = 0`; on a stack that satisfies the class invariant, `push` (below
the max height) increases `size()` by exactly 1, `pop` (on a non-empty stack)
decreases it by exactly 1, and reading `top()` or `stack[i]` returns a stack of
unchanged `size()`. -/
theorem size_accounting (base cap : Nat) (s : OperandStack) (x i : Nat) (hs : Inv s) :
    (new base cap).size = 0 ∧
    (s.size < s.max_height → ∃ s1, s.push x = .ok s1 ∧ s1.size = s.size + 1) ∧
    (s.size ≠ 0 → ∃ v s1, s.pop = .ok (v, s1) ∧ s1.size = s.size - 1) ∧
    (s.size ≠ 0 → ∃ v s1, s.top = .ok (v, s1) ∧ s1.size = s.size) ∧
    (i < s.size → ∃ v s1, s.index i = .ok (v, s1) ∧ s1.size = s.size) := by
  refine ⟨?_, ?_⟩
  · rw [new_eq_with_height]
    exact size_with_height base _ 0 (by decide)
  obtain ⟨b, st, n, hl, hn, rfl⟩ := exists_with_height hs
  rw [size_with_height_of_le b st n hl hn]
  refine ⟨?_, ?_, ?_, ?_⟩
  · intro hlt
    have hlt2 : n < st.length := hlt
    exact ⟨_, push_with_height b st n x hl hlt2,
      size_with_height_of_le b _ (n + 1) (by rw [List.length_set]; exact hl)
        (by rw [List.length_set]; exact hlt2)⟩
  · intro h0
    exact ⟨_, _, pop_with_height b st n hl hn (Nat.pos_of_ne_zero h0),
      size_with_height_of_le b st (n - 1) hl (by omega)⟩
  · intro h0
    exact ⟨_, _, top_with_height b st n hl hn (Nat.pos_of_ne_zero h0),
      size_with_height_of_le b st n hl hn⟩
  · intro hi
    exact ⟨_, _, index_with_height b st n i hl hn hi, size_with_height_of_le b st n hl hn⟩

/-- A concrete instance of `size_accounting`: a stack of height 2 and max
height 3, on which every one of the four calls is within its precondition. -/
theorem size_accounting_witness :
    (new 0 0).size = 0 ∧
    (∃ s1, (with_height 4096 [1, 2, 0] 2).push 9 = .ok s1 ∧ s1.size = 3) ∧
    (∃ v s1, (with_height 4096 [1, 2, 0] 2).pop = .ok (v, s1) ∧ s1.size = 1) ∧
    (∃ v s1, (with_height 4096 [1, 2, 0] 2).top = .ok (v, s1) ∧ s1.size = 2) ∧
    (∃ v s1, (with_height 4096 [1, 2, 0] 2).index 1 = .ok (v, s1) ∧ s1.size = 2) :=
  have h := size_accounting 0 0 (with_height 4096 [1, 2, 0] 2) 9 1 (by decide)
  ⟨h.1, h.2.1 (by decide), h.2.2.1 (by decide), h.2.2.2.1 (by decide),
    h.2.2.2.2 (by decide)⟩

/-- C5: items come back in reverse push order. For every sequence `vs` of `n`
items pushed onto a fresh stack of max height `n`, the stack then has size `n`,
`n` successive calls of `pop()` return the items last-pushed first, and
`size()` is 0 afterwards. The array is assumed to be allocatable, that is, of
at most `PTRDIFF_MAX` bytes. -/
theorem pops_reverse_pushes (base : Nat) (vs : List Nat)
    (hcap : SLOT * vs.length < WORD / 2) :
    ∃ s s1, (new base vs.length).push_all vs = .ok s ∧ s.size = vs.length ∧
      s.pop_n vs.length = .ok (vs.reverse, s1) ∧ s1.size = 0 := by
  have hl : SLOT * (([] : List Nat) ++ List.replicate vs.length 0).length < WORD / 2 := by
    simpa using hcap
  have hpush := push_all_with_height base vs [] (List.replicate vs.length 0) hl (by simp)
  simp only [List.nil_append, List.length_nil, Nat.zero_add,
    List.length_replicate, Nat.le_refl, List.drop_eq_nil_of_le, List.append_nil] at hpush
  have hl2 : SLOT * (([] : List Nat) ++ vs ++ []).length < WORD / 2 := by simpa using hcap
  have hpop := pop_n_with_height base vs [] [] hl2
  simp only [List.nil_append, List.length_nil, Nat.zero_add, List.append_nil] at hpop
  rw [new_eq_with_height]
  exact ⟨_, _, hpush, size_with_height base vs vs.length hcap, hpop,
    size_with_height base vs 0 (by decide)⟩

/-- A concrete instance of `pops_reverse_pushes`: three items. -/
theorem pops_reverse_pushes_witness :
    ∃ s s1, (new 4096 3).push_all [10, 20, 30] = .ok s ∧ s.size = 3 ∧
      s.pop_n 3 = .ok ([30, 20, 10], s1) ∧ s1.size = 0 :=
  pops_reverse_pushes 4096 [10, 20, 30] (by decide)

/-- C6: write-through is local. On every stack that satisfies the class
invariant and every `i < size()`, assigning `v` through the reference `stack[i]`
succeeds, makes `stack[i]` read `v` afterwards, leaves `size()` unchanged and
leaves every other item `stack[j]` unchanged; for `i = 0` the assignment
through `top()` is the same assignment and `top()` reads `v` afterwards. -/
theorem write_through_local (s : OperandStack) (i v : Nat) (hs : Inv s)
    (hi : i < s.size) :
    ∃ s1, s.index_assign i v = .ok s1 ∧ s1.index i = .ok (v, s1) ∧ s1.size = s.size ∧
      (∀ j, j < s.size → j ≠ i →
        ∃ w, s.index j = .ok (w, s) ∧ s1.index j = .ok (w, s1)) ∧
      (i = 0 → s.top_assign v = .ok s1 ∧ s1.top = .ok (v, s1)) := by
  obtain ⟨b, st, n, hl, hn, rfl⟩ := exists_with_height hs
  rw [size_with_height_of_le b st n hl hn] at hi ⊢
  have hl2 : SLOT * (st.set (n - 1 - i) v).length < WORD / 2 := by
    rw [List.length_set]; exact hl
  have hn2 : n ≤ (st.set (n - 1 - i) v).length := by rw [List.length_set]; exact hn
  have hrd : (with_height b (st.set (n - 1 - i) v) n).index i
      = .ok (v, with_height b (st.set (n - 1 - i) v) n) := by
    rw [index_with_height b _ n i hl2 hn2 hi, getD_set_self st _ v (by omega)]
  refine ⟨_, index_assign_with_height b st n i v hl hn hi, hrd,
    size_with_height_of_le b _ n hl2 hn2, ?_, ?_⟩
  · intro j hj hji
    refine ⟨st.getD (n - 1 - j) 0, index_with_height b st n j hl hn hj, ?_⟩
    rw [index_with_height b _ n j hl2 hn2 hj, getD_set_ne st _ _ v (by omega)]
  · intro h0
    subst h0
    refine ⟨?_, ?_⟩
    · rw [top_assign_eq_index_assign _ _ (m_top_with_height_lt _ _ _)]
      exact index_assign_with_height b st n 0 v hl hn hi
    · rw [top_eq_index _ (m_top_with_height_lt _ _ _)]
      exact hrd

/-- A concrete instance of `write_through_local`: the top item of a stack of
height 3 is assigned. -/
theorem write_through_local_witness :
    ∃ s1, (with_height 4096 [1, 2, 3] 3).index_assign 0 13 = .ok s1 ∧
      s1.index 0 = .ok (13, s1) ∧ s1.size = (with_height 4096 [1, 2, 3] 3).size ∧
      (∀ j, j < (with_height 4096 [1, 2, 3] 3).size → j ≠ 0 →
        ∃ w, (with_height 4096 [1, 2, 3] 3).index j = .ok (w, with_height 4096 [1, 2, 3] 3) ∧
          s1.index j = .ok (w, s1)) ∧
      (0 = 0 → (with_height 4096 [1, 2, 3] 3).top_assign 13 = .ok s1 ∧
        s1.top = .ok (13, s1)) :=
  write_through_local (with_height 4096 [1, 2, 3] 3) 0 13 (by decide) (by decide)

/-- C7: no error outcome under the documented preconditions. From a stack that
satisfies the class invariant, every sequence of calls in which each call is
made within its precondition (`push` below the max height, `top` and `pop` on a
non-empty stack, `stack[i]` with `i < size()`, `shrink(n)` with `n <= size()`)
runs to its end without a failed `assert` and without an access outside the
array, one result per call. The slots that the calls touch are named: `push`
writes slot `size()`, `top` and `pop` use slot `size() - 1`, `stack[i]` uses
slot `size() - 1 - i`, all of them below the max height, and a pointer that
designates a slot at all designates one below the max height. -/
theorem no_fault_within_pre (s : OperandStack) (cs : List Call) (i : Nat) (hs : Inv s)
    (hp : within_pre s cs = true) :
    (∃ rs s1, run s cs = .ok (rs, s1) ∧ rs.length = cs.length) ∧
    (∀ p k, s.slot_of p = .ok k → k < s.max_height) ∧
    (s.size < s.max_height → s.slot_of (ptr_add s.m_top 1) = .ok s.size) ∧
    (s.size ≠ 0 → s.slot_of s.m_top = .ok (s.size - 1) ∧ s.size - 1 < s.max_height) ∧
    (i < s.size →
      s.slot_of (ptr_sub s.m_top i) = .ok (s.size - 1 - i) ∧
        s.size - 1 - i < s.max_height) := by
  refine ⟨?_, ?_, ?_⟩
  · obtain ⟨rs, s1, hr, hlen, _⟩ := run_of_within_pre cs s hs hp
    exact ⟨rs, s1, hr, hlen⟩
  · intro p k hk
    simp only [slot_of] at hk
    split at hk
    · next h =>
      simp only [Except.ok.injEq] at hk
      rw [← hk]
      exact h.2
    · simp at hk
  obtain ⟨b, st, n, hl, hn, rfl⟩ := exists_with_height hs
  rw [size_with_height_of_le b st n hl hn]
  refine ⟨?_, ?_, ?_⟩
  · intro hlt
    have hlt2 : n < st.length := hlt
    simp only [slot_of, with_height, ptr_add, WORD, SLOT] at *
    rw [if_pos (by constructor <;> omega)]
    congr 1
    omega
  · intro h0
    have h := slot_of_with_height b st n 0 hl hn (Nat.pos_of_ne_zero h0)
    rw [ptr_sub_zero _ (m_top_with_height_lt b st n)] at h
    refine ⟨h, ?_⟩
    have : n - 1 < st.length := by omega
    exact this
  · intro hi
    refine ⟨slot_of_with_height b st n i hl hn hi, ?_⟩
    have : n - 1 - i < st.length := by omega
    exact this

/-- A concrete instance of `no_fault_within_pre`: the calls of the unit test
`operand_stack.small`, made on a fresh stack of max height 3. -/
theorem no_fault_within_pre_witness :
    (∃ rs s1, run (new 4096 3) [.push 1, .push 2, .push 3, .top, .index 2,
        .index_assign 0 13, .top_assign 14, .pop, .shrink 0, .push 5] = .ok (rs, s1) ∧
      rs.length = 10) ∧
    (∀ p k, (new 4096 3).slot_of p = .ok k → k < (new 4096 3).max_height) ∧
    ((new 4096 3).size < (new 4096 3).max_height →
      (new 4096 3).slot_of (ptr_add (new 4096 3).m_top 1) = .ok (new 4096 3).size) ∧
    ((new 4096 3).size ≠ 0 →
      (new 4096 3).slot_of (new 4096 3).m_top = .ok ((new 4096 3).size - 1) ∧
        (new 4096 3).size - 1 < (new 4096 3).max_height) ∧
    (0 < (new 4096 3).size →
      (new 4096 3).slot_of (ptr_sub (new 4096 3).m_top 0) = .ok ((new 4096 3).size - 1 - 0) ∧
        (new 4096 3).size - 1 - 0 < (new 4096 3).max_height) :=
  no_fault_within_pre (new 4096 3) [.push 1, .push 2, .push 3, .top, .index 2,
    .index_assign 0 13, .top_assign 14, .pop, .shrink 0, .push 5] 0 (by decide) (by decide)

/-- C8: the capacity invariant. A freshly constructed stack (over an
allocatable array, of at most `PTRDIFF_MAX` bytes) satisfies the class
invariant, with `size() <= max height` and the max height given to the
constructor; the invariant implies `size() <= max height`; and every call made
within its precondition on a stack that satisfies the invariant succeeds and
returns a stack that satisfies it again, with the same storage capacity at the
same address. -/
theorem capacity_invariant (base cap : Nat) (s : OperandStack) (c : Call)
    (hcap : SLOT * cap < WORD / 2) (hs : Inv s) (hp : c.pre s = true) :
    (Inv (new base cap) ∧ (new base cap).size ≤ (new base cap).max_height ∧
      (new base cap).max_height = cap) ∧
    s.size ≤ s.max_height ∧
    ∃ r s1, c.exec s = .ok (r, s1) ∧ Inv s1 ∧ s1.size ≤ s1.max_height ∧
      s1.max_height = s.max_height ∧ s1.base = s.base := by
  have hnew : Inv (new base cap) := by
    rw [new_eq_with_height]
    exact inv_with_height base _ 0 (by simpa using hcap) (Nat.zero_le _)
  refine ⟨⟨hnew, hnew.2.1, by simp [max_height, new]⟩, hs.2.1, ?_⟩
  obtain ⟨r, s1, he, hs1, hm, hb⟩ := exec_of_pre c s hs hp
  exact ⟨r, s1, he, hs1, hs1.2.1, hm, hb⟩

/-- A concrete instance of `capacity_invariant`: a `push` on a stack of height
2 and max height 3. -/
theorem capacity_invariant_witness :
    (Inv (new 4096 3) ∧ (new 4096 3).size ≤ (new 4096 3).max_height ∧
      (new 4096 3).max_height = 3) ∧
    (with_height 4096 [1, 2, 0] 2).size ≤ (with_height 4096 [1, 2, 0] 2).max_height ∧
    ∃ r s1, (Call.push 7).exec (with_height 4096 [1, 2, 0] 2) = .ok (r, s1) ∧ Inv s1 ∧
      s1.size ≤ s1.max_height ∧
      s1.max_height = (with_height 4096 [1, 2, 0] 2).max_height ∧
      s1.base = (with_height 4096 [1, 2, 0] 2).base :=
  capacity_invariant 4096 3 (with_height 4096 [1, 2, 0] 2) (.push 7) (by decide)
    (by decide) (by decide)

/-- C9: `shrink(0)` resets the stack to the constructor's state and keeps it
usable. On every stack whatsoever, empty or not, of max height 0 or more,
`shrink(0)` succeeds, `size()` is 0 afterwards, the top pointer is the one that
the constructor sets for the same array (one slot below the base), and the
array itself is untouched; if the max height is at least 1, a following
`push(x)` succeeds and gives `size() = 1` and `top() = stack[0] = x`. -/
theorem shrink_zero_resets (s : OperandStack) (x : Nat) :
    ∃ s1, s.shrink 0 = .ok s1 ∧ s1.size = 0 ∧
      s1.m_top = (new s.base s.max_height).m_top ∧
      s1.m_storage = s.m_storage ∧ s1.base = s.base ∧
      (1 ≤ s.max_height →
        ∃ s2, s1.push x = .ok s2 ∧ s2.size = 1 ∧ s2.top = .ok (x, s2) ∧
          s2.index 0 = .ok (x, s2)) := by
  obtain ⟨top0, st, b⟩ := s
  have hsh : shrink ⟨top0, st, b⟩ 0 = .ok (with_height b st 0) := by
    simp only [shrink, with_height, ptr_add, WORD, SLOT, Nat.zero_le, not_true_eq_false,
      if_false, Except.ok.injEq, mk.injEq, and_true]
    omega
  refine ⟨with_height b st 0, hsh, size_with_height b st 0 (by decide), ?_, rfl, rfl, ?_⟩
  · simp only [new, with_height, ptr_sub, WORD, SLOT]
  · intro h1
    have h1 : 1 ≤ st.length := h1
    have hpush : (with_height b st 0).push x = .ok (with_height b (st.set 0 x) 1) := by
      simp only [push, store, slot_of, with_height, ptr_add, WORD, SLOT]
      rw [if_pos (by constructor <;> omega)]
      simp only [Except.ok.injEq, mk.injEq, and_true]
      constructor
      · omega
      · congr 1
        omega
    have hsz : (with_height b (st.set 0 x) 1).size = 1 := size_with_height b _ 1 (by decide)
    have hslot : (with_height b (st.set 0 x) 1).slot_of (with_height b (st.set 0 x) 1).m_top
        = .ok 0 := by
      simp only [slot_of, with_height, List.length_set, WORD, SLOT]
      rw [if_pos (by constructor <;> omega)]
      congr 1
      omega
    have htop : (with_height b (st.set 0 x) 1).top = .ok (x, with_height b (st.set 0 x) 1) := by
      simp only [top, hsz, load, hslot, Nat.one_ne_zero, if_false]
      simp only [with_height, getD_set_self st 0 x (by omega)]
    refine ⟨_, hpush, hsz, htop, ?_⟩
    rw [← top_eq_index _ (m_top_with_height_lt _ _ _)]
    exact htop

/-- A concrete instance of `shrink_zero_resets`: a stack of height 2 and max
height 2 is reset and pushed to. -/
theorem shrink_zero_resets_witness :
    ∃ s1 s2, (with_height 4096 [1, 2] 2).shrink 0 = .ok s1 ∧ s1.size = 0 ∧
      s1.m_top = (new 4096 2).m_top ∧ s1.push 5 = .ok s2 ∧ s2.size = 1 ∧
      s2.top = .ok (5, s2) ∧ s2.index 0 = .ok (5, s2) :=
  match shrink_zero_resets (with_height 4096 [1, 2] 2) 5 with
  | ⟨s1, h1, h2, h3, _, _, h6⟩ =>
    match h6 (by decide) with
    | ⟨s2, h7, h8, h9, h10⟩ => ⟨s1, s2, h1, h2, h3, h7, h8, h9, h10⟩

end OperandStack

/-! ## The claims on `Stack<T>` -/

namespace Stack

variable {T : Type}

theorem pop_push (s : Stack T) (v : T) : (s.push v).pop = some (v, s) := by
  simp [pop, top, push]

theorem items_push_all (vs : List T) : ∀ s : Stack T, (s.push_all vs).items = s.items ++ vs := by
  induction vs with
  | nil => intro s; simp [push_all]
  | cons v vs ih =>
    intro s
    have h := ih (s.push v)
    simp only [push_all, List.foldl_cons] at h ⊢
    rw [h]
    simp [push]

theorem pop_n_append (vs : List T) :
    ∀ l : List T, pop_n vs.length (⟨l ++ vs⟩ : Stack T) = some (vs.reverse, ⟨l⟩) := by
  induction vs using List.reverseRecOn with
  | nil => intro l; simp [pop_n]
  | append_singleton vs v ih =>
    intro l
    have hp : (⟨l ++ (vs ++ [v])⟩ : Stack T).pop = some (v, ⟨l ++ vs⟩) := by
      have h := pop_push (⟨l ++ vs⟩ : Stack T) v
      simpa [push] using h
    simp only [List.length_append, List.length_cons, List.length_nil, pop_n, hp, ih l,
      List.reverse_append, List.reverse_cons, List.reverse_nil, List.nil_append,
      List.singleton_append]

/-- C10: `Stack<T>` is LIFO. For every stack `s` and every value `v`, `push(v)`
followed by `pop()` returns `v` and leaves the stack equal to `s`, so with the
same size and the same items; and the values `vs` pushed in order onto an
empty stack make a stack of that many items from which as many calls of
`pop()` return them in reverse order, after which `size()` is 0 and `empty()`
is true. -/
theorem stack_push_pop_lifo (s : Stack T) (v : T) (vs : List T) :
    ((s.push v).pop = some (v, s) ∧ (s.push v).size = s.size + 1) ∧
    (new.push_all vs).size = vs.length ∧
    ∃ s1, (new.push_all vs).pop_n vs.length = some (vs.reverse, s1) ∧
      s1.size = 0 ∧ s1.empty = true := by
  refine ⟨⟨pop_push s v, by simp [size, push]⟩, ?_, ?_⟩
  · simp [size, items_push_all, new]
  · have hitems : (new.push_all vs : Stack T) = ⟨[] ++ vs⟩ := by
      have h := items_push_all vs (new : Stack T)
      cases hs : (new.push_all vs : Stack T) with
      | mk items =>
        rw [hs] at h
        simp only [new, List.nil_append] at h ⊢
        rw [h]
    rw [hitems]
    exact ⟨⟨[]⟩, pop_n_append vs [], rfl, rfl⟩

theorem drop_items [Inhabited T] (s : Stack T) (k : Nat) (hsz : s.size < WORD)
    (hk : k ≤ s.size) : (s.drop k).items = s.items.take (s.size - k) := by
  have hmod : (s.size + WORD - k % WORD) % WORD = s.size - k := by
    simp only [WORD] at *
    omega
  have hle : s.size - k - s.items.length = 0 := by
    simp only [size]
    omega
  simp only [drop, resize, hmod, hle, List.replicate_zero, List.append_nil]

/-- C11: `drop(k)` removes exactly the `k` top items. For every stack of size
`s` (a `size_t`, so below `2^64`) and every `k <= s`, after `drop(k)` the size
is `s - k`, the items are the bottom `s - k` items of before, unchanged and in
order, and for `k < s` `top()` returns the item that was `k` positions below
the old top; `top()` on a non-empty stack returns the stack as it was, so with
the same size. -/
theorem drop_removes_top [Inhabited T] (s : Stack T) (k : Nat) (hsz : s.size < WORD)
    (hk : k ≤ s.size) :
    (s.drop k).size = s.size - k ∧
    (s.drop k).items = s.items.take (s.size - k) ∧
    (∀ i, i < s.size - k → (s.drop k).items[i]? = s.items[i]?) ∧
    (k < s.size →
      ∃ v, (s.drop k).top = some (v, s.drop k) ∧ s.items[s.size - 1 - k]? = some v) ∧
    (s.size ≠ 0 → ∃ v s1, s.top = some (v, s1) ∧ s1 = s ∧ s1.size = s.size) := by
  have hitems := drop_items s k hsz hk
  have hlen : (s.drop k).items.length = s.items.length - k := by
    rw [hitems, List.length_take]
    simp only [size]
    omega
  refine ⟨hlen, hitems, ?_, ?_, ?_⟩
  · intro i hi
    rw [hitems, List.getElem?_take_of_lt hi]
  · intro hlt
    have hne : (s.drop k).items ≠ [] := by
      intro h
      rw [h] at hlen
      simp only [size, List.length_nil] at hlen hlt
      omega
    have hlast : (s.drop k).items.getLast? = s.items[s.size - 1 - k]? := by
      have h3 : (s.drop k).items.length - 1 = s.size - 1 - k := by
        rw [hlen]
        simp only [size]
        omega
      rw [List.getLast?_eq_getElem?, h3, hitems, List.getElem?_take_of_lt (by omega)]
    refine ⟨(s.drop k).items.getLast hne, ?_, ?_⟩
    · simp only [top, List.getLast?_eq_getLast _ hne]
    · rw [← hlast, List.getLast?_eq_getLast _ hne]
  · intro h0
    have hne : s.items ≠ [] := by
      intro h
      simp only [size, h, List.length_nil, ne_eq, not_true_eq_false] at h0
    exact ⟨s.items.getLast hne, s, by simp only [top, List.getLast?_eq_getLast _ hne], rfl, rfl⟩

/-- A concrete instance of `drop_removes_top`: the stack of the unit test
`stack.drop_and_peek`, from which two items are dropped. -/
theorem drop_removes_top_witness :
    ((⟨[1, 2, 3, 4]⟩ : Stack Nat).drop 2).size = 2 ∧
    ((⟨[1, 2, 3, 4]⟩ : Stack Nat).drop 2).items = [1, 2] ∧
    ((⟨[1, 2, 3, 4]⟩ : Stack Nat).drop 2).top
      = some (2, (⟨[1, 2, 3, 4]⟩ : Stack Nat).drop 2) :=
  have h := drop_removes_top (⟨[1, 2, 3, 4]⟩ : Stack Nat) 2 (by decide) (by decide)
  ⟨h.1, h.2.1, by
    obtain ⟨v, hv, hv2⟩ := h.2.2.2.1 (by decide)
    have hv3 : v = 2 := by simpa [size] using hv2.symm
    rw [hv, hv3]⟩

/-- C12: `clear()` empties any stack. For every stack, an empty one included,
after `clear()` the size is 0 and `empty()` is true; and for every stack
`empty()` is true exactly when `size()` is 0. -/
theorem clear_empties (s : Stack T) :
    s.clear.size = 0 ∧ s.clear.empty = true ∧
    (new : Stack T).clear.size = 0 ∧ (new : Stack T).clear.empty = true ∧
    (s.empty = true ↔ s.size = 0) := by
  refine ⟨rfl, rfl, rfl, rfl, ?_⟩
  simp only [empty, size, List.isEmpty_iff, List.length_eq_zero]

end Stack

/-! ## Segments: what a storage holds after they are applied -/

theorem length_write_at {α : Type} (storage : List α) (offset : Nat) (init : List α)
    (h : offset + init.length ≤ storage.length) :
    (write_at storage offset init).length = storage.length := by
  simp only [write_at, List.length_append, List.length_take, List.length_drop]
  omega

theorem getElem?_write_at_of_covers {α : Type} (storage : List α) (offset : Nat)
    (init : List α) (addr : Nat) (h : offset + init.length ≤ storage.length)
    (hc : covers offset init addr) :
    (write_at storage offset init)[addr]? = init[addr - offset]? := by
  obtain ⟨h1, h2⟩ := hc
  have hlen : (storage.take offset).length = offset := by
    rw [List.length_take]; omega
  simp only [write_at, List.append_assoc]
  rw [List.getElem?_append_right (by omega), hlen, List.getElem?_append_left (by omega)]

theorem getElem?_write_at_of_not_covers {α : Type} (storage : List α) (offset : Nat)
    (init : List α) (addr : Nat) (h : offset + init.length ≤ storage.length)
    (hc : ¬ covers offset init addr) :
    (write_at storage offset init)[addr]? = storage[addr]? := by
  have hlen : (storage.take offset).length = offset := by
    rw [List.length_take]; omega
  simp only [covers, not_and, Nat.not_lt] at hc
  simp only [write_at, List.append_assoc]
  by_cases h1 : addr < offset
  · rw [List.getElem?_append_left (by omega), List.getElem?_take_of_lt h1]
  · have h2 := hc (by omega)
    rw [List.getElem?_append_right (by omega), hlen,
      List.getElem?_append_right (by omega), List.getElem?_drop]
    congr 1
    omega

theorem length_apply_segments {α : Type} (segments : List (Nat × List α)) :
    ∀ storage : List α, (∀ seg ∈ segments, seg.1 + seg.2.length ≤ storage.length) →
      (apply_segments storage segments).length = storage.length := by
  induction segments with
  | nil => intro storage _; rfl
  | cons seg rest ih =>
    intro storage h
    obtain ⟨offset, init⟩ := seg
    have h0 : offset + init.length ≤ storage.length := h (offset, init) (List.mem_cons_self _ _)
    have hl := length_write_at storage offset init h0
    simp only [apply_segments]
    rw [ih (write_at storage offset init)
      (fun seg hseg => by rw [hl]; exact h seg (List.mem_cons_of_mem _ hseg)), hl]

theorem getElem?_apply_segments_of_not_covers {α : Type} (segments : List (Nat × List α))
    (addr : Nat) :
    ∀ storage : List α, (∀ seg ∈ segments, seg.1 + seg.2.length ≤ storage.length) →
      (∀ seg ∈ segments, ¬ covers seg.1 seg.2 addr) →
      (apply_segments storage segments)[addr]? = storage[addr]? := by
  induction segments with
  | nil => intro storage _ _; rfl
  | cons seg rest ih =>
    intro storage h hc
    obtain ⟨offset, init⟩ := seg
    have h0 : offset + init.length ≤ storage.length := h (offset, init) (List.mem_cons_self _ _)
    have hl := length_write_at storage offset init h0
    simp only [apply_segments]
    rw [ih (write_at storage offset init)
      (fun seg hseg => by rw [hl]; exact h seg (List.mem_cons_of_mem _ hseg))
      (fun seg hseg => hc seg (List.mem_cons_of_mem _ hseg))]
    exact getElem?_write_at_of_not_covers storage offset init addr h0
      (hc (offset, init) (List.mem_cons_self _ _))

theorem apply_segments_append {α : Type} (first second : List (Nat × List α)) :
    ∀ storage : List α, apply_segments storage (first ++ second)
      = apply_segments (apply_segments storage first) second := by
  induction first with
  | nil => intro storage; rfl
  | cons seg rest ih =>
    intro storage
    obtain ⟨offset, init⟩ := seg
    simp only [List.cons_append, apply_segments]
    exact ih _

theorem getElem?_apply_segments_of_last_cover {α : Type} (before after : List (Nat × List α))
    (offset : Nat) (init : List α) (addr : Nat) (storage : List α)
    (h : ∀ seg ∈ before ++ (offset, init) :: after, seg.1 + seg.2.length ≤ storage.length)
    (hc : covers offset init addr) (hafter : ∀ seg ∈ after, ¬ covers seg.1 seg.2 addr) :
    (apply_segments storage (before ++ (offset, init) :: after))[addr]?
      = init[addr - offset]? := by
  have hb : ∀ seg ∈ before, seg.1 + seg.2.length ≤ storage.length :=
    fun seg hseg => h seg (List.mem_append_left _ hseg)
  have hlb := length_apply_segments before storage hb
  have h0 : offset + init.length ≤ (apply_segments storage before).length := by
    rw [hlb]
    exact h (offset, init) (List.mem_append_right _ (List.mem_cons_self _ _))
  have hlw := length_write_at (apply_segments storage before) offset init h0
  rw [apply_segments_append]
  simp only [apply_segments]
  rw [getElem?_apply_segments_of_not_covers after addr _
    (fun seg hseg => by
      rw [hlw, hlb]
      exact h seg (List.mem_append_right _ (List.mem_cons_of_mem _ hseg)))
    hafter]
  exact getElem?_write_at_of_covers _ offset init addr h0 hc

/-! ## Segments: the bounds check -/

theorem check_segments_error_of_out_of_bounds {α : Type} (igs : List ExternalGlobal)
    (gts : List Global) (globals : List Nat) (size : Nat) (oob : instantiate_error)
    (segments : List (ConstantExpression × List α))
    (h : ∃ x ∈ segments, ∃ offset,
      eval_constant_expression x.1 igs gts globals = .ok offset ∧
        size < offset + x.2.length) :
    ∃ e, check_segments igs gts globals size oob segments = .error e := by
  induction segments with
  | nil => obtain ⟨x, hx, _⟩ := h; simp at hx
  | cons seg rest ih =>
    obtain ⟨expr, init⟩ := seg
    obtain ⟨x, hx, offset, hev, hlt⟩ := h
    simp only [check_segments]
    cases hexpr : eval_constant_expression expr igs gts globals with
    | error e => exact ⟨e, rfl⟩
    | ok o =>
      simp only []
      by_cases hb : size < o + init.length
      · exact ⟨oob, by simp only [hb, if_true]⟩
      · simp only [hb, if_false]
        rcases List.mem_cons.mp hx with hx0 | hxr
        · subst hx0
          simp only [hexpr, Except.ok.injEq] at hev
          subst hev
          exact absurd hlt hb
        · obtain ⟨e, he⟩ := ih ⟨x, hxr, offset, hev, hlt⟩
          exact ⟨e, by simp only [he]⟩

theorem check_segments_error_message {α : Type} (igs : List ExternalGlobal)
    (gts : List Global) (globals : List Nat) (size : Nat) (oob : instantiate_error)
    (segments : List (ConstantExpression × List α)) (e : instantiate_error)
    (h : check_segments igs gts globals size oob segments = .error e)
    (hev : ∀ x ∈ segments, ∃ offset,
      eval_constant_expression x.1 igs gts globals = .ok offset) :
    e = oob := by
  induction segments with
  | nil => simp [check_segments] at h
  | cons seg rest ih =>
    obtain ⟨expr, init⟩ := seg
    obtain ⟨o, ho⟩ := hev (expr, init) (List.mem_cons_self _ _)
    simp only [check_segments, ho] at h
    by_cases hb : size < o + init.length
    · simp only [hb, if_true, Except.error.injEq] at h
      exact h.symm
    · simp only [hb, if_false] at h
      cases hrest : check_segments igs gts globals size oob rest with
      | error e2 =>
        simp only [hrest, Except.error.injEq] at h
        subst h
        exact ih hrest (fun x hx => hev x (List.mem_cons_of_mem _ hx))
      | ok segs => simp [hrest] at h

theorem check_segments_ok_append {α : Type} (igs : List ExternalGlobal)
    (gts : List Global) (globals : List Nat) (size : Nat) (oob : instantiate_error)
    (before : List (ConstantExpression × List α)) :
    ∀ (after : List (ConstantExpression × List α)) (checked : List (Nat × List α)),
      check_segments igs gts globals size oob (before ++ after) = .ok checked →
      ∃ first second, checked = first ++ second ∧
        check_segments igs gts globals size oob before = .ok first ∧
        check_segments igs gts globals size oob after = .ok second := by
  induction before with
  | nil => intro after checked h; exact ⟨[], checked, rfl, rfl, h⟩
  | cons seg rest ih =>
    intro after checked h
    obtain ⟨expr, init⟩ := seg
    simp only [List.cons_append, check_segments] at h ⊢
    cases hexpr : eval_constant_expression expr igs gts globals with
    | error e => simp [hexpr] at h
    | ok o =>
      simp only [hexpr] at h ⊢
      by_cases hb : size < o + init.length
      · simp [hb] at h
      · simp only [hb, if_false] at h ⊢
        cases hrest : check_segments igs gts globals size oob (rest ++ after) with
        | error e => simp [hrest] at h
        | ok segs =>
          simp only [List.append_eq, hrest, Except.ok.injEq] at h
          obtain ⟨first, second, hsegs, hfirst, hsecond⟩ := ih after segs hrest
          refine ⟨(o, init) :: first, second, ?_, ?_, hsecond⟩
          · rw [← h, hsegs]; rfl
          · simp only [hfirst]

theorem check_segments_ok_mem {α : Type} (igs : List ExternalGlobal)
    (gts : List Global) (globals : List Nat) (size : Nat) (oob : instantiate_error)
    (segments : List (ConstantExpression × List α)) :
    ∀ checked : List (Nat × List α),
      check_segments igs gts globals size oob segments = .ok checked →
      ∀ seg ∈ checked, seg.1 + seg.2.length ≤ size ∧
        ∃ x ∈ segments, eval_constant_expression x.1 igs gts globals = .ok seg.1 ∧
          x.2 = seg.2 := by
  induction segments with
  | nil =>
    intro checked h seg hseg
    simp only [check_segments, Except.ok.injEq] at h
    rw [← h] at hseg
    simp at hseg
  | cons x rest ih =>
    intro checked h seg hseg
    obtain ⟨expr, init⟩ := x
    simp only [check_segments] at h
    cases hexpr : eval_constant_expression expr igs gts globals with
    | error e => simp [hexpr] at h
    | ok o =>
      simp only [hexpr] at h
      by_cases hb : size < o + init.length
      · simp [hb] at h
      · simp only [hb, if_false] at h
        cases hrest : check_segments igs gts globals size oob rest with
        | error e => simp [hrest] at h
        | ok segs =>
          simp only [hrest, Except.ok.injEq] at h
          rw [← h] at hseg
          rcases List.mem_cons.mp hseg with h0 | hr
          · subst h0
            exact ⟨by simp only; omega, (expr, init), List.mem_cons_self _ _, hexpr, rfl⟩
          · obtain ⟨hle, y, hy, hyo, hyi⟩ := ih segs hrest seg hr
            exact ⟨hle, y, List.mem_cons_of_mem _ hy, hyo, hyi⟩

theorem check_segments_ok_cons {α : Type} (igs : List ExternalGlobal)
    (gts : List Global) (globals : List Nat) (size : Nat) (oob : instantiate_error)
    (expr : ConstantExpression) (init : List α) (rest : List (ConstantExpression × List α))
    (checked : List (Nat × List α))
    (h : check_segments igs gts globals size oob ((expr, init) :: rest) = .ok checked) :
    ∃ offset others, checked = (offset, init) :: others ∧
      eval_constant_expression expr igs gts globals = .ok offset ∧
      check_segments igs gts globals size oob rest = .ok others := by
  simp only [check_segments] at h
  cases hexpr : eval_constant_expression expr igs gts globals with
  | error e => simp [hexpr] at h
  | ok o =>
    simp only [hexpr] at h
    by_cases hb : size < o + init.length
    · simp [hb] at h
    · simp only [hb, if_false] at h
      cases hrest : check_segments igs gts globals size oob rest with
      | error e => simp [hrest] at h
      | ok segs =>
        simp only [hrest, Except.ok.injEq] at h
        exact ⟨o, segs, h.symm, rfl, rfl⟩

/-! ## Instantiation: the stages -/

theorem fill_segments_eq (inst : Instance) :
    fill_segments inst =
      match check_segments inst.imported_globals inst.module.globalsec inst.globals
          (storage_size inst.table) ⟨"Element segment is out of table bounds"⟩
          (element_segments inst.module) with
      | .error e => .error e
      | .ok elements =>
        match check_segments inst.imported_globals inst.module.globalsec inst.globals
            (storage_size inst.memory) ⟨"Data segment is out of memory bounds"⟩
            (data_segments inst.module) with
        | .error e => .error e
        | .ok datas =>
          .ok { inst with
                table := inst.table.map fun table => apply_segments table elements
                memory := inst.memory.map fun memory => apply_segments memory datas } := by
  simp only [fill_segments, segment_stage]
  cases check_segments inst.imported_globals inst.module.globalsec inst.globals
      (storage_size inst.table) ⟨"Element segment is out of table bounds"⟩
      (element_segments inst.module) with
  | error e => rfl
  | ok elements =>
    cases check_segments inst.imported_globals inst.module.globalsec inst.globals
        (storage_size inst.memory) ⟨"Data segment is out of memory bounds"⟩
        (data_segments inst.module) with
    | error e => rfl
    | ok datas => rfl

theorem segment_stage_of_fill_error (inst : Instance) (e : instantiate_error)
    (h : fill_segments inst = .error e) : segment_stage inst = (some e, inst) := by
  simp only [fill_segments, segment_stage] at h ⊢
  cases h1 : check_segments inst.imported_globals inst.module.globalsec inst.globals
      (storage_size inst.table) ⟨"Element segment is out of table bounds"⟩
      (element_segments inst.module) with
  | error e1 =>
    simp only [h1, Except.error.injEq] at h
    rw [h]
  | ok elements =>
    cases h2 : check_segments inst.imported_globals inst.module.globalsec inst.globals
        (storage_size inst.memory) ⟨"Data segment is out of memory bounds"⟩
        (data_segments inst.module) with
    | error e2 =>
      simp only [h1, h2, Except.error.injEq] at h
      rw [h]
    | ok datas => simp [h1, h2] at h

theorem segment_stage_of_fill_ok (inst filled : Instance)
    (h : fill_segments inst = .ok filled) : segment_stage inst = (none, filled) := by
  simp only [fill_segments] at h
  cases h1 : segment_stage inst with
  | mk err state =>
    cases err with
    | some e => simp [h1] at h
    | none =>
      simp only [h1, Except.ok.injEq] at h
      rw [h]

theorem shared_tables_of_allocate_table (module_tables : List Table)
    (ts : List ExternalTable) (inst : Instance)
    (h : allocate_table module_tables ts = .ok inst.table) : shared_tables inst ts = ts := by
  simp only [allocate_table] at h
  split at h
  · cases h
  · next hcount =>
    match module_tables, ts, h, hcount with
    | _ :: _, [], _, _ => rfl
    | _ :: _, _ :: _, _, hcount =>
      simp only [List.length_cons] at hcount
      omega
    | [], [], _, _ => rfl
    | [], [imported], h, _ =>
      simp only [Except.ok.injEq] at h
      simp only [shared_tables, List.map_cons, List.map_nil, ← h]
    | [], _ :: _ :: _, _, hcount =>
      simp only [List.length_cons, List.length_nil] at hcount
      omega

theorem shared_memories_of_allocate_memory (module_memories : List Memory)
    (ms : List ExternalMemory) (inst : Instance)
    (h : allocate_memory module_memories ms = .ok (inst.memory, inst.memory_max_pages)) :
    shared_memories inst ms = ms := by
  simp only [allocate_memory] at h
  split at h
  · cases h
  · next hcount =>
    match module_memories, ms, h, hcount with
    | _ :: _, [], _, _ => rfl
    | _ :: _, _ :: _, _, hcount =>
      simp only [List.length_cons] at hcount
      omega
    | [], [], _, _ => rfl
    | [], [imported], h, _ =>
      simp only [Except.ok.injEq, Prod.mk.injEq] at h
      simp only [shared_memories, List.map_cons, List.map_nil, ← h.1]
    | [], _ :: _ :: _, _, hcount =>
      simp only [List.length_cons, List.length_nil] at hcount
      omega

theorem allocate_ok (module : Module) (fs : List ExternalFunction) (ts : List ExternalTable)
    (ms : List ExternalMemory) (gs : List ExternalGlobal) (allocated : Instance)
    (h : allocate module fs ts ms gs = .ok allocated) :
    match_imported_functions (imported_function_types module) fs = .ok () ∧
    match_imported_tables (imported_table_types module) ts = .ok () ∧
    match_imported_memories (imported_memory_types module) ms = .ok () ∧
    match_imported_globals (imported_globals_mutability module) gs = .ok () ∧
    allocate_table module.tablesec ts = .ok allocated.table ∧
    allocate_memory module.memorysec ms = .ok (allocated.memory, allocated.memory_max_pages) ∧
    init_globals gs module.globalsec module.globalsec [] = .ok allocated.globals ∧
    allocated.module = module ∧ allocated.imported_functions = fs ∧
    allocated.imported_globals = gs := by
  simp only [allocate] at h
  cases h1 : match_imported_functions (imported_function_types module) fs with
  | error e => simp [h1] at h
  | ok u1 =>
    cases h2 : match_imported_tables (imported_table_types module) ts with
    | error e => simp [h1, h2] at h
    | ok u2 =>
      cases h3 : match_imported_memories (imported_memory_types module) ms with
      | error e => simp [h1, h2, h3] at h
      | ok u3 =>
        cases h4 : match_imported_globals (imported_globals_mutability module) gs with
        | error e => simp [h1, h2, h3, h4] at h
        | ok u4 =>
          cases h5 : allocate_table module.tablesec ts with
          | error e => simp [h1, h2, h3, h4, h5] at h
          | ok table =>
            cases h6 : allocate_memory module.memorysec ms with
            | error e => simp [h1, h2, h3, h4, h5, h6] at h
            | ok mem =>
              obtain ⟨memory, memory_max⟩ := mem
              cases h7 : init_globals gs module.globalsec module.globalsec [] with
              | error e => simp [h1, h2, h3, h4, h5, h6, h7] at h
              | ok globals =>
                simp only [h1, h2, h3, h4, h5, h6, h7, Except.ok.injEq] at h
                subst h
                exact ⟨rfl, rfl, rfl, rfl, rfl, rfl, rfl, rfl, rfl, rfl⟩

theorem instantiate_of_allocate_error
    (exec : Instance → Nat → List Nat → execution_result × Instance) (module : Module)
    (fs : List ExternalFunction) (ts : List ExternalTable) (ms : List ExternalMemory)
    (gs : List ExternalGlobal) (e : instantiate_error)
    (h : allocate module fs ts ms gs = .error e) :
    (instantiate exec module fs ts ms gs).result = .error e ∧
      (instantiate exec module fs ts ms gs).imported_tables = ts ∧
      (instantiate exec module fs ts ms gs).imported_memories = ms := by
  simp only [instantiate, h, and_self]

theorem instantiate_of_fill_error
    (exec : Instance → Nat → List Nat → execution_result × Instance) (module : Module)
    (fs : List ExternalFunction) (ts : List ExternalTable) (ms : List ExternalMemory)
    (gs : List ExternalGlobal) (allocated : Instance) (e : instantiate_error)
    (h : allocate module fs ts ms gs = .ok allocated)
    (hfill : fill_segments allocated = .error e) :
    (instantiate exec module fs ts ms gs).result = .error e ∧
      (instantiate exec module fs ts ms gs).imported_tables = ts ∧
      (instantiate exec module fs ts ms gs).imported_memories = ms := by
  obtain ⟨_, _, _, _, htable, hmemory, _⟩ := allocate_ok module fs ts ms gs allocated h
  simp only [instantiate, h, segment_stage_of_fill_error allocated e hfill,
    shared_tables_of_allocate_table module.tablesec ts allocated htable,
    shared_memories_of_allocate_memory module.memorysec ms allocated hmemory, and_self]

theorem instantiate_of_no_start
    (exec : Instance → Nat → List Nat → execution_result × Instance) (module : Module)
    (fs : List ExternalFunction) (ts : List ExternalTable) (ms : List ExternalMemory)
    (gs : List ExternalGlobal) (allocated filled : Instance)
    (h : allocate module fs ts ms gs = .ok allocated)
    (hfill : fill_segments allocated = .ok filled) (hstart : module.startfunc = none) :
    (instantiate exec module fs ts ms gs).result = .ok filled ∧
      (instantiate exec module fs ts ms gs).imported_tables = shared_tables filled ts ∧
      (instantiate exec module fs ts ms gs).imported_memories = shared_memories filled ms := by
  simp only [instantiate, h, segment_stage_of_fill_ok allocated filled hfill, hstart, and_self]

theorem instantiate_of_start
    (exec : Instance → Nat → List Nat → execution_result × Instance) (module : Module)
    (fs : List ExternalFunction) (ts : List ExternalTable) (ms : List ExternalMemory)
    (gs : List ExternalGlobal) (allocated filled : Instance) (func_idx : Nat)
    (h : allocate module fs ts ms gs = .ok allocated)
    (hfill : fill_segments allocated = .ok filled)
    (hstart : module.startfunc = some func_idx) :
    (instantiate exec module fs ts ms gs).result
      = (if (exec filled func_idx []).1.trapped
          then .error ⟨"Start function failed to execute"⟩
          else .ok (exec filled func_idx []).2) ∧
      (instantiate exec module fs ts ms gs).imported_tables
        = shared_tables (exec filled func_idx []).2 ts ∧
      (instantiate exec module fs ts ms gs).imported_memories
        = shared_memories (exec filled func_idx []).2 ms := by
  simp only [instantiate, h, segment_stage_of_fill_ok allocated filled hfill, hstart]
  split <;> simp_all

theorem fill_segments_ok (inst filled : Instance) (h : fill_segments inst = .ok filled) :
    ∃ elements datas,
      check_segments inst.imported_globals inst.module.globalsec inst.globals
        (storage_size inst.table) ⟨"Element segment is out of table bounds"⟩
        (element_segments inst.module) = .ok elements ∧
      check_segments inst.imported_globals inst.module.globalsec inst.globals
        (storage_size inst.memory) ⟨"Data segment is out of memory bounds"⟩
        (data_segments inst.module) = .ok datas ∧
      filled = { inst with
        table := inst.table.map fun table => apply_segments table elements
        memory := inst.memory.map fun memory => apply_segments memory datas } := by
  simp only [fill_segments_eq] at h
  cases h1 : check_segments inst.imported_globals inst.module.globalsec inst.globals
      (storage_size inst.table) ⟨"Element segment is out of table bounds"⟩
      (element_segments inst.module) with
  | error e => simp [h1] at h
  | ok elements =>
    cases h2 : check_segments inst.imported_globals inst.module.globalsec inst.globals
        (storage_size inst.memory) ⟨"Data segment is out of memory bounds"⟩
        (data_segments inst.module) with
    | error e => simp [h1, h2] at h
    | ok datas =>
      simp only [h1, h2, Except.ok.injEq] at h
      exact ⟨elements, datas, rfl, rfl, h.symm⟩

theorem fill_segments_error_of_out_of_bounds (inst : Instance)
    (h : (∃ element ∈ inst.module.elementsec, ∃ offset,
          eval_constant_expression element.offset inst.imported_globals
            inst.module.globalsec inst.globals = .ok offset ∧
          storage_size inst.table < offset + element.init.length) ∨
        (∃ data ∈ inst.module.datasec, ∃ offset,
          eval_constant_expression data.offset inst.imported_globals
            inst.module.globalsec inst.globals = .ok offset ∧
          storage_size inst.memory < offset + data.init.length)) :
    ∃ e, fill_segments inst = .error e ∧
      ((∀ element ∈ inst.module.elementsec, ∃ offset,
          eval_constant_expression element.offset inst.imported_globals
            inst.module.globalsec inst.globals = .ok offset) →
        (∀ data ∈ inst.module.datasec, ∃ offset,
          eval_constant_expression data.offset inst.imported_globals
            inst.module.globalsec inst.globals = .ok offset) →
        e.message = "Element segment is out of table bounds" ∨
          e.message = "Data segment is out of memory bounds") := by
  simp only [fill_segments_eq]
  cases h1 : check_segments inst.imported_globals inst.module.globalsec inst.globals
      (storage_size inst.table) ⟨"Element segment is out of table bounds"⟩
      (element_segments inst.module) with
  | error e =>
    refine ⟨e, rfl, fun hel _ => Or.inl ?_⟩
    have := check_segments_error_message _ _ _ _ _ _ e h1 (by
      intro x hx
      simp only [element_segments, List.mem_map] at hx
      obtain ⟨element, hmem, rfl⟩ := hx
      exact hel element hmem)
    rw [this]
  | ok elements =>
    have hdata : ∃ data ∈ inst.module.datasec, ∃ offset,
        eval_constant_expression data.offset inst.imported_globals
          inst.module.globalsec inst.globals = .ok offset ∧
        storage_size inst.memory < offset + data.init.length := by
      rcases h with ⟨element, hmem, offset, hev, hlt⟩ | hd
      · exfalso
        obtain ⟨e, he⟩ := check_segments_error_of_out_of_bounds inst.imported_globals
          inst.module.globalsec inst.globals (storage_size inst.table)
          ⟨"Element segment is out of table bounds"⟩ (element_segments inst.module)
          ⟨(element.offset, element.init.map some),
            by simp only [element_segments, List.mem_map]; exact ⟨element, hmem, rfl⟩,
            offset, hev, by simpa using hlt⟩
        rw [h1] at he
        simp at he
      · exact hd
    obtain ⟨data, hmem, offset, hev, hlt⟩ := hdata
    obtain ⟨e, he⟩ := check_segments_error_of_out_of_bounds inst.imported_globals
      inst.module.globalsec inst.globals (storage_size inst.memory)
      ⟨"Data segment is out of memory bounds"⟩ (data_segments inst.module)
      ⟨(data.offset, data.init),
        by simp only [data_segments, List.mem_map]; exact ⟨data, hmem, rfl⟩,
        offset, hev, hlt⟩
    refine ⟨e, by simp only [he], fun _ hda => Or.inr ?_⟩
    have := check_segments_error_message _ _ _ _ _ _ e he (by
      intro x hx
      simp only [data_segments, List.mem_map] at hx
      obtain ⟨d, hd, rfl⟩ := hx
      exact hda d hd)
    rw [this]

theorem instantiate_ok_cases
    (exec : Instance → Nat → List Nat → execution_result × Instance) (module : Module)
    (fs : List ExternalFunction) (ts : List ExternalTable) (ms : List ExternalMemory)
    (gs : List ExternalGlobal) (inst : Instance)
    (h : (instantiate exec module fs ts ms gs).result = .ok inst) :
    ∃ allocated filled, allocate module fs ts ms gs = .ok allocated ∧
      fill_segments allocated = .ok filled ∧
      ((module.startfunc = none ∧ inst = filled) ∨
        (∃ func_idx, module.startfunc = some func_idx ∧
          (exec filled func_idx []).1.trapped = false ∧
          inst = (exec filled func_idx []).2)) := by
  cases h1 : allocate module fs ts ms gs with
  | error e =>
    rw [(instantiate_of_allocate_error exec module fs ts ms gs e h1).1] at h
    simp at h
  | ok allocated =>
    cases h2 : fill_segments allocated with
    | error e =>
      rw [(instantiate_of_fill_error exec module fs ts ms gs allocated e h1 h2).1] at h
      simp at h
    | ok filled =>
      refine ⟨allocated, filled, rfl, h2, ?_⟩
      cases h3 : module.startfunc with
      | none =>
        rw [(instantiate_of_no_start exec module fs ts ms gs allocated filled h1 h2 h3).1] at h
        simp only [Except.ok.injEq] at h
        exact Or.inl ⟨rfl, h.symm⟩
      | some func_idx =>
        rw [(instantiate_of_start exec module fs ts ms gs allocated filled func_idx
          h1 h2 h3).1] at h
        by_cases ht : (exec filled func_idx []).1.trapped = true
        · simp [ht] at h
        · simp only [ht, if_false, Except.ok.injEq, Bool.false_eq_true] at h
          exact Or.inr ⟨func_idx, rfl, by simpa using ht, h.symm⟩

theorem fill_segments_sizes (inst filled : Instance) (h : fill_segments inst = .ok filled) :
    filled.memory.map List.length = inst.memory.map List.length ∧
    filled.table.map List.length = inst.table.map List.length ∧
    filled.memory_max_pages = inst.memory_max_pages ∧ filled.globals = inst.globals ∧
    filled.module = inst.module := by
  obtain ⟨elements, datas, h1, h2, rfl⟩ := fill_segments_ok inst filled h
  have hm := check_segments_ok_mem _ _ _ _ _ _ datas h2
  have he := check_segments_ok_mem _ _ _ _ _ _ elements h1
  refine ⟨?_, ?_, rfl, rfl, rfl⟩
  · cases hmem : inst.memory with
    | none => rfl
    | some memory =>
      simp only [Option.map_some', Option.some.injEq]
      rw [hmem] at hm
      exact length_apply_segments datas memory (fun seg hseg => (hm seg hseg).1)
  · cases htab : inst.table with
    | none => rfl
    | some table =>
      simp only [Option.map_some', Option.some.injEq]
      rw [htab] at he
      exact length_apply_segments elements table (fun seg hseg => (he seg hseg).1)

theorem allocate_memory_declared (limits : Limits) (ms : List ExternalMemory)
    (memory : Option bytes) (memory_max : Nat)
    (h : allocate_memory [⟨limits⟩] ms = .ok (memory, memory_max)) :
    ms = [] ∧ limits.min ≤ MemoryPagesLimit ∧
    limits.max.getD MemoryPagesLimit ≤ MemoryPagesLimit ∧
    memory = some (List.replicate (limits.min * PageSize) 0) ∧
    memory_max = limits.max.getD MemoryPagesLimit := by
  simp only [allocate_memory] at h
  split at h
  · simp at h
  · next hlen =>
    split at h
    · simp at h
    · next hcap =>
      simp only [Except.ok.injEq, Prod.mk.injEq] at h
      simp only [List.length_cons, List.length_nil, not_lt] at hlen
      simp only [not_or, not_lt] at hcap
      refine ⟨?_, hcap.1, hcap.2, h.1.symm, h.2.symm⟩
      cases ms with
      | nil => rfl
      | cons x xs => simp only [List.length_cons] at hlen; omega

theorem allocate_error_of_not_ok (module : Module) (fs : List ExternalFunction)
    (ts : List ExternalTable) (ms : List ExternalMemory) (gs : List ExternalGlobal)
    (h : ∀ allocated, allocate module fs ts ms gs ≠ .ok allocated) :
    ∃ e, allocate module fs ts ms gs = .error e := by
  cases ha : allocate module fs ts ms gs with
  | error e => exact ⟨e, rfl⟩
  | ok allocated => exact absurd ha (h allocated)

theorem instantiate_fails_of_allocate_not_ok
    (exec : Instance → Nat → List Nat → execution_result × Instance) (module : Module)
    (fs : List ExternalFunction) (ts : List ExternalTable) (ms : List ExternalMemory)
    (gs : List ExternalGlobal)
    (h : ∀ allocated, allocate module fs ts ms gs ≠ .ok allocated) :
    ∃ e, (instantiate exec module fs ts ms gs).result = .error e := by
  obtain ⟨e, he⟩ := allocate_error_of_not_ok module fs ts ms gs h
  exact ⟨e, (instantiate_of_allocate_error exec module fs ts ms gs e he).1⟩

theorem match_limits_ok (external_limits module_limits : Limits) :
    match_limits external_limits module_limits = .ok () ↔
      module_limits.min ≤ external_limits.min ∧
      ∀ module_max, module_limits.max = some module_max →
        ∃ external_max, external_limits.max = some external_max ∧ external_max ≤ module_max := by
  obtain ⟨emin, emax⟩ := external_limits
  obtain ⟨mmin, mmax⟩ := module_limits
  simp only [match_limits]
  by_cases hmin : emin < mmin
  · simp only [hmin, if_true]
    constructor
    · intro h; simp at h
    · intro h; omega
  · simp only [hmin, if_false]
    cases mmax with
    | none => simp; omega
    | some module_max =>
      cases emax with
      | none => simp
      | some external_max =>
        by_cases hle : external_max ≤ module_max
        · simp [hle]; omega
        · simp [hle]

theorem match_imported_tables_ok (types : List Table) (storage : Option table_elements)
    (limits : Limits) :
    match_imported_tables types [⟨storage, limits⟩] = .ok () ↔
      ∃ t rest table, types = t :: rest ∧ match_limits limits t.limits = .ok () ∧
        storage = some table ∧ limits.min ≤ table.length ∧
        ∀ max, limits.max = some max → table.length ≤ max := by
  obtain ⟨lmin, lmax⟩ := limits
  simp only [match_imported_tables, List.length_cons, List.length_nil, Nat.lt_irrefl, if_false]
  cases types with
  | nil => simp
  | cons t rest =>
    simp only []
    cases hl : match_limits ⟨lmin, lmax⟩ t.limits with
    | error e =>
      simp only []
      constructor
      · intro h; simp at h
      · rintro ⟨t2, rest2, table, hty, hml, _⟩
        simp only [List.cons.injEq] at hty
        rw [← hty.1, hl] at hml
        simp at hml
    | ok u =>
      cases storage with
      | none => simp
      | some table =>
        simp only []
        by_cases hfit : table.length < lmin ∨ (lmax.any fun max => decide (max < table.length)) = true
        · simp only [hfit, if_true]
          constructor
          · intro h; simp at h
          · rintro ⟨t2, rest2, table2, _, _, hst, hmin2, hmax2⟩
            simp only [Option.some.injEq] at hst
            subst hst
            exfalso
            rcases hfit with h1 | h2
            · omega
            · cases lmax with
              | none => simp at h2
              | some max =>
                simp only [Option.any_some, decide_eq_true_eq] at h2
                have := hmax2 max rfl
                omega
        · simp only [hfit, if_false, true_iff]
          simp only [not_or, not_lt] at hfit
          refine ⟨t, rest, table, rfl, ?_, rfl, hfit.1, ?_⟩
          · cases u; exact hl
          · intro max hmax
            subst hmax
            have h2 := hfit.2
            simp only [Option.any_some, decide_eq_true_eq, not_lt] at h2
            exact h2

theorem match_imported_memories_ok (types : List Memory) (storage : Option bytes)
    (limits : Limits) :
    match_imported_memories types [⟨storage, limits⟩] = .ok () ↔
      ∃ m rest data, types = m :: rest ∧ match_limits limits m.limits = .ok () ∧
        storage = some data ∧ limits.min * PageSize ≤ data.length ∧
        ∀ max, limits.max = some max →
          data.length ≤ max * PageSize ∧ max ≤ MemoryPagesLimit := by
  obtain ⟨lmin, lmax⟩ := limits
  simp only [match_imported_memories, List.length_cons, List.length_nil, Nat.lt_irrefl,
    if_false]
  cases types with
  | nil => simp
  | cons m rest =>
    simp only []
    cases hl : match_limits ⟨lmin, lmax⟩ m.limits with
    | error e =>
      simp only []
      constructor
      · intro h; simp at h
      · rintro ⟨m2, rest2, data, hty, hml, _⟩
        simp only [List.cons.injEq] at hty
        rw [← hty.1, hl] at hml
        simp at hml
    | ok u =>
      cases storage with
      | none => simp
      | some data =>
        simp only []
        by_cases hfit : data.length < lmin * PageSize ∨
            (lmax.any fun max => decide (max * PageSize < data.length)) = true
        · simp only [hfit, if_true]
          constructor
          · intro h; simp at h
          · rintro ⟨m2, rest2, data2, _, _, hst, hmin2, hmax2⟩
            simp only [Option.some.injEq] at hst
            subst hst
            exfalso
            rcases hfit with h1 | h2
            · omega
            · cases lmax with
              | none => simp at h2
              | some max =>
                simp only [Option.any_some, decide_eq_true_eq] at h2
                have := (hmax2 max rfl).1
                omega
        · simp only [hfit, if_false]
          simp only [not_or, not_lt] at hfit
          by_cases hcap : (lmax.any fun max => decide (MemoryPagesLimit < max)) = true
          · simp only [hcap, if_true]
            constructor
            · intro h; simp at h
            · rintro ⟨m2, rest2, data2, _, _, hst, hmin2, hmax2⟩
              exfalso
              cases lmax with
              | none => simp at hcap
              | some max =>
                simp only [Option.any_some, decide_eq_true_eq] at hcap
                have := (hmax2 max rfl).2
                omega
          · simp only [hcap, Bool.false_eq_true, if_false, true_iff]
            refine ⟨m, rest, data, rfl, ?_, rfl, hfit.1, ?_⟩
            · cases u; exact hl
            · intro max hmax
              subst hmax
              have h2 := hfit.2
              simp only [Option.any_some, decide_eq_true_eq, not_lt] at h2 hcap
              exact ⟨h2, hcap⟩

theorem applied_segments_spec {α : Type} (igs : List ExternalGlobal) (gts : List Global)
    (globals : List Nat) (oob : instantiate_error)
    (input : List (ConstantExpression × List α)) (checked : List (Nat × List α))
    (storage : List α)
    (hc : check_segments igs gts globals storage.length oob input = .ok checked)
    (addr : Nat) :
    (apply_segments storage checked).length = storage.length ∧
    (∀ before x after offset, input = before ++ x :: after →
      eval_constant_expression x.1 igs gts globals = .ok offset →
      covers offset x.2 addr →
      (∀ later ∈ after, ∀ o, eval_constant_expression later.1 igs gts globals = .ok o →
        ¬ covers o later.2 addr) →
      (apply_segments storage checked)[addr]? = x.2[addr - offset]?) ∧
    ((∀ x ∈ input, ∀ o, eval_constant_expression x.1 igs gts globals = .ok o →
        ¬ covers o x.2 addr) →
      (apply_segments storage checked)[addr]? = storage[addr]?) := by
  have hmem := check_segments_ok_mem igs gts globals storage.length oob input checked hc
  have hbound : ∀ seg ∈ checked, seg.1 + seg.2.length ≤ storage.length :=
    fun seg hseg => (hmem seg hseg).1
  refine ⟨length_apply_segments checked storage hbound, ?_, ?_⟩
  · intro before x after offset hsplit hev hcov hlater
    obtain ⟨expr, init⟩ := x
    rw [hsplit] at hc
    obtain ⟨first, second, hchecked, _, hsecond⟩ :=
      check_segments_ok_append igs gts globals storage.length oob before
        ((expr, init) :: after) checked hc
    obtain ⟨o, others, hsec, ho, hothers⟩ :=
      check_segments_ok_cons igs gts globals storage.length oob expr init after second hsecond
    have hoo : o = offset := by
      simp only at hev
      rw [hev] at ho
      simp only [Except.ok.injEq] at ho
      exact ho.symm
    subst hoo
    have hmem2 := check_segments_ok_mem igs gts globals storage.length oob after others hothers
    rw [hchecked, hsec]
    apply getElem?_apply_segments_of_last_cover first others o init addr storage
    · rw [← hsec, ← hchecked]; exact hbound
    · exact hcov
    · intro seg hseg
      obtain ⟨_, y, hy, hyo, hyi⟩ := hmem2 seg hseg
      rw [← hyi]
      exact hlater y hy seg.1 hyo
  · intro hnone
    apply getElem?_apply_segments_of_not_covers checked addr storage hbound
    intro seg hseg
    obtain ⟨_, y, hy, hyo, hyi⟩ := hmem seg hseg
    rw [← hyi]
    exact hnone y hy seg.1 hyo

theorem allocate_memory_imported (storage : Option bytes) (limits : Limits)
    (memory : Option bytes) (memory_max : Nat)
    (h : allocate_memory [] [⟨storage, limits⟩] = .ok (memory, memory_max)) :
    memory = storage ∧ memory_max = limits.max.getD MemoryPagesLimit := by
  simp [allocate_memory] at h
  exact ⟨h.1.symm, h.2.symm⟩

theorem allocate_table_declared (limits : Limits) (ts : List ExternalTable)
    (table : Option table_elements)
    (h : allocate_table [⟨limits⟩] ts = .ok table) :
    ts = [] ∧ table = some (List.replicate limits.min none) := by
  simp only [allocate_table] at h
  split at h
  · simp at h
  · next hlen =>
    simp only [Except.ok.injEq] at h
    simp only [List.length_cons, List.length_nil, not_lt] at hlen
    refine ⟨?_, h.symm⟩
    cases ts with
    | nil => rfl
    | cons x xs => simp only [List.length_cons] at hlen; omega

theorem allocate_table_imported (storage : Option table_elements) (limits : Limits)
    (table : Option table_elements)
    (h : allocate_table [] [⟨storage, limits⟩] = .ok table) :
    table = storage := by
  simp [allocate_table] at h
  exact h.symm

theorem run_body_table (body : List Instr) :
    ∀ (inst : Instance) (stack : List Nat), (run_body body inst stack).2.2.table = inst.table := by
  induction body with
  | nil => intro inst stack; rfl
  | cons instr rest ih =>
    intro inst stack
    cases instr with
    | unreachable => rfl
    | i32_const value => simp only [run_body]; exact ih _ _
    | drop =>
      cases stack with
      | nil => rfl
      | cons v stack => simp only [run_body]; exact ih _ _
    | memory_grow =>
      cases stack with
      | nil => rfl
      | cons pages stack =>
        simp only [run_body]
        cases inst.memory with
        | none => rfl
        | some memory =>
          simp only []
          split
          · exact ih _ _
          · rw [ih]
    | i32_store8 offset =>
      cases stack with
      | nil => rfl
      | cons value stack =>
        cases stack with
        | nil => rfl
        | cons base stack =>
          simp only [run_body]
          cases inst.memory with
          | none => rfl
          | some memory =>
            simp only []
            split
            · rfl
            · rw [ih]

theorem execute_table (inst : Instance) (func_idx : Nat) (args : List Nat) :
    (execute inst func_idx args).2.table = inst.table := by
  simp only [execute]
  split
  · rfl
  · split
    · rfl
    · next body _ =>
      have h := run_body_table body inst []
      split
      · next heq => rw [heq] at h; exact h
      · next heq =>
        rw [heq] at h
        split
        · exact h
        · split
          · exact h
          · split <;> exact h

theorem fails_of_tables_error
    (exec : Instance → Nat → List Nat → execution_result × Instance) (module : Module)
    (fs : List ExternalFunction) (ts : List ExternalTable) (ms : List ExternalMemory)
    (gs : List ExternalGlobal) (e : instantiate_error)
    (h : match_imported_tables (imported_table_types module) ts = .error e) :
    (∃ e2, (instantiate exec module fs ts ms gs).result = .error e2) ∧
    (match_imported_functions (imported_function_types module) fs = .ok () →
      (instantiate exec module fs ts ms gs).result = .error e) := by
  constructor
  · apply instantiate_fails_of_allocate_not_ok
    intro allocated ha
    obtain ⟨_, h2, _⟩ := allocate_ok module fs ts ms gs allocated ha
    rw [h2] at h
    simp at h
  · intro h1
    refine (instantiate_of_allocate_error exec module fs ts ms gs e ?_).1
    simp only [allocate, h1, h]

theorem fails_of_memories_error
    (exec : Instance → Nat → List Nat → execution_result × Instance) (module : Module)
    (fs : List ExternalFunction) (ts : List ExternalTable) (ms : List ExternalMemory)
    (gs : List ExternalGlobal) (e : instantiate_error)
    (h : match_imported_memories (imported_memory_types module) ms = .error e) :
    (∃ e2, (instantiate exec module fs ts ms gs).result = .error e2) ∧
    (match_imported_functions (imported_function_types module) fs = .ok () →
      match_imported_tables (imported_table_types module) ts = .ok () →
      (instantiate exec module fs ts ms gs).result = .error e) := by
  constructor
  · apply instantiate_fails_of_allocate_not_ok
    intro allocated ha
    obtain ⟨_, _, h3, _⟩ := allocate_ok module fs ts ms gs allocated ha
    rw [h3] at h
    simp at h
  · intro h1 h2
    refine (instantiate_of_allocate_error exec module fs ts ms gs e ?_).1
    simp only [allocate, h1, h2, h]

theorem fails_of_allocate_table_error
    (exec : Instance → Nat → List Nat → execution_result × Instance) (module : Module)
    (fs : List ExternalFunction) (ts : List ExternalTable) (ms : List ExternalMemory)
    (gs : List ExternalGlobal) (e : instantiate_error)
    (h : allocate_table module.tablesec ts = .error e) :
    (∃ e2, (instantiate exec module fs ts ms gs).result = .error e2) ∧
    (match_imported_functions (imported_function_types module) fs = .ok () →
      match_imported_tables (imported_table_types module) ts = .ok () →
      match_imported_memories (imported_memory_types module) ms = .ok () →
      match_imported_globals (imported_globals_mutability module) gs = .ok () →
      (instantiate exec module fs ts ms gs).result = .error e) := by
  constructor
  · apply instantiate_fails_of_allocate_not_ok
    intro allocated ha
    obtain ⟨_, _, _, _, h5, _⟩ := allocate_ok module fs ts ms gs allocated ha
    rw [h5] at h
    simp at h
  · intro h1 h2 h3 h4
    refine (instantiate_of_allocate_error exec module fs ts ms gs e ?_).1
    simp only [allocate, h1, h2, h3, h4, h]

theorem fails_of_allocate_memory_error
    (exec : Instance → Nat → List Nat → execution_result × Instance) (module : Module)
    (fs : List ExternalFunction) (ts : List ExternalTable) (ms : List ExternalMemory)
    (gs : List ExternalGlobal) (e : instantiate_error)
    (h : allocate_memory module.memorysec ms = .error e) :
    (∃ e2, (instantiate exec module fs ts ms gs).result = .error e2) ∧
    (match_imported_functions (imported_function_types module) fs = .ok () →
      match_imported_tables (imported_table_types module) ts = .ok () →
      match_imported_memories (imported_memory_types module) ms = .ok () →
      match_imported_globals (imported_globals_mutability module) gs = .ok () →
      (∃ table, allocate_table module.tablesec ts = .ok table) →
      (instantiate exec module fs ts ms gs).result = .error e) := by
  constructor
  · apply instantiate_fails_of_allocate_not_ok
    intro allocated ha
    obtain ⟨_, _, _, _, _, h6, _⟩ := allocate_ok module fs ts ms gs allocated ha
    rw [h6] at h
    simp at h
  · intro h1 h2 h3 h4 h5
    obtain ⟨table, h5⟩ := h5
    refine (instantiate_of_allocate_error exec module fs ts ms gs e ?_).1
    simp only [allocate, h1, h2, h3, h4, h5, h]

theorem match_limits_min_error (external_limits module_limits : Limits)
    (h : external_limits.min < module_limits.min) :
    match_limits external_limits module_limits
      = .error ⟨"Provided import\x27s min is below import\x27s min defined in module."⟩ := by
  simp only [match_limits, h, if_true]

theorem match_limits_max_error (external_limits module_limits : Limits) (module_max : Nat)
    (hmin : module_limits.min ≤ external_limits.min)
    (hmax : module_limits.max = some module_max)
    (h : external_limits.max = none ∨
      ∃ external_max, external_limits.max = some external_max ∧ module_max < external_max) :
    match_limits external_limits module_limits
      = .error ⟨"Provided import\x27s max is above import\x27s max defined in module."⟩ := by
  simp only [match_limits, Nat.not_lt.mpr hmin, if_false, hmax]
  rcases h with h | ⟨external_max, h, hlt⟩
  · simp only [h]
  · simp only [h, Nat.not_le.mpr hlt, if_false]

theorem match_limits_error_of_not_strict (external_limits module_limits : Limits)
    (h : external_limits.min < module_limits.min ∨
      ∃ module_max, module_limits.max = some module_max ∧
        (external_limits.max = none ∨
          ∃ external_max, external_limits.max = some external_max ∧
            module_max < external_max)) :
    ∃ e, match_limits external_limits module_limits = .error e := by
  cases hm : match_limits external_limits module_limits with
  | error e => exact ⟨e, rfl⟩
  | ok u =>
    exfalso
    cases u
    obtain ⟨h1, h2⟩ := (match_limits_ok _ _).mp hm
    rcases h with h | ⟨module_max, hmax, h⟩
    · omega
    · obtain ⟨external_max, he, hle⟩ := h2 module_max hmax
      rcases h with h | ⟨em, h, hlt⟩
      · rw [h] at he; simp at he
      · rw [h] at he
        simp only [Option.some.injEq] at he
        omega

theorem match_imported_tables_limits_error (types : List Table) (t : Table)
    (rest : List Table) (storage : Option table_elements) (limits : Limits)
    (e : instantiate_error) (hty : types = t :: rest)
    (h : match_limits limits t.limits = .error e) :
    match_imported_tables types [⟨storage, limits⟩] = .error e := by
  simp [match_imported_tables, hty, h]

theorem match_imported_memories_limits_error (types : List Memory) (m : Memory)
    (rest : List Memory) (storage : Option bytes) (limits : Limits)
    (e : instantiate_error) (hty : types = m :: rest)
    (h : match_limits limits m.limits = .error e) :
    match_imported_memories types [⟨storage, limits⟩] = .error e := by
  simp [match_imported_memories, hty, h]

theorem allocate_one_page (module : Module) (memory : bytes)
    (himp : module.importsec = [⟨"mod", "m", .Memory ⟨⟨1, some 1⟩⟩⟩])
    (htab : module.tablesec = []) (hmem : module.memorysec = [])
    (hglob : module.globalsec = []) (hlen : memory.length = PageSize) :
    allocate module [] [] [⟨some memory, ⟨1, some 1⟩⟩] []
      = .ok (instance_with_memory module memory) := by
  have h1 : match_imported_memories [⟨⟨1, some 1⟩⟩] [⟨some memory, ⟨1, some 1⟩⟩] = .ok () :=
    (match_imported_memories_ok _ _ _).mpr ⟨⟨⟨1, some 1⟩⟩, [], memory, rfl, by decide, rfl,
      by simp only [hlen]; decide, fun mx h => by
        simp only [Option.some.injEq] at h
        subst h
        exact ⟨by rw [hlen]; decide, by decide⟩⟩
  simp [allocate, imported_function_types, imported_table_types, imported_memory_types,
    imported_globals_mutability, himp, htab, hmem, hglob, match_imported_functions,
    match_function_types, match_imported_tables, h1, match_imported_globals,
    match_global_types, allocate_table, allocate_memory, init_globals, instance_with_memory]

theorem fill_one_page (module : Module) (memory : bytes)
    (hglob : module.globalsec = []) (hel : module.elementsec = [])
    (hdata : module.datasec = [⟨.Constant 1, [170, 255]⟩, ⟨.Constant 2, [85, 85]⟩])
    (hlen : memory.length = PageSize) :
    fill_segments (instance_with_memory module memory)
      = .ok (instance_with_memory module
          (apply_segments memory [(1, [170, 255]), (2, [85, 85])])) := by
  have h3 : ¬ memory.length < 1 + 2 := by rw [hlen]; decide
  have h4 : ¬ memory.length < 2 + 2 := by rw [hlen]; decide
  simp [fill_segments, segment_stage, check_segments, element_segments, data_segments,
    instance_with_memory, hglob, hel, hdata, eval_constant_expression, storage_size, h3, h4]

theorem length_filled_one_page (memory : bytes) (hlen : memory.length = PageSize) :
    (apply_segments memory [(1, [170, 255]), (2, [85, 85])]).length = PageSize := by
  rw [length_apply_segments _ _ (by
    intro seg hseg
    simp only [List.mem_cons, List.mem_singleton, List.not_mem_nil, or_false] at hseg
    rcases hseg with rfl | rfl <;> simp only [hlen] <;> decide), hlen]

theorem execute_start_stores (memory : bytes) (hlen : 0 < memory.length) :
    execute (instance_with_memory module_start_stores memory) 0 []
      = (⟨false, none⟩, instance_with_memory module_start_stores (memory.set 0 7)) := by
  have h1 : ¬ memory.length < 0 + 0 + 1 := by omega
  simp [execute, instance_with_memory, module_start_stores, run_body, h1]

/-! ## The claims on `instantiate` -/

/-- C14, as stated, fails: the module `module_start_grows` declares one memory
with limits (0, 1), within the hard cap, and `instantiate` succeeds, but its
start function has grown the memory by one page, so the memory of the instance
is not of `0 * 65536` bytes. -/
theorem memory_limits_round_trip_counterexample :
    module_start_grows.memorysec = [⟨⟨0, some 1⟩⟩] ∧
    ∃ inst, (instantiate execute module_start_grows [] [] [] []).result = .ok inst ∧
      inst.memory.map List.length ≠ some (0 * PageSize) := by
  refine ⟨rfl, ?_⟩
  have h : (instantiate execute module_start_grows [] [] [] []).result
      = .ok { module := module_start_grows
              memory := some (List.replicate (0 * PageSize) 0 ++ List.replicate (1 * PageSize) 0)
              memory_max_pages := 1
              table := none
              globals := []
              imported_functions := []
              imported_globals := [] } := by
    rfl
  refine ⟨_, h, ?_⟩
  simp only [Option.map_some', List.length_append, List.length_replicate, ne_eq,
    Option.some.injEq]
  decide

/-- C14, amended: round trip of memory limits. For every module that declares
one memory with limits `(min, max)`: if `instantiate` succeeds, and the start
function, if there is one, leaves the size of the memory and
`memory_max_pages` as they are, then the memory of the instance has `min *
65536` bytes and `memory_max_pages` is `max` when it is present and 4096 when
it is absent (so that `memory_max_pages * 65536` is 256 MiB). And `instantiate`
does succeed on the module that declares such a memory within the hard cap
and nothing else. -/
theorem memory_limits_round_trip
    (exec : Instance → Nat → List Nat → execution_result × Instance) (module : Module)
    (fs : List ExternalFunction) (ts : List ExternalTable) (ms : List ExternalMemory)
    (gs : List ExternalGlobal) (min : Nat) (max : Option Nat) :
    (∀ inst, module.memorysec = [⟨⟨min, max⟩⟩] →
      (∀ func_idx before, module.startfunc = some func_idx →
        (exec before func_idx []).2.memory.map List.length = before.memory.map List.length ∧
          (exec before func_idx []).2.memory_max_pages = before.memory_max_pages) →
      (instantiate exec module fs ts ms gs).result = .ok inst →
      inst.memory.map List.length = some (min * PageSize) ∧
        inst.memory_max_pages = max.getD MemoryPagesLimit ∧
        (max = none → inst.memory_max_pages * PageSize = 268435456)) ∧
    (min ≤ MemoryPagesLimit → max.getD MemoryPagesLimit ≤ MemoryPagesLimit →
      ∃ alone, (instantiate exec { memorysec := [⟨⟨min, max⟩⟩] } [] [] [] []).result
        = .ok alone ∧
        alone.memory = some (List.replicate (min * PageSize) 0) ∧
        alone.memory_max_pages = max.getD MemoryPagesLimit) := by
  constructor
  · intro inst hmem hstart hok
    obtain ⟨allocated, filled, ha, hf, hcase⟩ :=
      instantiate_ok_cases exec module fs ts ms gs inst hok
    obtain ⟨_, _, _, _, _, hmemory, _, _, _, _⟩ := allocate_ok module fs ts ms gs allocated ha
    rw [hmem] at hmemory
    obtain ⟨_, _, _, hm, hmax⟩ := allocate_memory_declared ⟨min, max⟩ ms _ _ hmemory
    obtain ⟨hlen, _, hpages, _, hmod⟩ := fill_segments_sizes allocated filled hf
    have hfilled : filled.memory.map List.length = some (min * PageSize) ∧
        filled.memory_max_pages = max.getD MemoryPagesLimit := by
      rw [hlen, hpages, hm, hmax]
      simp only [Option.map_some', List.length_replicate, and_self]
    have hinst : inst.memory.map List.length = some (min * PageSize) ∧
        inst.memory_max_pages = max.getD MemoryPagesLimit := by
      rcases hcase with ⟨_, rfl⟩ | ⟨func_idx, hsf, _, rfl⟩
      · exact hfilled
      · obtain ⟨h1, h2⟩ := hstart func_idx filled hsf
        rw [h1, h2]
        exact hfilled
    refine ⟨hinst.1, hinst.2, ?_⟩
    intro hnone
    rw [hinst.2, hnone]
    rfl
  · intro hmin hmax
    have hcap : ¬ (MemoryPagesLimit < min ∨ MemoryPagesLimit < max.getD MemoryPagesLimit) := by
      omega
    refine ⟨{ module := { memorysec := [⟨⟨min, max⟩⟩] }
              memory := some (List.replicate (min * PageSize) 0)
              memory_max_pages := max.getD MemoryPagesLimit
              table := none
              globals := []
              imported_functions := []
              imported_globals := [] }, ?_, rfl, rfl⟩
    simp [instantiate, allocate, imported_function_types, imported_table_types,
      imported_memory_types, imported_globals_mutability, match_imported_functions,
      match_function_types, match_imported_tables, match_imported_memories,
      match_imported_globals, match_global_types, allocate_table, allocate_memory,
      init_globals, hcap, segment_stage, fill_segments, check_segments, element_segments, data_segments,
      apply_segments]

/-- A concrete instance of `memory_limits_round_trip`: the modules of the unit
tests `memory_single` and `memory_single_unspecified_maximum`. -/
theorem memory_limits_round_trip_witness :
    (∃ inst, (instantiate execute { memorysec := [⟨⟨1, some 1⟩⟩] } [] [] [] []).result
        = .ok inst ∧
      inst.memory.map List.length = some (1 * PageSize) ∧ inst.memory_max_pages = 1) ∧
    (∃ inst, (instantiate execute { memorysec := [⟨⟨1, none⟩⟩] } [] [] [] []).result
        = .ok inst ∧
      inst.memory.map List.length = some (1 * PageSize) ∧
      inst.memory_max_pages * PageSize = 268435456) :=
  have h1 := memory_limits_round_trip execute { memorysec := [⟨⟨1, some 1⟩⟩] } [] [] [] [] 1
    (some 1)
  have h2 := memory_limits_round_trip execute { memorysec := [⟨⟨1, none⟩⟩] } [] [] [] [] 1 none
  match h1.2 (by decide) (by decide), h2.2 (by decide) (by decide) with
  | ⟨alone1, hok1, _, _⟩, ⟨alone2, hok2, _, _⟩ =>
    have r1 := h1.1 alone1 rfl (fun _ _ h => by simp at h) hok1
    have r2 := h2.1 alone2 rfl (fun _ _ h => by simp at h) hok2
    ⟨⟨alone1, hok1, r1.1, r1.2.1⟩, ⟨alone2, hok2, r2.1, r2.2.2 rfl⟩⟩

/-- C15: no memory limit may exceed the hard cap of 268435456 bytes, that is,
4096 pages. If the memory that a module declares has `min * 65536` or, `max`
being present, `max * 65536` above the cap, `instantiate` fails, and with
`Cannot exceed hard memory limit of 268435456 bytes.` when the stages before
the allocation of the memory have passed. If the `max` of the provided
imported memory is above 4096 pages, `instantiate` fails, and with `Imported
memory limits cannot exceed hard memory limit of 268435456 bytes.` when the
checks before this one have passed. -/
theorem hard_memory_cap
    (exec : Instance → Nat → List Nat → execution_result × Instance) (module : Module)
    (fs : List ExternalFunction) (ts : List ExternalTable) (ms : List ExternalMemory)
    (gs : List ExternalGlobal) :
    (∀ min max, module.memorysec = [⟨⟨min, max⟩⟩] →
      (268435456 < min * PageSize ∨ ∃ mx, max = some mx ∧ 268435456 < mx * PageSize) →
      (∃ e, (instantiate exec module fs ts ms gs).result = .error e) ∧
      (match_imported_functions (imported_function_types module) fs = .ok () →
        match_imported_tables (imported_table_types module) ts = .ok () →
        imported_memory_types module = [] → ms = [] →
        match_imported_globals (imported_globals_mutability module) gs = .ok () →
        (∃ table, allocate_table module.tablesec ts = .ok table) →
        (instantiate exec module fs ts ms gs).result
          = .error ⟨"Cannot exceed hard memory limit of 268435456 bytes."⟩)) ∧
    (∀ storage pmin pmax, ms = [⟨storage, ⟨pmin, some pmax⟩⟩] → MemoryPagesLimit < pmax →
      (∃ e, (instantiate exec module fs ts ms gs).result = .error e) ∧
      (match_imported_functions (imported_function_types module) fs = .ok () →
        match_imported_tables (imported_table_types module) ts = .ok () →
        ∀ m rest data, imported_memory_types module = m :: rest →
          match_limits ⟨pmin, some pmax⟩ m.limits = .ok () → storage = some data →
          pmin * PageSize ≤ data.length → data.length ≤ pmax * PageSize →
          (instantiate exec module fs ts ms gs).result = .error
            ⟨"Imported memory limits cannot exceed hard memory limit of 268435456 bytes."⟩)) := by
  constructor
  · intro min max hmem hcap
    have hover : MemoryPagesLimit < min ∨ MemoryPagesLimit < max.getD MemoryPagesLimit := by
      rcases hcap with h | ⟨mx, rfl, h⟩
      · left; simp only [PageSize, MemoryPagesLimit] at *; omega
      · right; simp only [PageSize, MemoryPagesLimit, Option.getD_some] at *; omega
    constructor
    · apply instantiate_fails_of_allocate_not_ok
      intro allocated ha
      obtain ⟨_, _, _, _, _, hmemory, _⟩ := allocate_ok module fs ts ms gs allocated ha
      rw [hmem] at hmemory
      obtain ⟨_, h1, h2, _⟩ := allocate_memory_declared ⟨min, max⟩ ms _ _ hmemory
      simp only at h1 h2
      omega
    · intro h1 h2 himp hms h4 h5
      obtain ⟨table, h5⟩ := h5
      subst hms
      refine (instantiate_of_allocate_error exec module fs ts [] gs _ ?_).1
      simp [allocate, h1, h2, himp, match_imported_memories, h4, h5, allocate_memory,
        hmem, hover]
  · intro storage pmin pmax hms hcap
    subst hms
    constructor
    · apply instantiate_fails_of_allocate_not_ok
      intro allocated ha
      obtain ⟨_, _, h3, _⟩ := allocate_ok module fs ts _ gs allocated ha
      obtain ⟨m, rest, data, _, _, _, _, hmax⟩ := (match_imported_memories_ok _ _ _).mp h3
      have := (hmax pmax rfl).2
      omega
    · intro h1 h2 m rest data hty hml hst hmin hfit
      subst hst
      refine (instantiate_of_allocate_error exec module fs ts _ gs _ ?_).1
      simp [allocate, h1, h2, hty, match_imported_memories, hml, Nat.not_lt.mpr hmin,
        Nat.not_lt.mpr hfit, hcap]

/-- A concrete instance of `hard_memory_cap`: the module of the unit test
`memory_single_large_minimum`, and an imported memory whose provided `max` is
one page above the cap, as in the unit test `imported_memory_invalid`. -/
theorem hard_memory_cap_witness :
    (instantiate execute { memorysec := [⟨⟨16384, none⟩⟩] } [] [] [] []).result
      = .error ⟨"Cannot exceed hard memory limit of 268435456 bytes."⟩ ∧
    (instantiate execute { importsec := [⟨"mod", "m", .Memory ⟨⟨0, none⟩⟩⟩] } [] []
        [⟨some [], ⟨0, some 4097⟩⟩] []).result
      = .error ⟨"Imported memory limits cannot exceed hard memory limit of 268435456 bytes."⟩ :=
  ⟨((hard_memory_cap execute { memorysec := [⟨⟨16384, none⟩⟩] } [] [] [] []).1 16384 none rfl
      (Or.inl (by decide))).2 (by decide) (by decide) rfl rfl (by decide) ⟨none, by decide⟩,
    ((hard_memory_cap execute { importsec := [⟨"mod", "m", .Memory ⟨⟨0, none⟩⟩⟩] } [] []
      [⟨some [], ⟨0, some 4097⟩⟩] []).2 (some []) 0 4097 rfl (by decide)).2
      (by decide) (by decide) ⟨⟨0, none⟩⟩ [] [] rfl (by decide) rfl (by decide) (by decide)⟩

/-- C16, as stated, fails: `instantiate` succeeds on `module_start_stores`
with a host memory of one page of zero bytes; address 0 is covered by no data
segment and the byte of the host there is 0, but the start function has stored
7 there. -/
theorem data_segments_in_order_counterexample :
    ∃ inst memory,
      (instantiate execute module_start_stores [] []
        [⟨some (List.replicate PageSize 0), ⟨1, some 1⟩⟩] []).result = .ok inst ∧
      inst.memory = some memory ∧
      (∀ data ∈ module_start_stores.datasec, ∀ offset,
        data.offset = .Constant offset → ¬ covers offset data.init 0) ∧
      (List.replicate PageSize 0 : bytes)[0]? = some 0 ∧ memory[0]? = some 7 := by
  have hlen : (List.replicate PageSize 0 : bytes).length = PageSize := List.length_replicate _ _
  have ha := allocate_one_page module_start_stores _ rfl rfl rfl rfl hlen
  have hf := fill_one_page module_start_stores _ rfl rfl rfl hlen
  have hl2 := length_filled_one_page _ hlen
  obtain ⟨hr, _, _⟩ := instantiate_of_start execute module_start_stores [] []
    [⟨some (List.replicate PageSize 0), ⟨1, some 1⟩⟩] [] _ _ 0 ha hf rfl
  rw [execute_start_stores _ (by rw [hl2]; decide)] at hr
  refine ⟨_, _, hr, rfl, ?_, ?_, ?_⟩
  · intro data hdata offset hoff
    simp only [module_start_stores, List.mem_cons, List.mem_singleton, List.not_mem_nil,
      or_false] at hdata
    rcases hdata with rfl | rfl
    · simp only [ConstantExpression.Constant.injEq] at hoff
      subst hoff
      simp [covers]
    · simp only [ConstantExpression.Constant.injEq] at hoff
      subst hoff
      simp [covers]
  · rw [List.getElem?_replicate_of_lt (by decide)]
  · rw [List.getElem?_set_self (by rw [hl2]; decide)]

/-- C16, amended: data segments are applied in declaration order and later
segments overwrite earlier ones. After a successful `instantiate` of a module
whose start function, if there is one, leaves the memory as it is, the memory
has the size of the allocated one and every byte of it is the byte of the last
data segment, in declaration order, that covers its address, or the initial
byte when no segment covers it; the initial bytes are zero for a
module-declared memory and the bytes of the host for an imported one. -/
theorem data_segments_in_order
    (exec : Instance → Nat → List Nat → execution_result × Instance) (module : Module)
    (fs : List ExternalFunction) (ts : List ExternalTable) (ms : List ExternalMemory)
    (gs : List ExternalGlobal) (inst allocated : Instance) (initial : bytes)
    (hstart : ∀ func_idx before, module.startfunc = some func_idx →
      (exec before func_idx []).2.memory = before.memory)
    (hok : (instantiate exec module fs ts ms gs).result = .ok inst)
    (halloc : allocate module fs ts ms gs = .ok allocated)
    (hinit : allocated.memory = some initial) :
    (∀ limits, module.memorysec = [⟨limits⟩] →
      initial = List.replicate (limits.min * PageSize) 0) ∧
    (module.memorysec = [] → ∀ storage limits, ms = [⟨storage, limits⟩] →
      storage = some initial) ∧
    ∃ memory, inst.memory = some memory ∧ memory.length = initial.length ∧
      ∀ addr,
        (∀ before data after offset, module.datasec = before ++ data :: after →
          eval_constant_expression data.offset gs module.globalsec allocated.globals
            = .ok offset →
          covers offset data.init addr →
          (∀ later ∈ after, ∀ o,
            eval_constant_expression later.offset gs module.globalsec allocated.globals
              = .ok o → ¬ covers o later.init addr) →
          memory[addr]? = data.init[addr - offset]?) ∧
        ((∀ data ∈ module.datasec, ∀ o,
            eval_constant_expression data.offset gs module.globalsec allocated.globals
              = .ok o → ¬ covers o data.init addr) →
          memory[addr]? = initial[addr]?) := by
  obtain ⟨_, _, _, _, _, hmemory, _, hmod, _, hgs⟩ :=
    allocate_ok module fs ts ms gs allocated halloc
  refine ⟨?_, ?_, ?_⟩
  · intro limits hsec
    rw [hsec] at hmemory
    obtain ⟨_, _, _, hm, _⟩ := allocate_memory_declared limits ms _ _ hmemory
    rw [hinit] at hm
    simp only [Option.some.injEq] at hm
    exact hm
  · intro hsec storage limits hms
    rw [hsec, hms] at hmemory
    obtain ⟨hm, _⟩ := allocate_memory_imported storage limits _ _ hmemory
    rw [← hm, hinit]
  · obtain ⟨allocated2, filled, ha, hf, hcase⟩ :=
      instantiate_ok_cases exec module fs ts ms gs inst hok
    rw [halloc] at ha
    simp only [Except.ok.injEq] at ha
    subst ha
    obtain ⟨elements, datas, _, hd, hfilled⟩ := fill_segments_ok allocated filled hf
    rw [hmod, hgs, hinit] at hd
    simp only [storage_size] at hd
    have hmemf : filled.memory = some (apply_segments initial datas) := by
      rw [hfilled, hinit]; rfl
    have hmemi : inst.memory = some (apply_segments initial datas) := by
      rcases hcase with ⟨_, rfl⟩ | ⟨func_idx, hsf, _, rfl⟩
      · exact hmemf
      · rw [hstart func_idx filled hsf]; exact hmemf
    refine ⟨_, hmemi, ?_, ?_⟩
    · exact (applied_segments_spec gs module.globalsec allocated.globals _ _ datas initial
        hd 0).1
    · intro addr
      obtain ⟨_, hlast, hnone⟩ := applied_segments_spec gs module.globalsec
        allocated.globals _ _ datas initial hd addr
      constructor
      · intro before data after offset hsplit hev hcov hlater
        apply hlast (before.map fun d => (d.offset, d.init)) (data.offset, data.init)
          (after.map fun d => (d.offset, d.init)) offset
        · simp only [data_segments, hsplit, List.map_append, List.map_cons]
        · exact hev
        · exact hcov
        · intro later hl o ho
          simp only [List.mem_map] at hl
          obtain ⟨d, hd2, rfl⟩ := hl
          exact hlater d hd2 o ho
      · intro hnot
        apply hnone
        intro x hx o ho
        simp only [data_segments, List.mem_map] at hx
        obtain ⟨d, hd2, rfl⟩ := hx
        exact hnot d hd2 o ho

/-- A concrete instance of `data_segments_in_order`: the unit test
`data_section_fills_imported_memory`, in which the memory of the host is one
page of zero bytes and begins with `00 aa 55 55 00 00` afterwards. -/
theorem data_segments_in_order_witness :
    ∃ inst memory,
      (instantiate execute module_data_section [] []
        [⟨some (List.replicate PageSize 0), ⟨1, some 1⟩⟩] []).result = .ok inst ∧
      inst.memory = some memory ∧ memory.length = PageSize ∧
      memory[0]? = some 0 ∧ memory[1]? = some 170 ∧ memory[2]? = some 85 ∧
      memory[3]? = some 85 ∧ memory[4]? = some 0 ∧ memory[5]? = some 0 :=
  have hlen : (List.replicate PageSize 0 : bytes).length = PageSize := List.length_replicate _ _
  have ha := allocate_one_page module_data_section _ rfl rfl rfl rfl hlen
  have hf := fill_one_page module_data_section _ rfl rfl rfl hlen
  have hok := (instantiate_of_no_start execute module_data_section [] []
    [⟨some (List.replicate PageSize 0), ⟨1, some 1⟩⟩] [] _ _ ha hf rfl).1
  have hnone : ∀ addr, (addr < 1 ∨ 4 ≤ addr) →
      ∀ data ∈ module_data_section.datasec, ∀ o,
        eval_constant_expression data.offset [] module_data_section.globalsec
          (instance_with_memory module_data_section (List.replicate PageSize 0)).globals
          = .ok o → ¬ covers o data.init addr := by
    intro addr haddr data hdata o ho
    simp only [module_data_section, List.mem_cons, List.mem_singleton,
      List.not_mem_nil, or_false] at hdata
    rcases hdata with rfl | rfl <;>
      simp only [eval_constant_expression, Except.ok.injEq] at ho <;>
      subst ho <;> simp only [covers, List.length_cons, List.length_nil] <;> omega
  match (data_segments_in_order execute module_data_section [] []
      [⟨some (List.replicate PageSize 0), ⟨1, some 1⟩⟩] [] _ _ (List.replicate PageSize 0)
      (fun _ _ h => by simp [module_data_section] at h) hok ha rfl).2.2 with
  | ⟨memory, h1, h2, h3⟩ =>
    have zero : ∀ addr, addr < PageSize → (List.replicate PageSize 0 : bytes)[addr]? = some 0 :=
      fun addr h => List.getElem?_replicate_of_lt h
    ⟨_, memory, hok, h1, h2.trans hlen,
      ((h3 0).2 (hnone 0 (by omega))).trans (zero 0 (by decide)),
      (h3 1).1 [] ⟨.Constant 1, [170, 255]⟩ [⟨.Constant 2, [85, 85]⟩] 1 rfl rfl
        (by simp [covers]) (by
          intro later hl o ho
          simp only [List.mem_singleton] at hl
          subst hl
          simp only [eval_constant_expression, Except.ok.injEq] at ho
          subst ho
          simp [covers]),
      (h3 2).1 [⟨.Constant 1, [170, 255]⟩] ⟨.Constant 2, [85, 85]⟩ [] 2 rfl rfl
        (by simp [covers]) (by simp),
      (h3 3).1 [⟨.Constant 1, [170, 255]⟩] ⟨.Constant 2, [85, 85]⟩ [] 2 rfl rfl
        (by simp [covers]) (by simp),
      ((h3 4).2 (hnone 4 (by omega))).trans (zero 4 (by decide)),
      ((h3 5).2 (hnone 5 (by omega))).trans (zero 5 (by decide))⟩

/-- C17: element segments fill the table and leave the rest alone. After a
successful `instantiate`, the start function, if there is one, writing no
table entry: a module-declared table has size `min`, an imported table has the
size that the host gave it, and every entry is the function index of the last
element segment, in declaration order, that covers it; an entry that no
segment covers is "no entry" in a module-declared table and the entry of the
host in an imported table. -/
theorem element_segments_fill_table
    (exec : Instance → Nat → List Nat → execution_result × Instance) (module : Module)
    (fs : List ExternalFunction) (ts : List ExternalTable) (ms : List ExternalMemory)
    (gs : List ExternalGlobal) (inst allocated : Instance) (initial : table_elements)
    (hstart : ∀ func_idx before, module.startfunc = some func_idx →
      (exec before func_idx []).2.table = before.table)
    (hok : (instantiate exec module fs ts ms gs).result = .ok inst)
    (halloc : allocate module fs ts ms gs = .ok allocated)
    (hinit : allocated.table = some initial) :
    (∀ limits, module.tablesec = [⟨limits⟩] → initial = List.replicate limits.min none) ∧
    (module.tablesec = [] → ∀ storage limits, ts = [⟨storage, limits⟩] →
      storage = some initial) ∧
    ∃ table, inst.table = some table ∧ table.length = initial.length ∧
      (∀ limits, module.tablesec = [⟨limits⟩] → table.length = limits.min) ∧
      ∀ addr,
        (∀ before element after offset, module.elementsec = before ++ element :: after →
          eval_constant_expression element.offset gs module.globalsec allocated.globals
            = .ok offset →
          covers offset element.init addr →
          (∀ later ∈ after, ∀ o,
            eval_constant_expression later.offset gs module.globalsec allocated.globals
              = .ok o → ¬ covers o later.init addr) →
          table[addr]? = (element.init[addr - offset]?).map some) ∧
        ((∀ element ∈ module.elementsec, ∀ o,
            eval_constant_expression element.offset gs module.globalsec allocated.globals
              = .ok o → ¬ covers o element.init addr) →
          table[addr]? = initial[addr]? ∧
          ∀ limits, module.tablesec = [⟨limits⟩] → addr < limits.min →
            table[addr]? = some none) := by
  obtain ⟨_, _, _, _, htable, _, _, hmod, _, hgs⟩ :=
    allocate_ok module fs ts ms gs allocated halloc
  have hdecl : ∀ limits, module.tablesec = [⟨limits⟩] →
      initial = List.replicate limits.min none := by
    intro limits hsec
    rw [hsec] at htable
    obtain ⟨_, ht⟩ := allocate_table_declared limits ts _ htable
    rw [hinit] at ht
    simp only [Option.some.injEq] at ht
    exact ht
  refine ⟨hdecl, ?_, ?_⟩
  · intro hsec storage limits hts
    rw [hsec, hts] at htable
    rw [← allocate_table_imported storage limits _ htable, hinit]
  · obtain ⟨allocated2, filled, ha, hf, hcase⟩ :=
      instantiate_ok_cases exec module fs ts ms gs inst hok
    rw [halloc] at ha
    simp only [Except.ok.injEq] at ha
    subst ha
    obtain ⟨elements, datas, he, _, hfilled⟩ := fill_segments_ok allocated filled hf
    rw [hmod, hgs, hinit] at he
    simp only [storage_size] at he
    have htabf : filled.table = some (apply_segments initial elements) := by
      rw [hfilled, hinit]; rfl
    have htabi : inst.table = some (apply_segments initial elements) := by
      rcases hcase with ⟨_, rfl⟩ | ⟨func_idx, hsf, _, rfl⟩
      · exact htabf
      · rw [hstart func_idx filled hsf]; exact htabf
    have hlen := (applied_segments_spec gs module.globalsec allocated.globals _ _ elements
      initial he 0).1
    refine ⟨_, htabi, hlen, ?_, ?_⟩
    · intro limits hsec
      rw [hlen, hdecl limits hsec, List.length_replicate]
    · intro addr
      obtain ⟨_, hlast, hnone⟩ := applied_segments_spec gs module.globalsec
        allocated.globals _ _ elements initial he addr
      constructor
      · intro before element after offset hsplit hev hcov hlater
        have h := hlast (before.map fun e => (e.offset, e.init.map some))
          (element.offset, element.init.map some)
          (after.map fun e => (e.offset, e.init.map some)) offset
          (by simp only [element_segments, hsplit, List.map_append, List.map_cons])
          hev
          (by simp only [covers, List.length_map] at hcov ⊢; exact hcov)
          (by
            intro later hl o ho
            simp only [List.mem_map] at hl
            obtain ⟨e, he2, rfl⟩ := hl
            have := hlater e he2 o ho
            simp only [covers, List.length_map] at this ⊢
            exact this)
        rw [h]
        simp only [List.getElem?_map]
      · intro hnot
        have h : (apply_segments initial elements)[addr]? = initial[addr]? := by
          apply hnone
          intro x hx o ho
          simp only [element_segments, List.mem_map] at hx
          obtain ⟨e, he2, rfl⟩ := hx
          have := hnot e he2 o ho
          simp only [covers, List.length_map] at this ⊢
          exact this
        refine ⟨h, ?_⟩
        intro limits hsec haddr
        rw [h, hdecl limits hsec]
        simp [haddr]

/-- A concrete instance of `element_segments_fill_table`: the unit test
`element_section_fills_imported_table`, in which the table of the host holds
an entry at index 0 and becomes `bb aa 55 66`. -/
theorem element_segments_fill_table_witness :
    ∃ inst table,
      (instantiate execute module_element_section []
        [⟨some [some 187, none, none, none], ⟨4, none⟩⟩] [] []).result = .ok inst ∧
      inst.table = some table ∧ table.length = 4 ∧
      table[2]? = some (some 85) ∧ table[0]? = some (some 187) :=
  have hok : (instantiate execute module_element_section []
      [⟨some [some 187, none, none, none], ⟨4, none⟩⟩] [] []).result
      = .ok { module := module_element_section
              memory := none
              memory_max_pages := 4096
              table := some [some 187, some 170, some 85, some 102]
              globals := []
              imported_functions := []
              imported_globals := [] } := by decide
  match (element_segments_fill_table execute module_element_section []
      [⟨some [some 187, none, none, none], ⟨4, none⟩⟩] [] [] _
      { module := module_element_section
        memory := none
        memory_max_pages := 4096
        table := some [some 187, none, none, none]
        globals := []
        imported_functions := []
        imported_globals := [] }
      [some 187, none, none, none]
      (fun func_idx before _ => execute_table before func_idx []) hok (by decide) rfl).2.2 with
  | ⟨table, h1, h2, _, h3⟩ =>
    ⟨_, table, hok, h1, h2,
      (h3 2).1 [⟨.Constant 1, [170, 255]⟩] ⟨.Constant 2, [85, 102]⟩ [] 2 rfl rfl
        (by simp [covers]) (by simp),
      ((h3 0).2 (by
        intro element helement o ho
        simp only [module_element_section, List.mem_cons, List.mem_singleton,
          List.not_mem_nil, or_false] at helement
        rcases helement with rfl | rfl <;>
          simp only [eval_constant_expression, Except.ok.injEq] at ho <;>
          subst ho <;> simp [covers])).1⟩

/-- C18, as stated, fails for memories: the module imports a memory with
limits (0, 5000), the host provides an empty memory with limits (0, 5000), so
the provided `min` is not below the `min` of the module, the provided `max` is
not above the `max` of the module and the storage fits the provided limits;
yet `instantiate` fails, because the provided `max` is above the hard cap. -/
theorem imported_limits_strictness_counterexample :
    (0 : Nat) ≤ 0 ∧ (5000 : Nat) ≤ 5000 ∧
    0 * PageSize ≤ ([] : bytes).length ∧ ([] : bytes).length ≤ 5000 * PageSize ∧
    (instantiate execute { importsec := [⟨"mod", "m", .Memory ⟨⟨0, some 5000⟩⟩⟩] } [] []
        [⟨some [], ⟨0, some 5000⟩⟩] []).result
      = .error ⟨"Imported memory limits cannot exceed hard memory limit of 268435456 bytes."⟩ := by
  decide

/-- C18, amended: imported limits must be at least as strict as those of the
module, for tables and for memories. When the provided `min` is below the
`min` of the module, `instantiate` fails, and with `Provided import's min is
below import's min defined in module.` if the checks before this one have
passed; when the module declares a `max` and the provided `max` is absent or
greater, `instantiate` fails, and with `Provided import's max is above
import's max defined in module.` if the checks before this one have passed.
With a provided `min` not below and a provided `max` not above those of the
module and a storage that fits the provided limits, `instantiate` succeeds on
the module that has this import and nothing else, if, for a memory, the
provided `max` is moreover at most 4096 pages when it is present. -/
theorem imported_limits_strictness
    (exec : Instance → Nat → List Nat → execution_result × Instance) (module : Module)
    (fs : List ExternalFunction) (ts : List ExternalTable) (ms : List ExternalMemory)
    (gs : List ExternalGlobal) :
    (∀ t rest storage limits, imported_table_types module = t :: rest →
      ts = [⟨storage, limits⟩] →
      (limits.min < t.limits.min →
        (∃ e, (instantiate exec module fs ts ms gs).result = .error e) ∧
        (match_imported_functions (imported_function_types module) fs = .ok () →
          (instantiate exec module fs ts ms gs).result = .error
            ⟨"Provided import\x27s min is below import\x27s min defined in module."⟩)) ∧
      (∀ module_max, t.limits.max = some module_max →
        (limits.max = none ∨ ∃ mx, limits.max = some mx ∧ module_max < mx) →
        (∃ e, (instantiate exec module fs ts ms gs).result = .error e) ∧
        (match_imported_functions (imported_function_types module) fs = .ok () →
          t.limits.min ≤ limits.min →
          (instantiate exec module fs ts ms gs).result = .error
            ⟨"Provided import\x27s max is above import\x27s max defined in module."⟩))) ∧
    (∀ m rest storage limits, imported_memory_types module = m :: rest →
      ms = [⟨storage, limits⟩] →
      (limits.min < m.limits.min →
        (∃ e, (instantiate exec module fs ts ms gs).result = .error e) ∧
        (match_imported_functions (imported_function_types module) fs = .ok () →
          match_imported_tables (imported_table_types module) ts = .ok () →
          (instantiate exec module fs ts ms gs).result = .error
            ⟨"Provided import\x27s min is below import\x27s min defined in module."⟩)) ∧
      (∀ module_max, m.limits.max = some module_max →
        (limits.max = none ∨ ∃ mx, limits.max = some mx ∧ module_max < mx) →
        (∃ e, (instantiate exec module fs ts ms gs).result = .error e) ∧
        (match_imported_functions (imported_function_types module) fs = .ok () →
          match_imported_tables (imported_table_types module) ts = .ok () →
          m.limits.min ≤ limits.min →
          (instantiate exec module fs ts ms gs).result = .error
            ⟨"Provided import\x27s max is above import\x27s max defined in module."⟩))) ∧
    (∀ (module_limits limits : Limits) (table : table_elements) (name1 name2 : String),
      module_limits.min ≤ limits.min →
      (∀ module_max, module_limits.max = some module_max →
        ∃ mx, limits.max = some mx ∧ mx ≤ module_max) →
      limits.min ≤ table.length → (∀ mx, limits.max = some mx → table.length ≤ mx) →
      ∃ inst, (instantiate exec { importsec := [⟨name1, name2, .Table ⟨module_limits⟩⟩] } []
          [⟨some table, limits⟩] [] []).result = .ok inst ∧ inst.table = some table) ∧
    (∀ (module_limits limits : Limits) (data : bytes) (name1 name2 : String),
      module_limits.min ≤ limits.min →
      (∀ module_max, module_limits.max = some module_max →
        ∃ mx, limits.max = some mx ∧ mx ≤ module_max) →
      limits.min * PageSize ≤ data.length →
      (∀ mx, limits.max = some mx → data.length ≤ mx * PageSize) →
      (∀ mx, limits.max = some mx → mx ≤ MemoryPagesLimit) →
      ∃ inst, (instantiate exec { importsec := [⟨name1, name2, .Memory ⟨module_limits⟩⟩] } []
          [] [⟨some data, limits⟩] []).result = .ok inst ∧ inst.memory = some data) := by
  refine ⟨?_, ?_, ?_, ?_⟩
  · intro t rest storage limits hty hts
    subst hts
    constructor
    · intro hlt
      exact fails_of_tables_error exec module fs _ ms gs _
        (match_imported_tables_limits_error _ t rest storage limits _ hty
          (match_limits_min_error limits t.limits hlt))
    · intro module_max hmax habove
      constructor
      · obtain ⟨e, he⟩ := match_limits_error_of_not_strict limits t.limits
          (Or.inr ⟨module_max, hmax, habove⟩)
        exact (fails_of_tables_error exec module fs _ ms gs e
          (match_imported_tables_limits_error _ t rest storage limits e hty he)).1
      · intro h1 hmin
        exact (fails_of_tables_error exec module fs _ ms gs _
          (match_imported_tables_limits_error _ t rest storage limits _ hty
            (match_limits_max_error limits t.limits module_max hmin hmax habove))).2 h1
  · intro m rest storage limits hty hms
    subst hms
    constructor
    · intro hlt
      exact fails_of_memories_error exec module fs ts _ gs _
        (match_imported_memories_limits_error _ m rest storage limits _ hty
          (match_limits_min_error limits m.limits hlt))
    · intro module_max hmax habove
      constructor
      · obtain ⟨e, he⟩ := match_limits_error_of_not_strict limits m.limits
          (Or.inr ⟨module_max, hmax, habove⟩)
        exact (fails_of_memories_error exec module fs ts _ gs e
          (match_imported_memories_limits_error _ m rest storage limits e hty he)).1
      · intro h1 h2 hmin
        exact (fails_of_memories_error exec module fs ts _ gs _
          (match_imported_memories_limits_error _ m rest storage limits _ hty
            (match_limits_max_error limits m.limits module_max hmin hmax habove))).2 h1 h2
  · intro module_limits limits table name1 name2 hmin hmax hfit1 hfit2
    have hml := (match_limits_ok limits module_limits).mpr ⟨hmin, hmax⟩
    have ht : match_imported_tables [⟨module_limits⟩] [⟨some table, limits⟩] = .ok () :=
      (match_imported_tables_ok _ _ _).mpr ⟨⟨module_limits⟩, [], table, rfl, hml, rfl, hfit1, hfit2⟩
    refine ⟨{ module := { importsec := [⟨name1, name2, .Table ⟨module_limits⟩⟩] }
              memory := none
              memory_max_pages := MemoryPagesLimit
              table := some table
              globals := []
              imported_functions := []
              imported_globals := [] }, ?_, rfl⟩
    simp [instantiate, allocate, imported_function_types, imported_table_types,
      imported_memory_types, imported_globals_mutability, match_imported_functions,
      match_function_types, ht, match_imported_memories,
      match_imported_globals, match_global_types, allocate_table, allocate_memory,
      init_globals, segment_stage, fill_segments, check_segments, element_segments, data_segments,
      apply_segments]
  · intro module_limits limits data name1 name2 hmin hmax hfit1 hfit2 hcap
    have hml := (match_limits_ok limits module_limits).mpr ⟨hmin, hmax⟩
    have hm : match_imported_memories [⟨module_limits⟩] [⟨some data, limits⟩] = .ok () :=
      (match_imported_memories_ok _ _ _).mpr
        ⟨⟨module_limits⟩, [], data, rfl, hml, rfl, hfit1, fun mx h => ⟨hfit2 mx h, hcap mx h⟩⟩
    refine ⟨{ module := { importsec := [⟨name1, name2, .Memory ⟨module_limits⟩⟩] }
              memory := some data
              memory_max_pages := limits.max.getD MemoryPagesLimit
              table := none
              globals := []
              imported_functions := []
              imported_globals := [] }, ?_, rfl⟩
    simp [instantiate, allocate, imported_function_types, imported_table_types,
      imported_memory_types, imported_globals_mutability, match_imported_functions,
      match_function_types, hm, match_imported_tables,
      match_imported_globals, match_global_types, allocate_table, allocate_memory,
      init_globals, segment_stage, fill_segments, check_segments, element_segments, data_segments,
      apply_segments]

/-- A concrete instance of `imported_limits_strictness`: the unit tests
`imported_table_invalid` (provided `min` too low, provided `max` too high) and
`imported_table_stricter_limits`. -/
theorem imported_limits_strictness_witness :
    (instantiate execute { importsec := [⟨"mod", "t", .Table ⟨⟨10, some 30⟩⟩⟩] } []
        [⟨some [], ⟨0, some 3⟩⟩] [] []).result
      = .error ⟨"Provided import\x27s min is below import\x27s min defined in module."⟩ ∧
    (instantiate execute { importsec := [⟨"mod", "t", .Table ⟨⟨10, some 30⟩⟩⟩] } []
        [⟨some (List.replicate 10 none), ⟨10, some 40⟩⟩] [] []).result
      = .error ⟨"Provided import\x27s max is above import\x27s max defined in module."⟩ ∧
    (∃ inst, (instantiate execute { importsec := [⟨"mod", "t", .Table ⟨⟨10, some 30⟩⟩⟩] } []
        [⟨some (List.replicate 20 none), ⟨20, some 20⟩⟩] [] []).result = .ok inst ∧
      inst.table = some (List.replicate 20 none)) :=
  ⟨(((imported_limits_strictness execute { importsec := [⟨"mod", "t", .Table ⟨⟨10, some 30⟩⟩⟩] }
        [] [⟨some [], ⟨0, some 3⟩⟩] [] []).1 ⟨⟨10, some 30⟩⟩ [] (some []) ⟨0, some 3⟩
        rfl rfl).1 (by decide)).2 (by decide),
    (((imported_limits_strictness execute
        { importsec := [⟨"mod", "t", .Table ⟨⟨10, some 30⟩⟩⟩] }
        [] [⟨some (List.replicate 10 none), ⟨10, some 40⟩⟩] [] []).1 ⟨⟨10, some 30⟩⟩ []
        (some (List.replicate 10 none)) ⟨10, some 40⟩ rfl rfl).2 30 rfl
        (Or.inr ⟨40, rfl, by decide⟩)).2 (by decide) (by decide),
    (imported_limits_strictness execute {} [] [] [] []).2.2.1 ⟨10, some 30⟩ ⟨20, some 20⟩
      (List.replicate 20 none) "mod" "t" (by decide)
      (fun module_max h => ⟨20, rfl, by simp at h; omega⟩) (by decide)
      (fun mx h => by simp at h; simp; omega)⟩

/-- C19: imported storage must fit its own provided limits. When the size of
the provided table in entries, or of the provided memory in bytes against the
limits in pages (so also its size in whole pages), is below the provided `min`
or above the provided `max`, `instantiate` fails, and with `Provided imported
table doesn't fit provided limits`, or `Provided imported memory doesn't fit
provided limits`, if the checks before this one have passed; when the storage
pointer is null, `instantiate` fails, and with `Provided imported table has a
null pointer to data.`, or `Provided imported memory has a null pointer to
data.`, if the checks before this one have passed. -/
theorem imported_storage_fits
    (exec : Instance → Nat → List Nat → execution_result × Instance) (module : Module)
    (fs : List ExternalFunction) (ts : List ExternalTable) (ms : List ExternalMemory)
    (gs : List ExternalGlobal) :
    (∀ storage limits, ts = [⟨storage, limits⟩] →
      (∀ table, storage = some table →
        (table.length < limits.min ∨ ∃ mx, limits.max = some mx ∧ mx < table.length) →
        (∃ e, (instantiate exec module fs ts ms gs).result = .error e) ∧
        (match_imported_functions (imported_function_types module) fs = .ok () →
          ∀ t rest, imported_table_types module = t :: rest →
            match_limits limits t.limits = .ok () →
            (instantiate exec module fs ts ms gs).result = .error
              ⟨"Provided imported table doesn\x27t fit provided limits"⟩)) ∧
      (storage = none →
        (∃ e, (instantiate exec module fs ts ms gs).result = .error e) ∧
        (match_imported_functions (imported_function_types module) fs = .ok () →
          ∀ t rest, imported_table_types module = t :: rest →
            match_limits limits t.limits = .ok () →
            (instantiate exec module fs ts ms gs).result = .error
              ⟨"Provided imported table has a null pointer to data."⟩))) ∧
    (∀ storage limits, ms = [⟨storage, limits⟩] →
      (∀ data, storage = some data →
        (data.length < limits.min * PageSize ∨
          (∃ mx, limits.max = some mx ∧ mx * PageSize < data.length) ∨
          data.length / PageSize < limits.min ∨
          (∃ mx, limits.max = some mx ∧ mx < data.length / PageSize)) →
        (∃ e, (instantiate exec module fs ts ms gs).result = .error e) ∧
        (match_imported_functions (imported_function_types module) fs = .ok () →
          match_imported_tables (imported_table_types module) ts = .ok () →
          ∀ m rest, imported_memory_types module = m :: rest →
            match_limits limits m.limits = .ok () →
            (instantiate exec module fs ts ms gs).result = .error
              ⟨"Provided imported memory doesn\x27t fit provided limits"⟩)) ∧
      (storage = none →
        (∃ e, (instantiate exec module fs ts ms gs).result = .error e) ∧
        (match_imported_functions (imported_function_types module) fs = .ok () →
          match_imported_tables (imported_table_types module) ts = .ok () →
          ∀ m rest, imported_memory_types module = m :: rest →
            match_limits limits m.limits = .ok () →
            (instantiate exec module fs ts ms gs).result = .error
              ⟨"Provided imported memory has a null pointer to data."⟩))) := by
  constructor
  · intro storage limits hts
    subst hts
    constructor
    · intro table hst hfit
      subst hst
      constructor
      · apply instantiate_fails_of_allocate_not_ok
        intro allocated ha
        obtain ⟨_, h2, _⟩ := allocate_ok module fs _ ms gs allocated ha
        obtain ⟨_, _, table2, _, _, hst, hmin, hmax⟩ := (match_imported_tables_ok _ _ _).mp h2
        simp only [Option.some.injEq] at hst
        subst hst
        rcases hfit with h | ⟨mx, hmx, h⟩
        · omega
        · have := hmax mx hmx
          omega
      · intro h1 t rest hty hml
        have hfit2 : table.length < limits.min ∨
            (limits.max.any fun max => decide (max < table.length)) = true := by
          rcases hfit with h | ⟨mx, hmx, h⟩
          · exact Or.inl h
          · right; rw [hmx]; simpa using h
        refine (fails_of_tables_error exec module fs _ ms gs _ ?_).2 h1
        simp [match_imported_tables, hty, hml, hfit2]
    · intro hst
      subst hst
      constructor
      · apply instantiate_fails_of_allocate_not_ok
        intro allocated ha
        obtain ⟨_, h2, _⟩ := allocate_ok module fs _ ms gs allocated ha
        obtain ⟨_, _, table2, _, _, hst, _⟩ := (match_imported_tables_ok _ _ _).mp h2
        simp at hst
      · intro h1 t rest hty hml
        refine (fails_of_tables_error exec module fs _ ms gs _ ?_).2 h1
        simp [match_imported_tables, hty, hml]
  · intro storage limits hms
    subst hms
    constructor
    · intro data hst hfit
      subst hst
      have hbytes : data.length < limits.min * PageSize ∨
          ∃ mx, limits.max = some mx ∧ mx * PageSize < data.length := by
        rcases hfit with h | h | h | ⟨mx, hmx, h⟩
        · exact Or.inl h
        · exact Or.inr h
        · left
          exact (Nat.div_lt_iff_lt_mul (by decide)).mp h
        · right
          refine ⟨mx, hmx, ?_⟩
          have := (Nat.le_div_iff_mul_le (by decide : 0 < PageSize)).mp (Nat.succ_le_of_lt h)
          simp only [PageSize] at *
          omega
      constructor
      · apply instantiate_fails_of_allocate_not_ok
        intro allocated ha
        obtain ⟨_, _, h3, _⟩ := allocate_ok module fs ts _ gs allocated ha
        obtain ⟨_, _, data2, _, _, hst, hmin, hmax⟩ :=
          (match_imported_memories_ok _ _ _).mp h3
        simp only [Option.some.injEq] at hst
        subst hst
        rcases hbytes with h | ⟨mx, hmx, h⟩
        · omega
        · have := (hmax mx hmx).1
          omega
      · intro h1 h2 m rest hty hml
        have hfit2 : data.length < limits.min * PageSize ∨
            (limits.max.any fun max => decide (max * PageSize < data.length)) = true := by
          rcases hbytes with h | ⟨mx, hmx, h⟩
          · exact Or.inl h
          · right; rw [hmx]; simpa using h
        refine (fails_of_memories_error exec module fs ts _ gs _ ?_).2 h1 h2
        simp [match_imported_memories, hty, hml, hfit2]
    · intro hst
      subst hst
      constructor
      · apply instantiate_fails_of_allocate_not_ok
        intro allocated ha
        obtain ⟨_, _, h3, _⟩ := allocate_ok module fs ts _ gs allocated ha
        obtain ⟨_, _, data2, _, _, hst, _⟩ := (match_imported_memories_ok _ _ _).mp h3
        simp at hst
      · intro h1 h2 m rest hty hml
        refine (fails_of_memories_error exec module fs ts _ gs _ ?_).2 h1 h2
        simp [match_imported_memories, hty, hml]

/-- A concrete instance of `imported_storage_fits`: the unit test
`imported_table_invalid`, with a table of 40 entries for the limits (10, 30)
and with a null pointer. -/
theorem imported_storage_fits_witness :
    (instantiate execute { importsec := [⟨"mod", "t", .Table ⟨⟨10, some 30⟩⟩⟩] } []
        [⟨some (List.replicate 40 (some 0)), ⟨10, some 30⟩⟩] [] []).result
      = .error ⟨"Provided imported table doesn\x27t fit provided limits"⟩ ∧
    (instantiate execute { importsec := [⟨"mod", "t", .Table ⟨⟨10, some 30⟩⟩⟩] } []
        [⟨none, ⟨10, some 30⟩⟩] [] []).result
      = .error ⟨"Provided imported table has a null pointer to data."⟩ :=
  ⟨(((imported_storage_fits execute { importsec := [⟨"mod", "t", .Table ⟨⟨10, some 30⟩⟩⟩] } []
        [⟨some (List.replicate 40 (some 0)), ⟨10, some 30⟩⟩] [] []).1 _ _ rfl).1
        (List.replicate 40 (some 0)) rfl (Or.inr ⟨30, rfl, by decide⟩)).2 (by decide)
        ⟨⟨10, some 30⟩⟩ [] rfl (by decide),
    (((imported_storage_fits execute { importsec := [⟨"mod", "t", .Table ⟨⟨10, some 30⟩⟩⟩] } []
        [⟨none, ⟨10, some 30⟩⟩] [] []).1 _ _ rfl).2 rfl).2 (by decide)
        ⟨⟨10, some 30⟩⟩ [] rfl (by decide)⟩

/-- C20: at most one table and one memory, supplied exactly when imported.
`instantiate` fails when more than one imported table is provided (`Only 1
imported table is allowed.`), when one is provided to a module that imports
none, when the module imports one and none is provided, and when the module
has an imported and a declared table or two declared ones (`Cannot support
more than 1 table section.`); and the same for memories (`Only 1 imported
memory is allowed.`, `Cannot support more than 1 memory section.`). Each
message is the one of `instantiate` if the checks before it have passed. -/
theorem one_table_one_memory
    (exec : Instance → Nat → List Nat → execution_result × Instance) (module : Module)
    (fs : List ExternalFunction) (ts : List ExternalTable) (ms : List ExternalMemory)
    (gs : List ExternalGlobal) :
    ((1 < ts.length →
        (∃ e, (instantiate exec module fs ts ms gs).result = .error e) ∧
        (match_imported_functions (imported_function_types module) fs = .ok () →
          (instantiate exec module fs ts ms gs).result
            = .error ⟨"Only 1 imported table is allowed."⟩)) ∧
      (imported_table_types module = [] → ts ≠ [] →
        (∃ e, (instantiate exec module fs ts ms gs).result = .error e) ∧
        (match_imported_functions (imported_function_types module) fs = .ok () →
          ts.length = 1 →
          (instantiate exec module fs ts ms gs).result = .error
            ⟨"Trying to provide imported table to a module that doesn\x27t define one."⟩)) ∧
      (imported_table_types module ≠ [] → ts = [] →
        (∃ e, (instantiate exec module fs ts ms gs).result = .error e) ∧
        (match_imported_functions (imported_function_types module) fs = .ok () →
          (instantiate exec module fs ts ms gs).result = .error
            ⟨"Module defines an imported table but none was provided."⟩)) ∧
      ((module.tablesec ≠ [] ∧ imported_table_types module ≠ []) ∨
          1 < module.tablesec.length →
        (∃ e, (instantiate exec module fs ts ms gs).result = .error e) ∧
        (match_imported_functions (imported_function_types module) fs = .ok () →
          match_imported_tables (imported_table_types module) ts = .ok () →
          match_imported_memories (imported_memory_types module) ms = .ok () →
          match_imported_globals (imported_globals_mutability module) gs = .ok () →
          (instantiate exec module fs ts ms gs).result
            = .error ⟨"Cannot support more than 1 table section."⟩))) ∧
    ((1 < ms.length →
        (∃ e, (instantiate exec module fs ts ms gs).result = .error e) ∧
        (match_imported_functions (imported_function_types module) fs = .ok () →
          match_imported_tables (imported_table_types module) ts = .ok () →
          (instantiate exec module fs ts ms gs).result
            = .error ⟨"Only 1 imported memory is allowed."⟩)) ∧
      (imported_memory_types module = [] → ms ≠ [] →
        (∃ e, (instantiate exec module fs ts ms gs).result = .error e) ∧
        (match_imported_functions (imported_function_types module) fs = .ok () →
          match_imported_tables (imported_table_types module) ts = .ok () →
          ms.length = 1 →
          (instantiate exec module fs ts ms gs).result = .error
            ⟨"Trying to provide imported memory to a module that doesn\x27t define one."⟩)) ∧
      (imported_memory_types module ≠ [] → ms = [] →
        (∃ e, (instantiate exec module fs ts ms gs).result = .error e) ∧
        (match_imported_functions (imported_function_types module) fs = .ok () →
          match_imported_tables (imported_table_types module) ts = .ok () →
          (instantiate exec module fs ts ms gs).result = .error
            ⟨"Module defines an imported memory but none was provided."⟩)) ∧
      ((module.memorysec ≠ [] ∧ imported_memory_types module ≠ []) ∨
          1 < module.memorysec.length →
        (∃ e, (instantiate exec module fs ts ms gs).result = .error e) ∧
        (match_imported_functions (imported_function_types module) fs = .ok () →
          match_imported_tables (imported_table_types module) ts = .ok () →
          match_imported_memories (imported_memory_types module) ms = .ok () →
          match_imported_globals (imported_globals_mutability module) gs = .ok () →
          (∃ table, allocate_table module.tablesec ts = .ok table) →
          (instantiate exec module fs ts ms gs).result
            = .error ⟨"Cannot support more than 1 memory section."⟩))) := by
  refine ⟨⟨?_, ?_, ?_, ?_⟩, ⟨?_, ?_, ?_, ?_⟩⟩
  · intro hlen
    exact fails_of_tables_error exec module fs ts ms gs _
      (by simp only [match_imported_tables, hlen, if_true])
  · intro hty hts
    cases ts with
    | nil => exact absurd rfl hts
    | cons x rest =>
      constructor
      · by_cases hlen : 1 < (x :: rest).length
        · exact (fails_of_tables_error exec module fs _ ms gs
            ⟨"Only 1 imported table is allowed."⟩
            (by simp only [match_imported_tables, hlen, if_true])).1
        · exact (fails_of_tables_error exec module fs _ ms gs
            ⟨"Trying to provide imported table to a module that doesn\x27t define one."⟩
            (by simp only [match_imported_tables, hlen, if_false, hty])).1
      · intro h1 hone
        have hlen : ¬ 1 < (x :: rest).length := by omega
        exact (fails_of_tables_error exec module fs _ ms gs _
          (by simp only [match_imported_tables, hlen, if_false, hty])).2 h1
  · intro hty hts
    subst hts
    cases htypes : imported_table_types module with
    | nil => exact absurd htypes hty
    | cons t rest =>
      exact fails_of_tables_error exec module fs _ ms gs _
        (by simp [match_imported_tables, htypes])
  · intro htwo
    have hover : match_imported_tables (imported_table_types module) ts = .ok () →
        1 < module.tablesec.length + ts.length := by
      intro h2
      rcases htwo with ⟨hdecl, himp⟩ | h
      · cases ts with
        | nil =>
          exfalso
          cases htypes : imported_table_types module with
          | nil => exact himp htypes
          | cons t rest => simp [match_imported_tables, htypes] at h2
        | cons x rest =>
          cases hsec : module.tablesec with
          | nil => exact absurd hsec hdecl
          | cons t more => simp only [List.length_cons]; omega
      · omega
    constructor
    · apply instantiate_fails_of_allocate_not_ok
      intro allocated ha
      obtain ⟨_, h2, _, _, h5, _⟩ := allocate_ok module fs ts ms gs allocated ha
      have := hover h2
      simp [allocate_table, this] at h5
    · intro h1 h2 h3 h4
      exact (fails_of_allocate_table_error exec module fs ts ms gs _
        (by simp only [allocate_table, hover h2, if_true])).2 h1 h2 h3 h4
  · intro hlen
    exact fails_of_memories_error exec module fs ts ms gs _
      (by simp only [match_imported_memories, hlen, if_true])
  · intro hty hms
    cases ms with
    | nil => exact absurd rfl hms
    | cons x rest =>
      constructor
      · by_cases hlen : 1 < (x :: rest).length
        · exact (fails_of_memories_error exec module fs ts _ gs
            ⟨"Only 1 imported memory is allowed."⟩
            (by simp only [match_imported_memories, hlen, if_true])).1
        · exact (fails_of_memories_error exec module fs ts _ gs
            ⟨"Trying to provide imported memory to a module that doesn\x27t define one."⟩
            (by simp only [match_imported_memories, hlen, if_false, hty])).1
      · intro h1 h2 hone
        have hlen : ¬ 1 < (x :: rest).length := by omega
        exact (fails_of_memories_error exec module fs ts _ gs _
          (by simp only [match_imported_memories, hlen, if_false, hty])).2 h1 h2
  · intro hty hms
    subst hms
    cases htypes : imported_memory_types module with
    | nil => exact absurd htypes hty
    | cons m rest =>
      exact fails_of_memories_error exec module fs ts _ gs _
        (by simp [match_imported_memories, htypes])
  · intro htwo
    have hover : match_imported_memories (imported_memory_types module) ms = .ok () →
        1 < module.memorysec.length + ms.length := by
      intro h3
      rcases htwo with ⟨hdecl, himp⟩ | h
      · cases ms with
        | nil =>
          exfalso
          cases htypes : imported_memory_types module with
          | nil => exact himp htypes
          | cons m rest => simp [match_imported_memories, htypes] at h3
        | cons x rest =>
          cases hsec : module.memorysec with
          | nil => exact absurd hsec hdecl
          | cons m more => simp only [List.length_cons]; omega
      · omega
    constructor
    · apply instantiate_fails_of_allocate_not_ok
      intro allocated ha
      obtain ⟨_, _, h3, _, _, h6, _⟩ := allocate_ok module fs ts ms gs allocated ha
      have := hover h3
      simp [allocate_memory, this] at h6
    · intro h1 h2 h3 h4 h5
      exact (fails_of_allocate_memory_error exec module fs ts ms gs _
        (by simp only [allocate_memory, hover h3, if_true])).2 h1 h2 h3 h4 h5

/-- A concrete instance of `one_table_one_memory`: the unit tests
`imported_table_invalid` (two tables provided; an imported and a declared
table) and `memory_multiple` (two declared memories). -/
theorem one_table_one_memory_witness :
    (instantiate execute { importsec := [⟨"mod", "t", .Table ⟨⟨10, some 30⟩⟩⟩] } []
        [⟨some (List.replicate 10 none), ⟨10, some 30⟩⟩,
          ⟨some (List.replicate 10 none), ⟨10, some 10⟩⟩] [] []).result
      = .error ⟨"Only 1 imported table is allowed."⟩ ∧
    (instantiate execute
        { importsec := [⟨"mod", "t", .Table ⟨⟨10, some 30⟩⟩⟩], tablesec := [⟨⟨10, some 10⟩⟩] } []
        [⟨some (List.replicate 10 none), ⟨10, some 30⟩⟩] [] []).result
      = .error ⟨"Cannot support more than 1 table section."⟩ ∧
    (instantiate execute { memorysec := [⟨⟨1, some 1⟩⟩, ⟨⟨1, some 1⟩⟩] } [] [] [] []).result
      = .error ⟨"Cannot support more than 1 memory section."⟩ :=
  ⟨((one_table_one_memory execute { importsec := [⟨"mod", "t", .Table ⟨⟨10, some 30⟩⟩⟩] } []
        [⟨some (List.replicate 10 none), ⟨10, some 30⟩⟩,
          ⟨some (List.replicate 10 none), ⟨10, some 10⟩⟩] [] []).1.1 (by decide)).2 (by decide),
    ((one_table_one_memory execute
        { importsec := [⟨"mod", "t", .Table ⟨⟨10, some 30⟩⟩⟩], tablesec := [⟨⟨10, some 10⟩⟩] } []
        [⟨some (List.replicate 10 none), ⟨10, some 30⟩⟩] [] []).1.2.2.2
        (Or.inl ⟨by decide, by decide⟩)).2 (by decide) (by decide) (by decide) (by decide),
    ((one_table_one_memory execute { memorysec := [⟨⟨1, some 1⟩⟩, ⟨⟨1, some 1⟩⟩] } [] [] []
        []).2.2.2.2 (Or.inr (by decide))).2 (by decide) (by decide) (by decide) (by decide)
        ⟨none, by decide⟩⟩

/-! ## Import resolution: functions and globals -/

theorem match_function_types_ok (types : List (Option FuncType)) :
    ∀ (fs : List ExternalFunction) (k : Nat), types.length = fs.length →
      (match_function_types types fs k = .ok () ↔
        ∀ (i : Nat) (f : ExternalFunction), fs[i]? = some f → types[i]? = some (some f.type)) := by
  induction types with
  | nil =>
    intro fs k hlen
    cases fs with
    | nil => simp [match_function_types]
    | cons f fs => simp at hlen
  | cons t types ih =>
    intro fs k hlen
    cases fs with
    | nil => simp at hlen
    | cons f fs =>
      simp only [List.length_cons, Nat.add_right_cancel_iff] at hlen
      simp only [match_function_types]
      by_cases ht : t = some f.type
      · simp only [ht, ne_eq, not_true_eq_false, if_false, ih fs (k + 1) hlen]
        constructor
        · intro h i g hg
          cases i with
          | zero =>
            simp only [List.getElem?_cons_zero, Option.some.injEq] at hg ⊢
            rw [hg]
          | succ i =>
            simp only [List.getElem?_cons_succ] at hg ⊢
            exact h i g hg
        · intro h i g hg
          have := h (i + 1) g (by simpa using hg)
          simpa using this
      · simp only [ne_eq, ht, not_false_eq_true, if_true]
        constructor
        · intro h; simp at h
        · intro h
          exfalso
          have := h 0 f (by simp)
          simp only [List.getElem?_cons_zero, Option.some.injEq] at this
          exact ht this

theorem match_imported_functions_ok (types : List (Option FuncType))
    (fs : List ExternalFunction) :
    match_imported_functions types fs = .ok () ↔
      types.length = fs.length ∧ ∀ (i : Nat) (f : ExternalFunction), fs[i]? = some f → types[i]? = some (some f.type) := by
  simp only [match_imported_functions]
  by_cases hlen : types.length = fs.length
  · simp only [hlen, ne_eq, not_true_eq_false, if_false, true_and]
    exact match_function_types_ok types fs 0 hlen
  · simp only [ne_eq, hlen, not_false_eq_true, if_true, false_and]
    constructor
    · intro h; simp at h
    · intro h; exact h.elim

theorem match_global_types_ok (muts : List Bool) :
    ∀ (gs : List ExternalGlobal) (k : Nat), muts.length = gs.length →
      (match_global_types muts gs k = .ok () ↔
        ∀ (i : Nat) (g : ExternalGlobal), gs[i]? = some g → muts[i]? = some g.is_mutable ∧ g.value ≠ none) := by
  induction muts with
  | nil =>
    intro gs k hlen
    cases gs with
    | nil => simp [match_global_types]
    | cons g gs => simp at hlen
  | cons m muts ih =>
    intro gs k hlen
    cases gs with
    | nil => simp at hlen
    | cons g gs =>
      simp only [List.length_cons, Nat.add_right_cancel_iff] at hlen
      simp only [match_global_types]
      by_cases hm : g.is_mutable = m
      · by_cases hv : g.value = none
        · simp only [hm, ne_eq, not_true_eq_false, if_false, hv, if_true]
          constructor
          · intro h; simp at h
          · intro h
            exfalso
            exact (h 0 g (by simp)).2 hv
        · simp only [hm, ne_eq, not_true_eq_false, if_false, hv, ih gs (k + 1) hlen]
          constructor
          · intro h i x hx
            cases i with
            | zero =>
              simp only [List.getElem?_cons_zero, Option.some.injEq] at hx ⊢
              subst hx
              exact ⟨hm.symm, hv⟩
            | succ i =>
              simp only [List.getElem?_cons_succ] at hx ⊢
              exact h i x hx
          · intro h i x hx
            have := h (i + 1) x (by simpa using hx)
            simpa using this
      · simp only [ne_eq, hm, not_false_eq_true, if_true]
        constructor
        · intro h; simp at h
        · intro h
          exfalso
          have := (h 0 g (by simp)).1
          simp only [List.getElem?_cons_zero, Option.some.injEq] at this
          exact hm this.symm

theorem match_imported_globals_ok (muts : List Bool) (gs : List ExternalGlobal) :
    match_imported_globals muts gs = .ok () ↔
      muts.length = gs.length ∧
        ∀ (i : Nat) (g : ExternalGlobal), gs[i]? = some g → muts[i]? = some g.is_mutable ∧ g.value ≠ none := by
  simp only [match_imported_globals]
  by_cases hlen : muts.length = gs.length
  · simp only [hlen, ne_eq, not_true_eq_false, if_false, true_and]
    exact match_global_types_ok muts gs 0 hlen
  · simp only [ne_eq, hlen, not_false_eq_true, if_true, false_and]
    constructor
    · intro h; simp at h
    · intro h; exact h.elim

theorem match_global_types_at (i : Nat) :
    ∀ (muts : List Bool) (gs : List ExternalGlobal) (k : Nat) (declared : Bool)
      (g : ExternalGlobal),
      (∀ j, j < i → ∀ dj gj, muts[j]? = some dj → gs[j]? = some gj →
        gj.is_mutable = dj ∧ gj.value ≠ none) →
      muts[i]? = some declared → gs[i]? = some g →
      (g.is_mutable ≠ declared →
        match_global_types muts gs k = .error ⟨"Global " ++ toString (k + i) ++
          " mutability doesn\x27t match module\x27s global mutability"⟩) ∧
      (g.is_mutable = declared → g.value = none →
        match_global_types muts gs k
          = .error ⟨"Global " ++ toString (k + i) ++ " has a null pointer to value"⟩) := by
  induction i with
  | zero =>
    intro muts gs k declared g _ hm hg
    cases muts with
    | nil => simp at hm
    | cons m muts =>
      cases gs with
      | nil => simp at hg
      | cons x gs =>
        simp only [List.getElem?_cons_zero, Option.some.injEq] at hm hg
        subst hm hg
        constructor
        · intro hne
          simp only [match_global_types, ne_eq, hne, not_false_eq_true, if_true, Nat.add_zero]
        · intro heq hnull
          simp only [match_global_types, ne_eq, heq, not_true_eq_false, if_false, hnull,
            if_true, Nat.add_zero]
  | succ i ih =>
    intro muts gs k declared g hbefore hm hg
    cases muts with
    | nil => simp at hm
    | cons m muts =>
      cases gs with
      | nil => simp at hg
      | cons x gs =>
        simp only [List.getElem?_cons_succ] at hm hg
        obtain ⟨h0m, h0v⟩ := hbefore 0 (Nat.succ_pos i) m x (by simp) (by simp)
        have hrest := ih muts gs (k + 1) declared g
          (fun j hj dj gj hdj hgj => hbefore (j + 1) (by omega) dj gj
            (by simpa using hdj) (by simpa using hgj)) hm hg
        have hk : k + 1 + i = k + (i + 1) := by omega
        rw [hk] at hrest
        simp only [match_global_types, ne_eq, h0m, not_true_eq_false, if_false, h0v]
        exact hrest

theorem fails_of_functions_error
    (exec : Instance → Nat → List Nat → execution_result × Instance) (module : Module)
    (fs : List ExternalFunction) (ts : List ExternalTable) (ms : List ExternalMemory)
    (gs : List ExternalGlobal) (e : instantiate_error)
    (h : match_imported_functions (imported_function_types module) fs = .error e) :
    (instantiate exec module fs ts ms gs).result = .error e := by
  refine (instantiate_of_allocate_error exec module fs ts ms gs e ?_).1
  simp only [allocate, h]

theorem fails_of_globals_error
    (exec : Instance → Nat → List Nat → execution_result × Instance) (module : Module)
    (fs : List ExternalFunction) (ts : List ExternalTable) (ms : List ExternalMemory)
    (gs : List ExternalGlobal) (e : instantiate_error)
    (h : match_imported_globals (imported_globals_mutability module) gs = .error e) :
    (∃ e2, (instantiate exec module fs ts ms gs).result = .error e2) ∧
    (match_imported_functions (imported_function_types module) fs = .ok () →
      match_imported_tables (imported_table_types module) ts = .ok () →
      match_imported_memories (imported_memory_types module) ms = .ok () →
      (instantiate exec module fs ts ms gs).result = .error e) := by
  constructor
  · apply instantiate_fails_of_allocate_not_ok
    intro allocated ha
    obtain ⟨_, _, _, h4, _⟩ := allocate_ok module fs ts ms gs allocated ha
    rw [h4] at h
    simp at h
  · intro h1 h2 h3
    refine (instantiate_of_allocate_error exec module fs ts ms gs e ?_).1
    simp only [allocate, h1, h2, h3, h]

theorem error_of_not_ok {ε : Type} (x : Except ε Unit) (h : x ≠ .ok ()) : ∃ e, x = .error e := by
  cases x with
  | error e => exact ⟨e, rfl⟩
  | ok u => cases u; exact absurd rfl h

theorem instantiate_started
    (exec : Instance → Nat → List Nat → execution_result × Instance) (module : Module)
    (fs : List ExternalFunction) (ts : List ExternalTable) (ms : List ExternalMemory)
    (gs : List ExternalGlobal) (inst : Instance) {α : Type} (field : Instance → α)
    (hstart : ∀ func_idx before, module.startfunc = some func_idx →
      field (exec before func_idx []).2 = field before)
    (hok : (instantiate exec module fs ts ms gs).result = .ok inst) :
    ∃ allocated filled, allocate module fs ts ms gs = .ok allocated ∧
      fill_segments allocated = .ok filled ∧ field inst = field filled := by
  obtain ⟨allocated, filled, ha, hf, hcase⟩ :=
    instantiate_ok_cases exec module fs ts ms gs inst hok
  refine ⟨allocated, filled, ha, hf, ?_⟩
  rcases hcase with ⟨_, rfl⟩ | ⟨func_idx, hsf, _, rfl⟩
  · rfl
  · exact hstart func_idx filled hsf

theorem fill_segments_imports (inst filled : Instance) (h : fill_segments inst = .ok filled) :
    filled.imported_functions = inst.imported_functions ∧
    filled.imported_globals = inst.imported_globals := by
  obtain ⟨_, _, _, _, rfl⟩ := fill_segments_ok inst filled h
  exact ⟨rfl, rfl⟩

theorem instantiate_frame
    (exec : Instance → Nat → List Nat → execution_result × Instance) (module : Module)
    (fs : List ExternalFunction) (ts : List ExternalTable) (ms : List ExternalMemory)
    (gs : List ExternalGlobal) (inst allocated : Instance) {α : Type} (field : Instance → α)
    (hfill : ∀ a b, fill_segments a = .ok b → field b = field a)
    (hstart : ∀ func_idx before, module.startfunc = some func_idx →
      field (exec before func_idx []).2 = field before)
    (hok : (instantiate exec module fs ts ms gs).result = .ok inst)
    (ha : allocate module fs ts ms gs = .ok allocated) :
    field inst = field allocated := by
  obtain ⟨allocated2, filled, ha2, hf, hfield⟩ :=
    instantiate_started exec module fs ts ms gs inst field hstart hok
  rw [ha] at ha2
  simp only [Except.ok.injEq] at ha2
  subst ha2
  rw [hfield]
  exact hfill allocated filled hf

/-! ## The constant-expression evaluator and the initialisation of the globals -/

theorem eval_imported (igs : List ExternalGlobal) (gts : List Global) (globals : List Nat)
    (i value : Nat) (h : igs[i]? = some ⟨some value, false⟩) :
    eval_constant_expression (.GlobalGet i) igs gts globals = .ok value := by
  have hi : i < igs.length := by
    by_contra hc
    rw [List.getElem?_eq_none (by omega)] at h
    simp at h
  simp only [eval_constant_expression, hi, if_true, h]

theorem eval_module_global (igs : List ExternalGlobal) (gts : List Global)
    (globals : List Nat) (i : Nat) (g : Global) (value : Nat) (hi : igs.length ≤ i)
    (hg : gts[i - igs.length]? = some g) (hm : g.is_mutable = false)
    (hv : globals[i - igs.length]? = some value) :
    eval_constant_expression (.GlobalGet i) igs gts globals = .ok value := by
  simp only [eval_constant_expression, Nat.not_lt.mpr hi, if_false, hg, hv, hm,
    Bool.false_eq_true]

theorem eval_error_message (expr : ConstantExpression) (igs : List ExternalGlobal)
    (gts : List Global) (globals : List Nat) (e : instantiate_error)
    (h : eval_constant_expression expr igs gts globals = .error e) :
    e = ⟨"Constant expression can use global_get only for const globals."⟩ := by
  cases expr with
  | Constant v => simp [eval_constant_expression] at h
  | GlobalGet i =>
    simp only [eval_constant_expression] at h
    split at h
    · split at h
      · split at h
        · simp at h
        · simp only [Except.error.injEq] at h; exact h.symm
      · simp only [Except.error.injEq] at h; exact h.symm
    · split at h
      · split at h
        · simp only [Except.error.injEq] at h; exact h.symm
        · simp at h
      · simp only [Except.error.injEq] at h; exact h.symm

theorem eval_mutable_or_out_of_range (igs : List ExternalGlobal) (gts : List Global)
    (globals : List Nat) (i : Nat)
    (h : (∃ ig, igs[i]? = some ig ∧ ig.is_mutable = true) ∨
      (igs.length ≤ i ∧ ∃ g, gts[i - igs.length]? = some g ∧ g.is_mutable = true) ∨
      igs.length + gts.length ≤ i) :
    eval_constant_expression (.GlobalGet i) igs gts globals
      = .error ⟨"Constant expression can use global_get only for const globals."⟩ := by
  cases hev : eval_constant_expression (.GlobalGet i) igs gts globals with
  | error e => rw [eval_error_message _ _ _ _ e hev]
  | ok value =>
    exfalso
    simp only [eval_constant_expression] at hev
    rcases h with ⟨ig, hig, hm⟩ | ⟨hi, g, hg, hm⟩ | hr
    · have hi : i < igs.length := by
        by_contra hc
        rw [List.getElem?_eq_none (by omega)] at hig
        simp at hig
      obtain ⟨v, m⟩ := ig
      simp only at hm
      subst hm
      simp only [hi, if_true, hig] at hev
      simp at hev
    · simp only [Nat.not_lt.mpr hi, if_false, hg] at hev
      cases hgl : globals[i - igs.length]? with
      | none => simp [hgl] at hev
      | some v => simp [hgl, hm] at hev
    · have h1 : ¬ i < igs.length := by omega
      have h2 : gts[i - igs.length]? = none := List.getElem?_eq_none (by omega)
      simp [h1, h2] at hev

theorem init_globals_ok (igs : List ExternalGlobal) (gts : List Global) :
    ∀ (l : List Global) (acc out : List Nat), init_globals igs gts l acc = .ok out →
      ∃ vals : List Nat, out = acc ++ vals ∧ vals.length = l.length ∧
        ∀ (k : Nat) (g : Global), l[k]? = some g →
          (∀ v, g.expression = .Constant v → vals[k]? = some v) ∧
          (∀ i, g.expression = .GlobalGet i →
            ∃ value, igs[i]? = some ⟨some value, false⟩ ∧ vals[k]? = some value) := by
  intro l
  induction l with
  | nil =>
    intro acc out h
    simp only [init_globals, Except.ok.injEq] at h
    exact ⟨[], by simp [h], rfl, by simp⟩
  | cons g rest ih =>
    intro acc out h
    obtain ⟨m, expr⟩ := g
    cases expr with
    | Constant v =>
      simp only [init_globals, eval_constant_expression, Bool.false_eq_true, if_false] at h
      obtain ⟨vals, hout, hlen, hvals⟩ := ih (acc ++ [v]) out h
      refine ⟨v :: vals, by simp [hout], by simp [hlen], ?_⟩
      intro k g hk
      cases k with
      | zero =>
        simp only [List.getElem?_cons_zero, Option.some.injEq] at hk
        subst hk
        exact ⟨fun w hw => by simp at hw; simp [hw], fun i hi => by simp at hi⟩
      | succ k =>
        simp only [List.getElem?_cons_succ] at hk ⊢
        exact hvals k g hk
    | GlobalGet i =>
      simp only [init_globals, decide_eq_true_eq] at h
      by_cases hi : igs.length ≤ i
      · simp [hi] at h
      · simp only [hi, if_false] at h
        cases hev : eval_constant_expression (.GlobalGet i) igs gts acc with
        | error e => simp [hev] at h
        | ok value =>
          simp only [hev] at h
          have hig : igs[i]? = some ⟨some value, false⟩ := by
            simp only [eval_constant_expression, Nat.not_le.mp hi, if_true] at hev
            cases hg : igs[i]? with
            | none => simp [hg] at hev
            | some ig =>
              obtain ⟨v, mu⟩ := ig
              cases mu with
              | true => simp [hg] at hev
              | false =>
                cases v with
                | none => simp [hg] at hev
                | some w =>
                  simp only [hg, Except.ok.injEq] at hev
                  rw [hev]
          obtain ⟨vals, hout, hlen, hvals⟩ := ih (acc ++ [value]) out h
          refine ⟨value :: vals, by simp [hout], by simp [hlen], ?_⟩
          intro k g hk
          cases k with
          | zero =>
            simp only [List.getElem?_cons_zero, Option.some.injEq] at hk
            subst hk
            refine ⟨fun w hw => by simp at hw, fun j hj => ?_⟩
            simp only [ConstantExpression.GlobalGet.injEq] at hj
            subst hj
            exact ⟨value, hig, by simp⟩
          | succ k =>
            simp only [List.getElem?_cons_succ] at hk ⊢
            exact hvals k g hk

theorem init_globals_step (igs : List ExternalGlobal) (gts : List Global) (g : Global)
    (rest : List Global) (acc : List Nat)
    (hg : (∃ v, g.expression = .Constant v) ∨
      ∃ i value, g.expression = .GlobalGet i ∧ igs[i]? = some ⟨some value, false⟩) :
    ∃ value, init_globals igs gts (g :: rest) acc
      = init_globals igs gts rest (acc ++ [value]) := by
  obtain ⟨m, expr⟩ := g
  rcases hg with ⟨v, hv⟩ | ⟨i, value, hi, hig⟩
  · simp only at hv
    subst hv
    exact ⟨v, by simp only [init_globals, eval_constant_expression, Bool.false_eq_true,
      if_false]⟩
  · simp only at hi
    subst hi
    have hlt : i < igs.length := by
      by_contra hc
      rw [List.getElem?_eq_none (by omega)] at hig
      simp at hig
    exact ⟨value, by simp only [init_globals, decide_eq_true_eq, Nat.not_le.mpr hlt, if_false,
      eval_imported igs gts acc i value hig]⟩

theorem init_globals_error_at (igs : List ExternalGlobal) (gts : List Global) :
    ∀ (before : List Global) (g : Global) (after : List Global) (acc : List Nat) (i : Nat),
      (∀ b ∈ before, (∃ v, b.expression = .Constant v) ∨
        ∃ j value, b.expression = .GlobalGet j ∧ igs[j]? = some ⟨some value, false⟩) →
      g.expression = .GlobalGet i →
      ((∃ ig, igs[i]? = some ig ∧ ig.is_mutable = true) →
        init_globals igs gts (before ++ g :: after) acc
          = .error ⟨"Constant expression can use global_get only for const globals."⟩) ∧
      (igs.length ≤ i →
        init_globals igs gts (before ++ g :: after) acc = .error
          ⟨"Global can be initialized by another const global only if it\x27s imported."⟩) := by
  intro before
  induction before with
  | nil =>
    intro g after acc i _ hg
    obtain ⟨m, expr⟩ := g
    simp only at hg
    subst hg
    constructor
    · rintro ⟨ig, hig, hm⟩
      have hlt : i < igs.length := by
        by_contra hc
        rw [List.getElem?_eq_none (by omega)] at hig
        simp at hig
      simp only [List.nil_append, init_globals, decide_eq_true_eq, Nat.not_le.mpr hlt, if_false,
        eval_mutable_or_out_of_range igs gts acc i (Or.inl ⟨ig, hig, hm⟩)]
    · intro hle
      simp only [List.nil_append, init_globals, decide_eq_true_eq, hle, if_true]
  | cons b before ih =>
    intro g after acc i hbefore hg
    obtain ⟨value, hstep⟩ := init_globals_step igs gts b (before ++ g :: after) acc
      (hbefore b (List.mem_cons_self _ _))
    rw [List.cons_append, hstep]
    exact ih g after (acc ++ [value]) i
      (fun x hx => hbefore x (List.mem_cons_of_mem _ hx)) hg

theorem fails_of_init_globals_error
    (exec : Instance → Nat → List Nat → execution_result × Instance) (module : Module)
    (fs : List ExternalFunction) (ts : List ExternalTable) (ms : List ExternalMemory)
    (gs : List ExternalGlobal) (e : instantiate_error)
    (h : init_globals gs module.globalsec module.globalsec [] = .error e) :
    (∃ e2, (instantiate exec module fs ts ms gs).result = .error e2) ∧
    (match_imported_functions (imported_function_types module) fs = .ok () →
      match_imported_tables (imported_table_types module) ts = .ok () →
      match_imported_memories (imported_memory_types module) ms = .ok () →
      match_imported_globals (imported_globals_mutability module) gs = .ok () →
      (∃ table, allocate_table module.tablesec ts = .ok table) →
      (∃ memory, allocate_memory module.memorysec ms = .ok memory) →
      (instantiate exec module fs ts ms gs).result = .error e) := by
  constructor
  · apply instantiate_fails_of_allocate_not_ok
    intro allocated ha
    obtain ⟨_, _, _, _, _, _, h7, _⟩ := allocate_ok module fs ts ms gs allocated ha
    rw [h7] at h
    simp at h
  · intro h1 h2 h3 h4 h5 h6
    obtain ⟨table, h5⟩ := h5
    obtain ⟨⟨memory, memory_max⟩, h6⟩ := h6
    refine (instantiate_of_allocate_error exec module fs ts ms gs e ?_).1
    simp only [allocate, h1, h2, h3, h4, h5, h6, h]

theorem init_globals_not_ok_of_bad (igs : List ExternalGlobal) (gts : List Global)
    (l : List Global) (k : Nat) (g : Global) (i : Nat) (hk : l[k]? = some g)
    (hg : g.expression = .GlobalGet i)
    (hbad : (∃ ig, igs[i]? = some ig ∧ ig.is_mutable = true) ∨ igs.length ≤ i) :
    ∃ e, init_globals igs gts l [] = .error e := by
  cases h : init_globals igs gts l [] with
  | error e => exact ⟨e, rfl⟩
  | ok out =>
    exfalso
    obtain ⟨vals, _, _, hvals⟩ := init_globals_ok igs gts l [] out h
    obtain ⟨value, hig, _⟩ := (hvals k g hk).2 i hg
    rcases hbad with ⟨ig, hig2, hm⟩ | hle
    · rw [hig] at hig2
      simp only [Option.some.injEq] at hig2
      rw [← hig2] at hm
      simp at hm
    · rw [List.getElem?_eq_none hle] at hig
      simp at hig

/-! ## Segments: offsets that name a global -/

theorem check_segments_ok_all {α : Type} (igs : List ExternalGlobal)
    (gts : List Global) (globals : List Nat) (size : Nat) (oob : instantiate_error)
    (segments : List (ConstantExpression × List α)) :
    ∀ checked : List (Nat × List α),
      check_segments igs gts globals size oob segments = .ok checked →
      ∀ x ∈ segments, ∃ offset, eval_constant_expression x.1 igs gts globals = .ok offset ∧
        offset + x.2.length ≤ size := by
  induction segments with
  | nil => intro checked _ x hx; simp at hx
  | cons y rest ih =>
    intro checked h x hx
    obtain ⟨expr, init⟩ := y
    simp only [check_segments] at h
    cases hexpr : eval_constant_expression expr igs gts globals with
    | error e => simp [hexpr] at h
    | ok o =>
      simp only [hexpr] at h
      by_cases hb : size < o + init.length
      · simp [hb] at h
      · simp only [hb, if_false] at h
        cases hrest : check_segments igs gts globals size oob rest with
        | error e => simp [hrest] at h
        | ok segs =>
          rcases List.mem_cons.mp hx with h0 | hr
          · subst h0
            exact ⟨o, hexpr, by simp only; omega⟩
          · exact ih segs hrest x hr

theorem check_segments_ok_of_valid {α : Type} (igs : List ExternalGlobal)
    (gts : List Global) (globals : List Nat) (size : Nat) (oob : instantiate_error)
    (segments : List (ConstantExpression × List α))
    (h : ∀ x ∈ segments, ∃ offset, eval_constant_expression x.1 igs gts globals = .ok offset ∧
      offset + x.2.length ≤ size) :
    ∃ checked, check_segments igs gts globals size oob segments = .ok checked := by
  induction segments with
  | nil => exact ⟨[], rfl⟩
  | cons y rest ih =>
    obtain ⟨expr, init⟩ := y
    obtain ⟨o, ho, hle⟩ := h (expr, init) (List.mem_cons_self _ _)
    obtain ⟨segs, hsegs⟩ := ih (fun x hx => h x (List.mem_cons_of_mem _ hx))
    simp only at ho hle
    exact ⟨(o, init) :: segs, by
      simp only [check_segments, ho, Nat.not_lt.mpr hle, if_false, hsegs]⟩

theorem check_segments_error_at {α : Type} (igs : List ExternalGlobal)
    (gts : List Global) (globals : List Nat) (size : Nat) (oob : instantiate_error)
    (before : List (ConstantExpression × List α)) (x : ConstantExpression × List α)
    (after : List (ConstantExpression × List α)) (e : instantiate_error)
    (hbefore : ∀ b ∈ before, ∃ offset,
      eval_constant_expression b.1 igs gts globals = .ok offset ∧ offset + b.2.length ≤ size)
    (hx : eval_constant_expression x.1 igs gts globals = .error e) :
    check_segments igs gts globals size oob (before ++ x :: after) = .error e := by
  induction before with
  | nil =>
    obtain ⟨expr, init⟩ := x
    simp only at hx
    simp only [List.nil_append, check_segments, hx]
  | cons y rest ih =>
    obtain ⟨expr, init⟩ := y
    obtain ⟨o, ho, hle⟩ := hbefore (expr, init) (List.mem_cons_self _ _)
    simp only at ho hle
    have hrest := ih (fun b hb => hbefore b (List.mem_cons_of_mem _ hb))
    simp only [List.cons_append, check_segments, ho, Nat.not_lt.mpr hle, if_false,
      List.append_eq, hrest]

theorem fill_segments_ok_of_valid (inst : Instance)
    (hel : ∀ element ∈ inst.module.elementsec, ∃ offset,
      eval_constant_expression element.offset inst.imported_globals inst.module.globalsec
        inst.globals = .ok offset ∧ offset + element.init.length ≤ storage_size inst.table)
    (hdata : ∀ data ∈ inst.module.datasec, ∃ offset,
      eval_constant_expression data.offset inst.imported_globals inst.module.globalsec
        inst.globals = .ok offset ∧ offset + data.init.length ≤ storage_size inst.memory) :
    ∃ filled, fill_segments inst = .ok filled := by
  obtain ⟨elements, he⟩ := check_segments_ok_of_valid inst.imported_globals
    inst.module.globalsec inst.globals (storage_size inst.table)
    ⟨"Element segment is out of table bounds"⟩ (element_segments inst.module) (by
      intro x hx
      simp only [element_segments, List.mem_map] at hx
      obtain ⟨element, hmem, rfl⟩ := hx
      obtain ⟨o, ho, hle⟩ := hel element hmem
      exact ⟨o, ho, by simpa using hle⟩)
  obtain ⟨datas, hd⟩ := check_segments_ok_of_valid inst.imported_globals
    inst.module.globalsec inst.globals (storage_size inst.memory)
    ⟨"Data segment is out of memory bounds"⟩ (data_segments inst.module) (by
      intro x hx
      simp only [data_segments, List.mem_map] at hx
      obtain ⟨data, hmem, rfl⟩ := hx
      exact hdata data hmem)
  exact ⟨{ inst with
      table := inst.table.map fun table => apply_segments table elements
      memory := inst.memory.map fun memory => apply_segments memory datas },
    by simp only [fill_segments_eq, he, hd]⟩

theorem fill_segments_error_of_offset (inst : Instance) (e : instantiate_error)
    (h : (∃ element ∈ inst.module.elementsec,
          eval_constant_expression element.offset inst.imported_globals
            inst.module.globalsec inst.globals = .error e) ∨
        (∃ data ∈ inst.module.datasec,
          eval_constant_expression data.offset inst.imported_globals
            inst.module.globalsec inst.globals = .error e)) :
    ∃ e2, fill_segments inst = .error e2 := by
  cases hf : fill_segments inst with
  | error e2 => exact ⟨e2, rfl⟩
  | ok filled =>
    exfalso
    obtain ⟨elements, datas, he, hd, _⟩ := fill_segments_ok inst filled hf
    rcases h with ⟨element, hmem, hev⟩ | ⟨data, hmem, hev⟩
    · obtain ⟨o, ho, _⟩ := check_segments_ok_all _ _ _ _ _ _ elements he
        (element.offset, element.init.map some)
        (by simp only [element_segments, List.mem_map]; exact ⟨element, hmem, rfl⟩)
      simp only at ho
      rw [hev] at ho
      simp at ho
    · obtain ⟨o, ho, _⟩ := check_segments_ok_all _ _ _ _ _ _ datas hd
        (data.offset, data.init)
        (by simp only [data_segments, List.mem_map]; exact ⟨data, hmem, rfl⟩)
      simp only at ho
      rw [hev] at ho
      simp at ho

theorem fill_segments_error_at_element (inst : Instance) (before : List Element)
    (element : Element) (after : List Element) (e : instantiate_error)
    (hsplit : inst.module.elementsec = before ++ element :: after)
    (hbefore : ∀ b ∈ before, ∃ offset,
      eval_constant_expression b.offset inst.imported_globals inst.module.globalsec
        inst.globals = .ok offset ∧ offset + b.init.length ≤ storage_size inst.table)
    (hev : eval_constant_expression element.offset inst.imported_globals
      inst.module.globalsec inst.globals = .error e) :
    fill_segments inst = .error e := by
  have h := check_segments_error_at inst.imported_globals inst.module.globalsec inst.globals
    (storage_size inst.table) ⟨"Element segment is out of table bounds"⟩
    (before.map fun x => (x.offset, x.init.map some)) (element.offset, element.init.map some)
    (after.map fun x => (x.offset, x.init.map some)) e (by
      intro b hb
      simp only [List.mem_map] at hb
      obtain ⟨x, hx, rfl⟩ := hb
      obtain ⟨o, ho, hle⟩ := hbefore x hx
      exact ⟨o, ho, by simpa using hle⟩) hev
  have hseg : element_segments inst.module
      = (before.map fun x => (x.offset, x.init.map some))
        ++ (element.offset, element.init.map some)
        :: (after.map fun x => (x.offset, x.init.map some)) := by
    simp only [element_segments, hsplit, List.map_append, List.map_cons]
  simp only [fill_segments_eq, hseg, h]

theorem fill_segments_error_at_data (inst : Instance) (before : List Data)
    (data : Data) (after : List Data) (e : instantiate_error)
    (hsplit : inst.module.datasec = before ++ data :: after)
    (hel : ∀ element ∈ inst.module.elementsec, ∃ offset,
      eval_constant_expression element.offset inst.imported_globals inst.module.globalsec
        inst.globals = .ok offset ∧ offset + element.init.length ≤ storage_size inst.table)
    (hbefore : ∀ b ∈ before, ∃ offset,
      eval_constant_expression b.offset inst.imported_globals inst.module.globalsec
        inst.globals = .ok offset ∧ offset + b.init.length ≤ storage_size inst.memory)
    (hev : eval_constant_expression data.offset inst.imported_globals
      inst.module.globalsec inst.globals = .error e) :
    fill_segments inst = .error e := by
  obtain ⟨elements, he⟩ := check_segments_ok_of_valid inst.imported_globals
    inst.module.globalsec inst.globals (storage_size inst.table)
    ⟨"Element segment is out of table bounds"⟩ (element_segments inst.module) (by
      intro x hx
      simp only [element_segments, List.mem_map] at hx
      obtain ⟨element, hmem, rfl⟩ := hx
      obtain ⟨o, ho, hle⟩ := hel element hmem
      exact ⟨o, ho, by simpa using hle⟩)
  have h := check_segments_error_at inst.imported_globals inst.module.globalsec inst.globals
    (storage_size inst.memory) ⟨"Data segment is out of memory bounds"⟩
    (before.map fun x => (x.offset, x.init)) (data.offset, data.init)
    (after.map fun x => (x.offset, x.init)) e (by
      intro b hb
      simp only [List.mem_map] at hb
      obtain ⟨x, hx, rfl⟩ := hb
      exact hbefore x hx) hev
  have hseg : data_segments inst.module
      = (before.map fun x => (x.offset, x.init)) ++ (data.offset, data.init)
        :: (after.map fun x => (x.offset, x.init)) := by
    simp only [data_segments, hsplit, List.map_append, List.map_cons]
  simp only [fill_segments_eq, he, hseg, h]

theorem instantiate_fails_of_fill_error
    (exec : Instance → Nat → List Nat → execution_result × Instance) (module : Module)
    (fs : List ExternalFunction) (ts : List ExternalTable) (ms : List ExternalMemory)
    (gs : List ExternalGlobal)
    (h : ∀ allocated, allocate module fs ts ms gs = .ok allocated →
      ∃ e, fill_segments allocated = .error e) :
    ∃ e, (instantiate exec module fs ts ms gs).result = .error e := by
  cases ha : allocate module fs ts ms gs with
  | error e => exact ⟨e, (instantiate_of_allocate_error exec module fs ts ms gs e ha).1⟩
  | ok allocated =>
    obtain ⟨e, he⟩ := h allocated ha
    exact ⟨e, (instantiate_of_fill_error exec module fs ts ms gs allocated e ha he).1⟩

theorem allocate_module_global (module : Module) (fs : List ExternalFunction)
    (ts : List ExternalTable) (ms : List ExternalMemory) (gs : List ExternalGlobal)
    (allocated : Instance) (ha : allocate module fs ts ms gs = .ok allocated)
    (k : Nat) (g : Global) (hk : module.globalsec[k]? = some g) :
    (∀ v, g.expression = .Constant v → allocated.globals[k]? = some v) ∧
    (∀ i, g.expression = .GlobalGet i →
      ∃ value, gs[i]? = some ⟨some value, false⟩ ∧ allocated.globals[k]? = some value) := by
  obtain ⟨_, _, _, _, _, _, h7, _⟩ := allocate_ok module fs ts ms gs allocated ha
  obtain ⟨vals, hout, _, hvals⟩ :=
    init_globals_ok gs module.globalsec module.globalsec [] allocated.globals h7
  rw [List.nil_append] at hout
  rw [hout]
  exact hvals k g hk

theorem instantiate_ok_table
    (exec : Instance → Nat → List Nat → execution_result × Instance) (module : Module)
    (fs : List ExternalFunction) (ts : List ExternalTable) (ms : List ExternalMemory)
    (gs : List ExternalGlobal) (inst allocated : Instance)
    (hstart : ∀ func_idx before, module.startfunc = some func_idx →
      (exec before func_idx []).2.table = before.table)
    (hok : (instantiate exec module fs ts ms gs).result = .ok inst)
    (ha : allocate module fs ts ms gs = .ok allocated) :
    ∃ elements, check_segments gs module.globalsec allocated.globals
        (storage_size allocated.table) ⟨"Element segment is out of table bounds"⟩
        (element_segments module) = .ok elements ∧
      inst.table = allocated.table.map fun table => apply_segments table elements := by
  obtain ⟨allocated2, filled, ha2, hf, hfield⟩ :=
    instantiate_started exec module fs ts ms gs inst (fun x => x.table) hstart hok
  rw [ha] at ha2
  simp only [Except.ok.injEq] at ha2
  subst ha2
  obtain ⟨_, _, _, _, _, _, _, hmod, _, hgs⟩ := allocate_ok module fs ts ms gs allocated ha
  obtain ⟨elements, datas, he, _, hfilled⟩ := fill_segments_ok allocated filled hf
  rw [hmod, hgs] at he
  exact ⟨elements, he, by rw [hfield, hfilled]⟩

theorem instantiate_ok_memory
    (exec : Instance → Nat → List Nat → execution_result × Instance) (module : Module)
    (fs : List ExternalFunction) (ts : List ExternalTable) (ms : List ExternalMemory)
    (gs : List ExternalGlobal) (inst allocated : Instance)
    (hstart : ∀ func_idx before, module.startfunc = some func_idx →
      (exec before func_idx []).2.memory = before.memory)
    (hok : (instantiate exec module fs ts ms gs).result = .ok inst)
    (ha : allocate module fs ts ms gs = .ok allocated) :
    ∃ datas, check_segments gs module.globalsec allocated.globals
        (storage_size allocated.memory) ⟨"Data segment is out of memory bounds"⟩
        (data_segments module) = .ok datas ∧
      inst.memory = allocated.memory.map fun memory => apply_segments memory datas := by
  obtain ⟨allocated2, filled, ha2, hf, hfield⟩ :=
    instantiate_started exec module fs ts ms gs inst (fun x => x.memory) hstart hok
  rw [ha] at ha2
  simp only [Except.ok.injEq] at ha2
  subst ha2
  obtain ⟨_, _, _, _, _, _, _, hmod, _, hgs⟩ := allocate_ok module fs ts ms gs allocated ha
  obtain ⟨elements, datas, _, hd, hfilled⟩ := fill_segments_ok allocated filled hf
  rw [hmod, hgs] at hd
  exact ⟨datas, hd, by rw [hfield, hfilled]⟩

/-! ## Imported memories -/

theorem allocate_memory_one_imported (memories : List Memory) (storage : Option bytes)
    (limits : Limits) (memory : Option bytes) (memory_max : Nat)
    (h : allocate_memory memories [⟨storage, limits⟩] = .ok (memory, memory_max)) :
    memories = [] ∧ memory = storage ∧ memory_max = limits.max.getD MemoryPagesLimit := by
  cases memories with
  | nil => exact ⟨rfl, allocate_memory_imported storage limits memory memory_max h⟩
  | cons m rest =>
    exfalso
    simp only [allocate_memory, List.length_cons, List.length_nil] at h
    rw [if_pos (by omega)] at h
    simp at h

theorem instantiate_memory_import_only
    (exec : Instance → Nat → List Nat → execution_result × Instance)
    (module_limits limits : Limits) (data : bytes) (name1 name2 : String)
    (hm : match_imported_memories [⟨module_limits⟩] [⟨some data, limits⟩] = .ok ()) :
    (instantiate exec { importsec := [⟨name1, name2, .Memory ⟨module_limits⟩⟩] } [] []
        [⟨some data, limits⟩] []).result
      = .ok { module := { importsec := [⟨name1, name2, .Memory ⟨module_limits⟩⟩] }
              memory := some data
              memory_max_pages := limits.max.getD MemoryPagesLimit
              table := none
              globals := []
              imported_functions := []
              imported_globals := [] } := by
  simp [instantiate, allocate, imported_function_types, imported_table_types,
    imported_memory_types, imported_globals_mutability, match_imported_functions,
    match_function_types, hm, match_imported_tables,
    match_imported_globals, match_global_types, allocate_table, allocate_memory,
    init_globals, segment_stage, fill_segments, check_segments, element_segments, data_segments,
    apply_segments]

theorem shared_memories_singleton (inst : Instance) (storage : Option bytes) (limits : Limits) :
    shared_memories inst [⟨storage, limits⟩] = [⟨inst.memory, limits⟩] := rfl

theorem instantiate_ok_shared
    (exec : Instance → Nat → List Nat → execution_result × Instance) (module : Module)
    (fs : List ExternalFunction) (ts : List ExternalTable) (ms : List ExternalMemory)
    (gs : List ExternalGlobal) (inst : Instance)
    (hok : (instantiate exec module fs ts ms gs).result = .ok inst) :
    (instantiate exec module fs ts ms gs).imported_tables = shared_tables inst ts ∧
    (instantiate exec module fs ts ms gs).imported_memories = shared_memories inst ms := by
  obtain ⟨allocated, filled, ha, hf, hcase⟩ :=
    instantiate_ok_cases exec module fs ts ms gs inst hok
  rcases hcase with ⟨hs, rfl⟩ | ⟨func_idx, hs, _, rfl⟩
  · exact (instantiate_of_no_start exec module fs ts ms gs allocated inst ha hf hs).2
  · exact (instantiate_of_start exec module fs ts ms gs allocated filled func_idx ha hf hs).2

/-- C21: an accepted imported memory is used as provided. If `instantiate`
succeeds with a provided memory, the module declares no memory of its own and
the provided limits are at least as strict as those of its memory import; the
memory of the instance is the storage of the host, so that the host sees what
the instance holds; it has the size that the provided storage had before the
call, the start function leaving the size as it is; and `memory_max_pages`,
the start function leaving it as it is, is the provided `max` when it is
present, also when it is stricter than the `max` of the module, and 4096 when
it is absent, in which case the `max` of the module is absent too. And
`instantiate` does succeed, with these results, on the module that has such a
memory import and nothing else. -/
theorem imported_memory_as_provided
    (exec : Instance → Nat → List Nat → execution_result × Instance) (module : Module)
    (fs : List ExternalFunction) (ts : List ExternalTable) (gs : List ExternalGlobal)
    (data : bytes) (limits : Limits) :
    (∀ inst, (instantiate exec module fs ts [⟨some data, limits⟩] gs).result = .ok inst →
      module.memorysec = [] ∧
      (∃ m rest, imported_memory_types module = m :: rest ∧ m.limits.min ≤ limits.min ∧
        ∀ module_max, m.limits.max = some module_max →
          ∃ mx, limits.max = some mx ∧ mx ≤ module_max) ∧
      (instantiate exec module fs ts [⟨some data, limits⟩] gs).imported_memories
        = [⟨inst.memory, limits⟩] ∧
      ((∀ func_idx before, module.startfunc = some func_idx →
          (exec before func_idx []).2.memory.map List.length = before.memory.map List.length) →
        inst.memory.map List.length = some data.length) ∧
      ((∀ func_idx before, module.startfunc = some func_idx →
          (exec before func_idx []).2.memory = before.memory) →
        module.datasec = [] → inst.memory = some data) ∧
      ((∀ func_idx before, module.startfunc = some func_idx →
          (exec before func_idx []).2.memory_max_pages = before.memory_max_pages) →
        inst.memory_max_pages = limits.max.getD MemoryPagesLimit ∧
        (∀ mx, limits.max = some mx → inst.memory_max_pages = mx) ∧
        (limits.max = none → inst.memory_max_pages = 4096 ∧
          ∀ m rest, imported_memory_types module = m :: rest → m.limits.max = none))) ∧
    (∀ (module_limits : Limits) (name1 name2 : String),
      module_limits.min ≤ limits.min →
      (∀ module_max, module_limits.max = some module_max →
        ∃ mx, limits.max = some mx ∧ mx ≤ module_max) →
      limits.min * PageSize ≤ data.length →
      (∀ mx, limits.max = some mx → data.length ≤ mx * PageSize ∧ mx ≤ MemoryPagesLimit) →
      ∃ inst, (instantiate exec { importsec := [⟨name1, name2, .Memory ⟨module_limits⟩⟩] } []
          [] [⟨some data, limits⟩] []).result = .ok inst ∧
        inst.memory = some data ∧
        inst.memory_max_pages = limits.max.getD MemoryPagesLimit) := by
  constructor
  · intro inst hok
    obtain ⟨allocated, filled, ha, hf, _⟩ :=
      instantiate_ok_cases exec module fs ts _ gs inst hok
    obtain ⟨_, _, h3, _, _, h6, _, hmod, _, _⟩ := allocate_ok module fs ts _ gs allocated ha
    obtain ⟨hsec, hmem, hmax⟩ := allocate_memory_one_imported _ _ _ _ _ h6
    obtain ⟨m, rest, data2, hty, hml, _, _, _⟩ := (match_imported_memories_ok _ _ _).mp h3
    obtain ⟨hmin, hmaxs⟩ := (match_limits_ok _ _).mp hml
    refine ⟨hsec, ⟨m, rest, hty, hmin, hmaxs⟩, ?_, ?_, ?_, ?_⟩
    · rw [(instantiate_ok_shared exec module fs ts _ gs inst hok).2]
      rfl
    · intro hstart
      rw [instantiate_frame exec module fs ts _ gs inst allocated
        (fun x => x.memory.map List.length) (fun a b h => (fill_segments_sizes a b h).1)
        hstart hok ha, hmem]
      rfl
    · intro hstart hdata
      obtain ⟨allocated2, filled2, ha2, hf2, hfield⟩ := instantiate_started exec module fs ts
        _ gs inst (fun x => x.memory) hstart hok
      rw [ha] at ha2
      simp only [Except.ok.injEq] at ha2
      subst ha2
      obtain ⟨elements, datas, _, hd, hfilled⟩ := fill_segments_ok allocated filled2 hf2
      simp only [data_segments, hmod, hdata, List.map_nil, check_segments,
        Except.ok.injEq] at hd
      rw [hfield, hfilled, ← hd, hmem]
      rfl
    · intro hstart
      have hpages : inst.memory_max_pages = limits.max.getD MemoryPagesLimit := by
        rw [instantiate_frame exec module fs ts _ gs inst allocated
          (fun x => x.memory_max_pages) (fun a b h => (fill_segments_sizes a b h).2.2.1)
          hstart hok ha, hmax]
      refine ⟨hpages, ?_, ?_⟩
      · intro mx hmx
        rw [hpages, hmx]
        rfl
      · intro hnone
        refine ⟨by rw [hpages, hnone]; rfl, ?_⟩
        intro m2 rest2 hty2
        rw [hty] at hty2
        simp only [List.cons.injEq] at hty2
        rw [← hty2.1]
        cases hmm : m.limits.max with
        | none => rfl
        | some module_max =>
          obtain ⟨mx, hmx, _⟩ := hmaxs module_max hmm
          rw [hnone] at hmx
          simp at hmx
  · intro module_limits name1 name2 hmin hmax hfit1 hfit2
    have hml := (match_limits_ok limits module_limits).mpr ⟨hmin, hmax⟩
    have hm : match_imported_memories [⟨module_limits⟩] [⟨some data, limits⟩] = .ok () :=
      (match_imported_memories_ok _ _ _).mpr
        ⟨⟨module_limits⟩, [], data, rfl, hml, rfl, hfit1, hfit2⟩
    exact ⟨_, instantiate_memory_import_only exec module_limits limits data name1 name2 hm,
      rfl, rfl⟩

/-- A concrete instance of `imported_memory_as_provided`: the unit tests
`imported_memory_stricter_limits`, a memory of two pages with limits (2, 2)
for an import with limits (1, 3), and `imported_memory_unlimited`. -/
theorem imported_memory_as_provided_witness :
    (∃ inst, (instantiate execute { importsec := [⟨"mod", "m", .Memory ⟨⟨1, some 3⟩⟩⟩] } [] []
        [⟨some (List.replicate (2 * PageSize) 0), ⟨2, some 2⟩⟩] []).result = .ok inst ∧
      inst.memory.map List.length = some (2 * PageSize) ∧ inst.memory_max_pages = 2) ∧
    (∃ inst, (instantiate execute { importsec := [⟨"mod", "m", .Memory ⟨⟨1, none⟩⟩⟩] } [] []
        [⟨some (List.replicate (1 * PageSize) 0), ⟨1, none⟩⟩] []).result = .ok inst ∧
      inst.memory.map List.length = some (1 * PageSize) ∧ inst.memory_max_pages = 4096) :=
  have len2 : (List.replicate (2 * PageSize) 0 : bytes).length = 2 * PageSize :=
    List.length_replicate _ _
  have len1 : (List.replicate (1 * PageSize) 0 : bytes).length = 1 * PageSize :=
    List.length_replicate _ _
  have h2 := imported_memory_as_provided execute
    { importsec := [⟨"mod", "m", .Memory ⟨⟨1, some 3⟩⟩⟩] } [] [] []
    (List.replicate (2 * PageSize) 0) ⟨2, some 2⟩
  have h1 := imported_memory_as_provided execute
    { importsec := [⟨"mod", "m", .Memory ⟨⟨1, none⟩⟩⟩] } [] [] []
    (List.replicate (1 * PageSize) 0) ⟨1, none⟩
  match h2.2 ⟨1, some 3⟩ "mod" "m" (by decide)
      (fun module_max h => ⟨2, rfl, by simp at h; omega⟩) (Nat.le_of_eq len2.symm)
      (fun mx h => by simp at h; subst h; exact ⟨Nat.le_of_eq len2, by decide⟩),
    h1.2 ⟨1, none⟩ "mod" "m" (by decide) (fun module_max h => by simp at h)
      (Nat.le_of_eq len1.symm) (fun mx h => by simp at h) with
  | ⟨inst2, hok2, _, _⟩, ⟨inst1, hok1, _, _⟩ =>
    have r2 := h2.1 inst2 hok2
    have r1 := h1.1 inst1 hok1
    ⟨⟨inst2, hok2, (r2.2.2.2.1 (fun _ _ h => by simp at h)).trans (congrArg some len2),
        (r2.2.2.2.2.2 (fun _ _ h => by simp at h)).2.1 2 rfl⟩,
      ⟨inst1, hok1, (r1.2.2.2.1 (fun _ _ h => by simp at h)).trans (congrArg some len1),
        ((r1.2.2.2.2.2 (fun _ _ h => by simp at h)).2.2 rfl).1⟩⟩

theorem length_imported_function_types (module : Module) :
    (imported_function_types module).length
      = module.importsec.countP fun imp =>
          match imp.desc with
          | .Function _ => true
          | _ => false := by
  simp only [imported_function_types]
  induction module.importsec with
  | nil => rfl
  | cons imp rest ih =>
    obtain ⟨m, n, desc⟩ := imp
    cases desc <;> simp [List.filterMap_cons, List.countP_cons, ih]

theorem length_imported_globals_mutability (module : Module) :
    (imported_globals_mutability module).length
      = module.importsec.countP fun imp =>
          match imp.desc with
          | .Global _ => true
          | _ => false := by
  simp only [imported_globals_mutability]
  induction module.importsec with
  | nil => rfl
  | cons imp rest ih =>
    obtain ⟨m, n, desc⟩ := imp
    cases desc <;> simp [List.filterMap_cons, List.countP_cons, ih]

theorem init_globals_length (igs : List ExternalGlobal) (gts l : List Global)
    (out : List Nat) (h : init_globals igs gts l [] = .ok out) : out.length = l.length := by
  obtain ⟨vals, hout, hlen, _⟩ := init_globals_ok igs gts l [] out h
  rw [hout, List.nil_append, hlen]

/-- C22: imported functions must match in number and type. Let `N` be the
number of function imports that the module declares and `M` the number of
functions provided. If `M` differs from `N`, `instantiate` fails with `Module
requires N imported functions, M provided`. If the type of some provided
function differs from the declared type of the import of the same position,
`instantiate` fails. And if `instantiate` succeeds, `M = N`, every provided
function has the declared type of its import, and `imported_functions` of
the instance is the list of the provided functions, in their order and with
their types, the start function leaving it as it is. -/
theorem imported_functions_match
    (exec : Instance → Nat → List Nat → execution_result × Instance) (module : Module)
    (fs : List ExternalFunction) (ts : List ExternalTable) (ms : List ExternalMemory)
    (gs : List ExternalGlobal) :
    ((imported_function_types module).length
      = module.importsec.countP fun imp =>
          match imp.desc with
          | .Function _ => true
          | _ => false) ∧
    (fs.length ≠ (imported_function_types module).length →
      (instantiate exec module fs ts ms gs).result
        = .error ⟨"Module requires " ++ toString (imported_function_types module).length ++
            " imported functions, " ++ toString fs.length ++ " provided"⟩) ∧
    (∀ (i : Nat) (declared : FuncType) (f : ExternalFunction),
      (imported_function_types module)[i]? = some (some declared) → fs[i]? = some f →
      f.type ≠ declared →
      ∃ e, (instantiate exec module fs ts ms gs).result = .error e) ∧
    (∀ inst, (instantiate exec module fs ts ms gs).result = .ok inst →
      fs.length = (imported_function_types module).length ∧
      (∀ (i : Nat) (f : ExternalFunction), fs[i]? = some f →
        (imported_function_types module)[i]? = some (some f.type)) ∧
      ((∀ func_idx before, module.startfunc = some func_idx →
          (exec before func_idx []).2.imported_functions = before.imported_functions) →
        inst.imported_functions = fs)) := by
  refine ⟨length_imported_function_types module, ?_, ?_, ?_⟩
  · intro hne
    apply fails_of_functions_error
    have hne2 : (imported_function_types module).length ≠ fs.length := fun h => hne h.symm
    simp only [match_imported_functions, ne_eq, hne2, not_false_eq_true, if_true]
  · intro i declared f hdecl hf hne
    obtain ⟨e, he⟩ := error_of_not_ok
      (match_imported_functions (imported_function_types module) fs) (by
        intro hok
        have := ((match_imported_functions_ok _ _).mp hok).2 i f hf
        rw [hdecl] at this
        simp only [Option.some.injEq] at this
        exact hne this.symm)
    exact ⟨e, fails_of_functions_error exec module fs ts ms gs e he⟩
  · intro inst hok
    obtain ⟨allocated, filled, ha, hf, _⟩ :=
      instantiate_ok_cases exec module fs ts ms gs inst hok
    obtain ⟨h1, _, _, _, _, _, _, _, hfs, _⟩ := allocate_ok module fs ts ms gs allocated ha
    obtain ⟨hlen, htypes⟩ := (match_imported_functions_ok _ _).mp h1
    refine ⟨hlen.symm, htypes, ?_⟩
    intro hstart
    rw [instantiate_frame exec module fs ts ms gs inst allocated (fun x => x.imported_functions)
      (fun a b h => (fill_segments_imports a b h).1) hstart hok ha]
    exact hfs

/-- A concrete instance of `imported_functions_match`: the unit tests
`imported_functions_not_enough`, `imported_function_wrong_type` and
`imported_functions_multiple`. -/
theorem imported_functions_match_witness :
    (instantiate execute module_imported_function [] [] [] []).result
      = .error ⟨"Module requires 1 imported functions, 0 provided"⟩ ∧
    (∃ e, (instantiate execute module_imported_function [⟨7, ⟨[], []⟩⟩] [] [] []).result
      = .error e) ∧
    (∃ inst, (instantiate execute module_imported_functions_multiple
        [⟨1, ⟨[.i32], [.i32]⟩⟩, ⟨2, ⟨[], []⟩⟩] [] [] []).result = .ok inst ∧
      inst.imported_functions = [⟨1, ⟨[.i32], [.i32]⟩⟩, ⟨2, ⟨[], []⟩⟩]) :=
  ⟨(imported_functions_match execute module_imported_function [] [] [] []).2.1 (by decide),
    (imported_functions_match execute module_imported_function [⟨7, ⟨[], []⟩⟩] [] [] []).2.2.1
      0 ⟨[.i32], [.i32]⟩ ⟨7, ⟨[], []⟩⟩ (by decide) (by decide) (by decide),
    have hok : (instantiate execute module_imported_functions_multiple
        [⟨1, ⟨[.i32], [.i32]⟩⟩, ⟨2, ⟨[], []⟩⟩] [] [] []).result
        = .ok { bare_instance module_imported_functions_multiple with
                imported_functions := [⟨1, ⟨[.i32], [.i32]⟩⟩, ⟨2, ⟨[], []⟩⟩] } := by decide
    ⟨_, hok, ((imported_functions_match execute module_imported_functions_multiple
        [⟨1, ⟨[.i32], [.i32]⟩⟩, ⟨2, ⟨[], []⟩⟩] [] [] []).2.2.2 _ hok).2.2
        (fun _ _ h => by simp [module_imported_functions_multiple] at h)⟩⟩

/-- C23: imported globals must match in number and mutability and be
non-null. Let `N` be the number of global imports that the module declares and
`M` the number of globals provided. If `M` differs from `N`, `instantiate`
fails, and with `Module requires N imported globals, M provided` when the
function, table and memory imports have passed. If the mutability of some
provided global differs from the declared one, or its pointer to the value is
null, `instantiate` fails; when the imports before the globals have passed and
every global before index `i` has the declared mutability and a value, the
error is `Global i mutability doesn't match module's global mutability` if the
mutability of global `i` differs, and `Global i has a null pointer to value`
if its mutability matches and its pointer is null. And if `instantiate`
succeeds, `M = N`, every provided global has the declared mutability and a
value, `imported_globals` of the instance is the list of the provided globals
in their order, and `globals` has one entry for each global that the module
declares, the start function leaving these as they are. -/
theorem imported_globals_match
    (exec : Instance → Nat → List Nat → execution_result × Instance) (module : Module)
    (fs : List ExternalFunction) (ts : List ExternalTable) (ms : List ExternalMemory)
    (gs : List ExternalGlobal) :
    ((imported_globals_mutability module).length
      = module.importsec.countP fun imp =>
          match imp.desc with
          | .Global _ => true
          | _ => false) ∧
    (gs.length ≠ (imported_globals_mutability module).length →
      (∃ e, (instantiate exec module fs ts ms gs).result = .error e) ∧
      (match_imported_functions (imported_function_types module) fs = .ok () →
        match_imported_tables (imported_table_types module) ts = .ok () →
        match_imported_memories (imported_memory_types module) ms = .ok () →
        (instantiate exec module fs ts ms gs).result
          = .error ⟨"Module requires " ++
              toString (imported_globals_mutability module).length ++
              " imported globals, " ++ toString gs.length ++ " provided"⟩)) ∧
    (∀ (i : Nat) (declared : Bool) (g : ExternalGlobal),
      (imported_globals_mutability module)[i]? = some declared → gs[i]? = some g →
      ((g.is_mutable ≠ declared ∨ g.value = none) →
        ∃ e, (instantiate exec module fs ts ms gs).result = .error e) ∧
      (match_imported_functions (imported_function_types module) fs = .ok () →
        match_imported_tables (imported_table_types module) ts = .ok () →
        match_imported_memories (imported_memory_types module) ms = .ok () →
        gs.length = (imported_globals_mutability module).length →
        (∀ j, j < i → ∀ dj gj, (imported_globals_mutability module)[j]? = some dj →
          gs[j]? = some gj → gj.is_mutable = dj ∧ gj.value ≠ none) →
        (g.is_mutable ≠ declared →
          (instantiate exec module fs ts ms gs).result
            = .error ⟨"Global " ++ toString i ++
                " mutability doesn\x27t match module\x27s global mutability"⟩) ∧
        (g.is_mutable = declared → g.value = none →
          (instantiate exec module fs ts ms gs).result
            = .error ⟨"Global " ++ toString i ++ " has a null pointer to value"⟩))) ∧
    (∀ inst, (instantiate exec module fs ts ms gs).result = .ok inst →
      gs.length = (imported_globals_mutability module).length ∧
      (∀ (i : Nat) (g : ExternalGlobal), gs[i]? = some g →
        (imported_globals_mutability module)[i]? = some g.is_mutable ∧ g.value ≠ none) ∧
      ((∀ func_idx before, module.startfunc = some func_idx →
          (exec before func_idx []).2.imported_globals = before.imported_globals) →
        inst.imported_globals = gs) ∧
      ((∀ func_idx before, module.startfunc = some func_idx →
          (exec before func_idx []).2.globals.length = before.globals.length) →
        inst.globals.length = module.globalsec.length)) := by
  refine ⟨length_imported_globals_mutability module, ?_, ?_, ?_⟩
  · intro hne
    have hne2 : (imported_globals_mutability module).length ≠ gs.length := fun h => hne h.symm
    exact fails_of_globals_error exec module fs ts ms gs _ (by
      simp only [match_imported_globals, ne_eq, hne2, not_false_eq_true, if_true])
  · intro i declared g hdecl hg
    constructor
    · intro hbad
      obtain ⟨e, he⟩ := error_of_not_ok
        (match_imported_globals (imported_globals_mutability module) gs) (by
          intro hok
          obtain ⟨h1, h2⟩ := ((match_imported_globals_ok _ _).mp hok).2 i g hg
          rw [hdecl] at h1
          simp only [Option.some.injEq] at h1
          rcases hbad with hb | hb
          · exact hb h1.symm
          · exact h2 hb)
      exact (fails_of_globals_error exec module fs ts ms gs e he).1
    · intro h1 h2 h3 hlen hbefore
      obtain ⟨hmut, hnull⟩ := match_global_types_at i (imported_globals_mutability module) gs 0
        declared g hbefore hdecl hg
      rw [Nat.zero_add] at hmut hnull
      constructor
      · intro hne
        exact (fails_of_globals_error exec module fs ts ms gs _ (by
          simp only [match_imported_globals, ne_eq, hlen.symm, not_true_eq_false, if_false,
            hmut hne])).2 h1 h2 h3
      · intro heq hv
        exact (fails_of_globals_error exec module fs ts ms gs _ (by
          simp only [match_imported_globals, ne_eq, hlen.symm, not_true_eq_false, if_false,
            hnull heq hv])).2 h1 h2 h3
  · intro inst hok
    obtain ⟨allocated, filled, ha, hf, _⟩ :=
      instantiate_ok_cases exec module fs ts ms gs inst hok
    obtain ⟨_, _, _, h4, _, _, h7, _, _, hgs⟩ := allocate_ok module fs ts ms gs allocated ha
    obtain ⟨hlen, hall⟩ := (match_imported_globals_ok _ _).mp h4
    refine ⟨hlen.symm, hall, ?_, ?_⟩
    · intro hstart
      rw [instantiate_frame exec module fs ts ms gs inst allocated (fun x => x.imported_globals)
        (fun a b h => (fill_segments_imports a b h).2) hstart hok ha]
      exact hgs
    · intro hstart
      rw [instantiate_frame exec module fs ts ms gs inst allocated (fun x => x.globals.length)
        (fun a b h => congrArg List.length (fill_segments_sizes a b h).2.2.2.1) hstart hok ha]
      exact init_globals_length gs module.globalsec module.globalsec allocated.globals h7

/-- A concrete instance of `imported_globals_match`: the unit tests
`imported_globals_mismatched_count`, `imported_globals_mismatched_mutability`,
`imported_globals_nullptr` and `imported_globals_multiple`. -/
theorem imported_globals_match_witness :
    (instantiate execute module_imported_globals [] [] [] [⟨some 42, true⟩]).result
      = .error ⟨"Module requires 2 imported globals, 1 provided"⟩ ∧
    (instantiate execute module_imported_globals [] [] []
        [⟨some 42, false⟩, ⟨some 42, true⟩]).result
      = .error ⟨"Global 0 mutability doesn\x27t match module\x27s global mutability"⟩ ∧
    (instantiate execute module_imported_globals [] [] []
        [⟨none, true⟩, ⟨none, false⟩]).result
      = .error ⟨"Global 0 has a null pointer to value"⟩ ∧
    (∃ inst, (instantiate execute module_imported_globals [] [] []
        [⟨some 42, true⟩, ⟨some 43, false⟩]).result = .ok inst ∧
      inst.imported_globals = [⟨some 42, true⟩, ⟨some 43, false⟩] ∧ inst.globals.length = 0) :=
  ⟨((imported_globals_match execute module_imported_globals [] [] []
        [⟨some 42, true⟩]).2.1 (by decide)).2 (by decide) (by decide) (by decide),
    (((imported_globals_match execute module_imported_globals [] [] []
        [⟨some 42, false⟩, ⟨some 42, true⟩]).2.2.1 0 true ⟨some 42, false⟩
        (by decide) (by decide)).2 (by decide) (by decide) (by decide) (by decide)
        (fun j hj => absurd hj (Nat.not_lt_zero j))).1 (by decide),
    (((imported_globals_match execute module_imported_globals [] [] []
        [⟨none, true⟩, ⟨none, false⟩]).2.2.1 0 true ⟨none, true⟩
        (by decide) (by decide)).2 (by decide) (by decide) (by decide) (by decide)
        (fun j hj => absurd hj (Nat.not_lt_zero j))).2 (by decide) (by decide),
    have hok : (instantiate execute module_imported_globals [] [] []
        [⟨some 42, true⟩, ⟨some 43, false⟩]).result
        = .ok { bare_instance module_imported_globals with
                imported_globals := [⟨some 42, true⟩, ⟨some 43, false⟩] } := by decide
    have h := (imported_globals_match execute module_imported_globals [] [] []
        [⟨some 42, true⟩, ⟨some 43, false⟩]).2.2.2 _ hok
    ⟨_, hok,
      h.2.2.1 (fun _ _ hs => by simp [module_imported_globals] at hs),
      h.2.2.2 (fun _ _ hs => by simp [module_imported_globals] at hs)⟩⟩

/-- C24: module-declared globals are initialised in declaration order from
their constant expressions. If `instantiate` succeeds, the start function
leaving the globals as they are, `globals` of the instance has one value for
each global that the module declares, in declaration order: for an initializer
`Constant(v)` the value is `v`, and an initializer `GlobalGet(i)` names an
imported immutable global and the value is that of this global. If an
initializer names a mutable imported global or a global that is not imported,
`instantiate` fails; when the stages before the globals have passed and the
initializers of the globals declared before it are constants or name imported
immutable globals, the error is `Constant expression can use global_get only
for const globals.` for a mutable imported global and `Global can be
initialized by another const global only if it's imported.` for a global that
the module declares. -/
theorem globals_initialised_in_order
    (exec : Instance → Nat → List Nat → execution_result × Instance) (module : Module)
    (fs : List ExternalFunction) (ts : List ExternalTable) (ms : List ExternalMemory)
    (gs : List ExternalGlobal) :
    (∀ inst, (instantiate exec module fs ts ms gs).result = .ok inst →
      (∀ func_idx before, module.startfunc = some func_idx →
        (exec before func_idx []).2.globals = before.globals) →
      inst.globals.length = module.globalsec.length ∧
      ∀ (k : Nat) (g : Global), module.globalsec[k]? = some g →
        (∀ v, g.expression = .Constant v → inst.globals[k]? = some v) ∧
        (∀ i, g.expression = .GlobalGet i →
          ∃ value, gs[i]? = some ⟨some value, false⟩ ∧ inst.globals[k]? = some value)) ∧
    (∀ (k : Nat) (g : Global) (i : Nat), module.globalsec[k]? = some g →
      g.expression = .GlobalGet i →
      ((∃ ig, gs[i]? = some ig ∧ ig.is_mutable = true) ∨ gs.length ≤ i) →
      ∃ e, (instantiate exec module fs ts ms gs).result = .error e) ∧
    (∀ (before : List Global) (g : Global) (after : List Global) (i : Nat),
      module.globalsec = before ++ g :: after → g.expression = .GlobalGet i →
      match_imported_functions (imported_function_types module) fs = .ok () →
      match_imported_tables (imported_table_types module) ts = .ok () →
      match_imported_memories (imported_memory_types module) ms = .ok () →
      match_imported_globals (imported_globals_mutability module) gs = .ok () →
      (∃ table, allocate_table module.tablesec ts = .ok table) →
      (∃ memory, allocate_memory module.memorysec ms = .ok memory) →
      (∀ b ∈ before, (∃ v, b.expression = .Constant v) ∨
        ∃ j value, b.expression = .GlobalGet j ∧ gs[j]? = some ⟨some value, false⟩) →
      ((∃ ig, gs[i]? = some ig ∧ ig.is_mutable = true) →
        (instantiate exec module fs ts ms gs).result
          = .error ⟨"Constant expression can use global_get only for const globals."⟩) ∧
      (gs.length ≤ i →
        (instantiate exec module fs ts ms gs).result = .error
          ⟨"Global can be initialized by another const global only if it\x27s imported."⟩)) := by
  refine ⟨?_, ?_, ?_⟩
  · intro inst hok hstart
    obtain ⟨allocated, filled, ha, hf, _⟩ :=
      instantiate_ok_cases exec module fs ts ms gs inst hok
    obtain ⟨_, _, _, _, _, _, h7, _⟩ := allocate_ok module fs ts ms gs allocated ha
    have hg : inst.globals = allocated.globals :=
      instantiate_frame exec module fs ts ms gs inst allocated (fun x => x.globals)
        (fun a b h => (fill_segments_sizes a b h).2.2.2.1) hstart hok ha
    obtain ⟨vals, hout, hlen, hvals⟩ :=
      init_globals_ok gs module.globalsec module.globalsec [] allocated.globals h7
    rw [List.nil_append] at hout
    rw [hg, hout]
    exact ⟨hlen, hvals⟩
  · intro k g i hk hg hbad
    obtain ⟨e, he⟩ := init_globals_not_ok_of_bad gs module.globalsec module.globalsec k g i
      hk hg hbad
    exact (fails_of_init_globals_error exec module fs ts ms gs e he).1
  · intro before g after i hsplit hg h1 h2 h3 h4 h5 h6 hbefore
    obtain ⟨hmut, hown⟩ := init_globals_error_at gs module.globalsec before g after [] i
      hbefore hg
    rw [← hsplit] at hmut hown
    constructor
    · intro hm
      exact (fails_of_init_globals_error exec module fs ts ms gs _ (hmut hm)).2
        h1 h2 h3 h4 h5 h6
    · intro hle
      exact (fails_of_init_globals_error exec module fs ts ms gs _ (hown hle)).2
        h1 h2 h3 h4 h5 h6

/-- A concrete instance of `globals_initialised_in_order`: the unit tests
`globals_with_imported` and `globals_initialized_from_imported`, with its two
invalid modules. -/
theorem globals_initialised_in_order_witness :
    (∃ inst, (instantiate execute module_globals_with_imported [] [] []
        [⟨some 41, true⟩]).result = .ok inst ∧
      inst.globals.length = 2 ∧ inst.globals[0]? = some 42 ∧ inst.globals[1]? = some 43) ∧
    (∃ inst, (instantiate execute module_global_from_imported [] [] []
        [⟨some 42, false⟩]).result = .ok inst ∧ inst.globals[0]? = some 42) ∧
    (instantiate execute module_global_from_mutable [] [] [] [⟨some 42, true⟩]).result
      = .error ⟨"Constant expression can use global_get only for const globals."⟩ ∧
    (instantiate execute module_global_from_global [] [] [] []).result = .error
      ⟨"Global can be initialized by another const global only if it\x27s imported."⟩ :=
  have hok1 : (instantiate execute module_globals_with_imported [] [] []
      [⟨some 41, true⟩]).result
      = .ok { bare_instance module_globals_with_imported with
              globals := [42, 43]
              imported_globals := [⟨some 41, true⟩] } := by decide
  have hok2 : (instantiate execute module_global_from_imported [] [] []
      [⟨some 42, false⟩]).result
      = .ok { bare_instance module_global_from_imported with
              globals := [42]
              imported_globals := [⟨some 42, false⟩] } := by decide
  have h1 := (globals_initialised_in_order execute module_globals_with_imported [] [] []
    [⟨some 41, true⟩]).1 _ hok1 (fun _ _ hs => by simp [module_globals_with_imported] at hs)
  have h2 := (globals_initialised_in_order execute module_global_from_imported [] [] []
    [⟨some 42, false⟩]).1 _ hok2 (fun _ _ hs => by simp [module_global_from_imported] at hs)
  ⟨⟨_, hok1, h1.1, (h1.2 0 ⟨true, .Constant 42⟩ (by decide)).1 42 rfl,
      (h1.2 1 ⟨false, .Constant 43⟩ (by decide)).1 43 rfl⟩,
    ⟨_, hok2,
      match (h2.2 0 ⟨true, .GlobalGet 0⟩ (by decide)).2 0 rfl with
      | ⟨value, hv, hk⟩ => by
        have : value = 42 := by
          have h := hv
          simp at h
          exact h.symm
        subst this
        exact hk⟩,
    ((globals_initialised_in_order execute module_global_from_mutable [] [] []
        [⟨some 42, true⟩]).2.2 [] ⟨true, .GlobalGet 0⟩ [] 0 rfl rfl (by decide) (by decide)
        (by decide) (by decide) ⟨none, by decide⟩ ⟨(none, MemoryPagesLimit), by decide⟩
        (by simp)).1 ⟨⟨some 42, true⟩, by decide, rfl⟩,
    ((globals_initialised_in_order execute module_global_from_global [] [] [] []).2.2
        [⟨true, .Constant 42⟩] ⟨true, .GlobalGet 0⟩ [] 0 rfl rfl (by decide) (by decide)
        (by decide) (by decide) ⟨none, by decide⟩ ⟨(none, MemoryPagesLimit), by decide⟩
        (by simp)).2 (by decide)⟩

/-- C25, as stated, fails: in the module of the unit test
`element_section_offset_from_global` nothing is imported, global 0 is declared
in the module itself, and the offset of the element segment is `GlobalGet(0)`;
the evaluator does not reject it but returns 1, the value of the global, and
`instantiate` succeeds and fills the entries 1 and 2 of the table. -/
theorem constant_expression_evaluator_counterexample :
    module_element_offset_from_global.importsec = [] ∧
    module_element_offset_from_global.globalsec = [⟨false, .Constant 1⟩] ∧
    module_element_offset_from_global.elementsec = [⟨.GlobalGet 0, [170, 255]⟩] ∧
    eval_constant_expression (.GlobalGet 0) [] module_element_offset_from_global.globalsec [1]
      = .ok 1 ∧
    ∃ inst, (instantiate execute module_element_offset_from_global [] [] [] []).result
        = .ok inst ∧
      inst.globals = [1] ∧ inst.table = some [none, some 170, some 255, none] :=
  ⟨rfl, rfl, rfl, by decide,
    { bare_instance module_element_offset_from_global with
      globals := [1]
      table := some [none, some 170, some 255, none] }, by decide, rfl, rfl⟩

/-- C25, amended: the constant-expression evaluator returns `v` for
`Constant(v)` and, for `GlobalGet(i)`, the value of the referenced global when
this global is immutable, be it imported or declared by the module and already
initialised; it rejects `GlobalGet(i)` with `Constant expression can use
global_get only for const globals.`, and with no other error, whenever the
referenced global is mutable or out of range. So does `instantiate` for a
segment offset, which fails, and with this error when the segments checked
before are in bounds, and for a global initializer that names a mutable
imported global; a global initializer that names a global declared in the same
module is rejected with `Global can be initialized by another const global
only if it's imported.`. -/
theorem constant_expression_evaluator
    (igs : List ExternalGlobal) (gts : List Global) (globals : List Nat)
    (exec : Instance → Nat → List Nat → execution_result × Instance) (module : Module)
    (fs : List ExternalFunction) (ts : List ExternalTable) (ms : List ExternalMemory)
    (gs : List ExternalGlobal) :
    (∀ v, eval_constant_expression (.Constant v) igs gts globals = .ok v) ∧
    (∀ i value, igs[i]? = some ⟨some value, false⟩ →
      eval_constant_expression (.GlobalGet i) igs gts globals = .ok value) ∧
    (∀ i g value, igs.length ≤ i → gts[i - igs.length]? = some g → g.is_mutable = false →
      globals[i - igs.length]? = some value →
      eval_constant_expression (.GlobalGet i) igs gts globals = .ok value) ∧
    (∀ i, ((∃ ig, igs[i]? = some ig ∧ ig.is_mutable = true) ∨
        (igs.length ≤ i ∧ ∃ g, gts[i - igs.length]? = some g ∧ g.is_mutable = true) ∨
        igs.length + gts.length ≤ i) →
      eval_constant_expression (.GlobalGet i) igs gts globals
        = .error ⟨"Constant expression can use global_get only for const globals."⟩) ∧
    (∀ expr e, eval_constant_expression expr igs gts globals = .error e →
      e = ⟨"Constant expression can use global_get only for const globals."⟩) ∧
    (∀ i, ((∃ ig, gs[i]? = some ig ∧ ig.is_mutable = true) ∨
        (gs.length ≤ i ∧ ∃ g, module.globalsec[i - gs.length]? = some g ∧
          g.is_mutable = true) ∨
        gs.length + module.globalsec.length ≤ i) →
      (((∃ element ∈ module.elementsec, element.offset = .GlobalGet i) ∨
          (∃ data ∈ module.datasec, data.offset = .GlobalGet i)) →
        ∃ e, (instantiate exec module fs ts ms gs).result = .error e) ∧
      (∀ allocated, allocate module fs ts ms gs = .ok allocated →
        (∀ before element after, module.elementsec = before ++ element :: after →
          element.offset = .GlobalGet i →
          (∀ b ∈ before, ∃ offset,
            eval_constant_expression b.offset gs module.globalsec allocated.globals
              = .ok offset ∧ offset + b.init.length ≤ storage_size allocated.table) →
          (instantiate exec module fs ts ms gs).result
            = .error ⟨"Constant expression can use global_get only for const globals."⟩) ∧
        (∀ before data after, module.datasec = before ++ data :: after →
          data.offset = .GlobalGet i →
          (∀ element ∈ module.elementsec, ∃ offset,
            eval_constant_expression element.offset gs module.globalsec allocated.globals
              = .ok offset ∧ offset + element.init.length ≤ storage_size allocated.table) →
          (∀ b ∈ before, ∃ offset,
            eval_constant_expression b.offset gs module.globalsec allocated.globals
              = .ok offset ∧ offset + b.init.length ≤ storage_size allocated.memory) →
          (instantiate exec module fs ts ms gs).result
            = .error ⟨"Constant expression can use global_get only for const globals."⟩))) ∧
    (∀ (before : List Global) (g : Global) (after : List Global) (i : Nat),
      module.globalsec = before ++ g :: after → g.expression = .GlobalGet i →
      (((∃ ig, gs[i]? = some ig ∧ ig.is_mutable = true) ∨ gs.length ≤ i) →
        ∃ e, (instantiate exec module fs ts ms gs).result = .error e) ∧
      (match_imported_functions (imported_function_types module) fs = .ok () →
        match_imported_tables (imported_table_types module) ts = .ok () →
        match_imported_memories (imported_memory_types module) ms = .ok () →
        match_imported_globals (imported_globals_mutability module) gs = .ok () →
        (∃ table, allocate_table module.tablesec ts = .ok table) →
        (∃ memory, allocate_memory module.memorysec ms = .ok memory) →
        (∀ b ∈ before, (∃ v, b.expression = .Constant v) ∨
          ∃ j value, b.expression = .GlobalGet j ∧ gs[j]? = some ⟨some value, false⟩) →
        ((∃ ig, gs[i]? = some ig ∧ ig.is_mutable = true) →
          (instantiate exec module fs ts ms gs).result
            = .error ⟨"Constant expression can use global_get only for const globals."⟩) ∧
        (gs.length ≤ i →
          (instantiate exec module fs ts ms gs).result = .error
            ⟨"Global can be initialized by another const global only if it\x27s imported."⟩))) := by
  refine ⟨fun v => rfl, eval_imported igs gts globals, ?_, eval_mutable_or_out_of_range igs gts
    globals, fun expr e h => eval_error_message expr igs gts globals e h, ?_, ?_⟩
  · intro i g value hi hg hm hv
    exact eval_module_global igs gts globals i g value hi hg hm hv
  · intro i hbad
    constructor
    · intro hseg
      apply instantiate_fails_of_fill_error
      intro allocated ha
      obtain ⟨_, _, _, _, _, _, _, hmod, _, hgs⟩ := allocate_ok module fs ts ms gs allocated ha
      have hev := eval_mutable_or_out_of_range gs module.globalsec allocated.globals i hbad
      apply fill_segments_error_of_offset allocated
        ⟨"Constant expression can use global_get only for const globals."⟩
      rw [hmod, hgs]
      rcases hseg with ⟨element, hmem, hoff⟩ | ⟨data, hmem, hoff⟩
      · exact Or.inl ⟨element, hmem, by rw [hoff]; exact hev⟩
      · exact Or.inr ⟨data, hmem, by rw [hoff]; exact hev⟩
    · intro allocated ha
      obtain ⟨_, _, _, _, _, _, _, hmod, _, hgs⟩ := allocate_ok module fs ts ms gs allocated ha
      have hev := eval_mutable_or_out_of_range gs module.globalsec allocated.globals i hbad
      constructor
      · intro before element after hsplit hoff hbefore
        refine (instantiate_of_fill_error exec module fs ts ms gs allocated _ ha ?_).1
        apply fill_segments_error_at_element allocated before element after
        · rw [hmod]; exact hsplit
        · rw [hmod, hgs]; exact hbefore
        · rw [hmod, hgs, hoff]; exact hev
      · intro before data after hsplit hoff hel hbefore
        refine (instantiate_of_fill_error exec module fs ts ms gs allocated _ ha ?_).1
        apply fill_segments_error_at_data allocated before data after
        · rw [hmod]; exact hsplit
        · rw [hmod, hgs]; exact hel
        · rw [hmod, hgs]; exact hbefore
        · rw [hmod, hgs, hoff]; exact hev
  · intro before g after i hsplit hg
    constructor
    · intro hbad
      obtain ⟨e, he⟩ := init_globals_not_ok_of_bad gs module.globalsec module.globalsec
        before.length g i
        (by rw [hsplit, List.getElem?_append_right (Nat.le_refl _)]; simp) hg hbad
      exact (fails_of_init_globals_error exec module fs ts ms gs e he).1
    · intro h1 h2 h3 h4 h5 h6 hbefore
      obtain ⟨hmut, hown⟩ := init_globals_error_at gs module.globalsec before g after [] i
        hbefore hg
      rw [← hsplit] at hmut hown
      constructor
      · intro hm
        exact (fails_of_init_globals_error exec module fs ts ms gs _ (hmut hm)).2
          h1 h2 h3 h4 h5 h6
      · intro hle
        exact (fails_of_init_globals_error exec module fs ts ms gs _ (hown hle)).2
          h1 h2 h3 h4 h5 h6

/-- A concrete instance of `constant_expression_evaluator`: the values of an
imported and of a module-declared immutable global, and the unit tests
`element_section_offset_from_mutable_global` and
`globals_initialized_from_imported`, third module. -/
theorem constant_expression_evaluator_witness :
    eval_constant_expression (.GlobalGet 0) [⟨some 42, false⟩] [] [] = .ok 42 ∧
    eval_constant_expression (.GlobalGet 1) [⟨some 42, false⟩] [⟨false, .Constant 7⟩] [7]
      = .ok 7 ∧
    (instantiate execute module_element_offset_from_mutable_global [] [] [] []).result
      = .error ⟨"Constant expression can use global_get only for const globals."⟩ ∧
    (instantiate execute module_global_from_global [] [] [] []).result = .error
      ⟨"Global can be initialized by another const global only if it\x27s imported."⟩ :=
  ⟨(constant_expression_evaluator [⟨some 42, false⟩] [] [] execute {} [] [] [] []).2.1 0 42
      (by decide),
    (constant_expression_evaluator [⟨some 42, false⟩] [⟨false, .Constant 7⟩] [7] execute {}
      [] [] [] []).2.2.1 1 ⟨false, .Constant 7⟩ 7 (by decide) (by decide) rfl (by decide),
    (((constant_expression_evaluator [] [] [] execute module_element_offset_from_mutable_global
      [] [] [] []).2.2.2.2.2.1 0
      (Or.inr (Or.inl ⟨by decide, ⟨true, .Constant 42⟩, by decide, rfl⟩))).2
      { bare_instance module_element_offset_from_mutable_global with
        globals := [42]
        table := some [none, none, none, none] } (by decide)).1
      [] ⟨.GlobalGet 0, [170, 255]⟩ [] rfl rfl (by simp),
    (((constant_expression_evaluator [] [] [] execute module_global_from_global
      [] [] [] []).2.2.2.2.2.2 [⟨true, .Constant 42⟩] ⟨true, .GlobalGet 0⟩ [] 0 rfl rfl).2
      (by decide) (by decide) (by decide) (by decide) ⟨none, by decide⟩
      ⟨(none, MemoryPagesLimit), by decide⟩ (by simp)).2 (by decide)⟩

theorem allocate_memory_and_global (module : Module) (min : Nat) (max : Option Nat) (v : Nat)
    (himp : module.importsec = []) (htab : module.tablesec = [])
    (hmem : module.memorysec = [⟨⟨min, max⟩⟩])
    (hglob : module.globalsec = [⟨false, .Constant v⟩])
    (hcap : ¬ (MemoryPagesLimit < min ∨ MemoryPagesLimit < max.getD MemoryPagesLimit)) :
    allocate module [] [] [] []
      = .ok { module := module
              memory := some (List.replicate (min * PageSize) 0)
              memory_max_pages := max.getD MemoryPagesLimit
              table := none
              globals := [v]
              imported_functions := []
              imported_globals := [] } := by
  simp [allocate, imported_function_types, imported_table_types, imported_memory_types,
    imported_globals_mutability, himp, htab, hmem, hglob, match_imported_functions,
    match_function_types, match_imported_tables, match_imported_memories,
    match_imported_globals, match_global_types, allocate_table, allocate_memory, hcap,
    init_globals, eval_constant_expression]

/-- C26: a segment offset given as `GlobalGet(i)` is accepted when global `i`
is immutable, whether it is imported or declared by the module itself with a
constant initializer, and the segment is then written at the value of the
global. Once import resolution and the allocation have passed, the evaluator
returns, for the offset `GlobalGet(i)`, the value of the imported immutable
global `i`, or the constant `v` with which the module initialises its own
immutable global `i`. And after a successful `instantiate`, the start function
writing no table entry, the entry at the value plus `j` of the table is entry
`j` of an element segment with this offset, unless a later segment covers it;
likewise, the start function leaving the memory as it is, the byte at the
value plus `j` of the memory is byte `j` of a data segment with this offset. -/
theorem offset_from_immutable_global
    (exec : Instance → Nat → List Nat → execution_result × Instance) (module : Module)
    (fs : List ExternalFunction) (ts : List ExternalTable) (ms : List ExternalMemory)
    (gs : List ExternalGlobal) (allocated : Instance) (i : Nat)
    (halloc : allocate module fs ts ms gs = .ok allocated) :
    (∀ value, gs[i]? = some ⟨some value, false⟩ →
      eval_constant_expression (.GlobalGet i) gs module.globalsec allocated.globals
        = .ok value) ∧
    (∀ v, gs.length ≤ i → module.globalsec[i - gs.length]? = some ⟨false, .Constant v⟩ →
      allocated.globals[i - gs.length]? = some v ∧
      eval_constant_expression (.GlobalGet i) gs module.globalsec allocated.globals = .ok v) ∧
    (∀ inst value, (instantiate exec module fs ts ms gs).result = .ok inst →
      eval_constant_expression (.GlobalGet i) gs module.globalsec allocated.globals
        = .ok value →
      (∀ before element after, module.elementsec = before ++ element :: after →
        element.offset = .GlobalGet i →
        (∀ func_idx before, module.startfunc = some func_idx →
          (exec before func_idx []).2.table = before.table) →
        ∀ j, j < element.init.length →
          (∀ later ∈ after, ∀ o,
            eval_constant_expression later.offset gs module.globalsec allocated.globals
              = .ok o → ¬ covers o later.init (value + j)) →
          ∃ table, inst.table = some table ∧
            table[value + j]? = (element.init[j]?).map some) ∧
      (∀ before data after, module.datasec = before ++ data :: after →
        data.offset = .GlobalGet i →
        (∀ func_idx before, module.startfunc = some func_idx →
          (exec before func_idx []).2.memory = before.memory) →
        ∀ j, j < data.init.length →
          (∀ later ∈ after, ∀ o,
            eval_constant_expression later.offset gs module.globalsec allocated.globals
              = .ok o → ¬ covers o later.init (value + j)) →
          ∃ memory, inst.memory = some memory ∧ memory[value + j]? = data.init[j]?)) := by
  refine ⟨fun value h => eval_imported gs module.globalsec allocated.globals i value h, ?_, ?_⟩
  · intro v hi hg
    have hv := (allocate_module_global module fs ts ms gs allocated halloc (i - gs.length)
      ⟨false, .Constant v⟩ hg).1 v rfl
    exact ⟨hv, eval_module_global gs module.globalsec allocated.globals i
      ⟨false, .Constant v⟩ v hi hg rfl hv⟩
  · intro inst value hok hev
    constructor
    · intro before element after hsplit hoff hstart j hj hlater
      obtain ⟨elements, he, htab⟩ :=
        instantiate_ok_table exec module fs ts ms gs inst allocated hstart hok halloc
      obtain ⟨o, ho, hle⟩ := check_segments_ok_all _ _ _ _ _ _ elements he
        (element.offset, element.init.map some)
        (by simp only [element_segments, List.mem_map]
            exact ⟨element, by rw [hsplit]; simp, rfl⟩)
      simp only [hoff, hev, Except.ok.injEq, List.length_map] at ho hle
      subst ho
      cases hinit : allocated.table with
      | none =>
        rw [hinit] at hle
        simp only [storage_size] at hle
        omega
      | some initial =>
        rw [hinit] at he htab
        simp only [storage_size] at he
        refine ⟨_, htab, ?_⟩
        have h := (applied_segments_spec gs module.globalsec allocated.globals _ _ elements
          initial he (value + j)).2.1
          (before.map fun e => (e.offset, e.init.map some))
          (element.offset, element.init.map some)
          (after.map fun e => (e.offset, e.init.map some)) value
          (by simp only [element_segments, hsplit, List.map_append, List.map_cons])
          (by rw [hoff]; exact hev)
          (by simp only [covers, List.length_map]; omega)
          (by
            intro later hl o ho
            simp only [List.mem_map] at hl
            obtain ⟨e, he2, rfl⟩ := hl
            have := hlater e he2 o ho
            simp only [covers, List.length_map] at this ⊢
            exact this)
        rw [h]
        simp only [Nat.add_sub_cancel_left, List.getElem?_map]
    · intro before data after hsplit hoff hstart j hj hlater
      obtain ⟨datas, hd, hmem⟩ :=
        instantiate_ok_memory exec module fs ts ms gs inst allocated hstart hok halloc
      obtain ⟨o, ho, hle⟩ := check_segments_ok_all _ _ _ _ _ _ datas hd
        (data.offset, data.init)
        (by simp only [data_segments, List.mem_map]
            exact ⟨data, by rw [hsplit]; simp, rfl⟩)
      simp only [hoff, hev, Except.ok.injEq] at ho hle
      subst ho
      cases hinit : allocated.memory with
      | none =>
        rw [hinit] at hle
        simp only [storage_size] at hle
        omega
      | some initial =>
        rw [hinit] at hd hmem
        simp only [storage_size] at hd
        refine ⟨_, hmem, ?_⟩
        have h := (applied_segments_spec gs module.globalsec allocated.globals _ _ datas
          initial hd (value + j)).2.1
          (before.map fun d => (d.offset, d.init)) (data.offset, data.init)
          (after.map fun d => (d.offset, d.init)) value
          (by simp only [data_segments, hsplit, List.map_append, List.map_cons])
          (by rw [hoff]; exact hev)
          (by simp only [covers]; omega)
          (by
            intro later hl o ho
            simp only [List.mem_map] at hl
            obtain ⟨d, hd2, rfl⟩ := hl
            exact hlater d hd2 o ho)
        rw [h]
        simp only [Nat.add_sub_cancel_left]

/-- A concrete instance of `offset_from_immutable_global`: the unit tests
`element_section_offset_from_global`,
`element_section_offset_from_imported_global` and
`data_section_offset_from_global`. -/
theorem offset_from_immutable_global_witness :
    (∃ inst, (instantiate execute module_element_offset_from_global [] [] [] []).result
        = .ok inst ∧
      (∃ table, inst.table = some table ∧ table[1]? = some (some 170)) ∧
      (∃ table, inst.table = some table ∧ table[2]? = some (some 255))) ∧
    (∃ inst, (instantiate execute module_element_offset_from_imported_global [] [] []
        [⟨some 1, false⟩]).result = .ok inst ∧
      (∃ table, inst.table = some table ∧ table[1]? = some (some 170)) ∧
      (∃ table, inst.table = some table ∧ table[2]? = some (some 255))) ∧
    (∃ inst, (instantiate execute module_data_offset_from_global [] [] [] []).result
        = .ok inst ∧
      (∃ memory, inst.memory = some memory ∧ memory[42]? = some 170) ∧
      (∃ memory, inst.memory = some memory ∧ memory[43]? = some 255)) :=
  have ha1 : allocate module_element_offset_from_global [] [] [] []
      = .ok { bare_instance module_element_offset_from_global with
              globals := [1]
              table := some [none, none, none, none] } := by decide
  have hok1 : (instantiate execute module_element_offset_from_global [] [] [] []).result
      = .ok { bare_instance module_element_offset_from_global with
              globals := [1]
              table := some [none, some 170, some 255, none] } := by decide
  have h1 := ((offset_from_immutable_global execute module_element_offset_from_global
    [] [] [] [] _ 0 ha1).2.2 _ 1 hok1 (by decide)).1 [] ⟨.GlobalGet 0, [170, 255]⟩ [] rfl rfl
    (fun func_idx before _ => execute_table before func_idx [])
  have ha2 : allocate module_element_offset_from_imported_global [] [] [] [⟨some 1, false⟩]
      = .ok { bare_instance module_element_offset_from_imported_global with
              imported_globals := [⟨some 1, false⟩]
              table := some [none, none, none, none] } := by decide
  have hok2 : (instantiate execute module_element_offset_from_imported_global [] [] []
      [⟨some 1, false⟩]).result
      = .ok { bare_instance module_element_offset_from_imported_global with
              imported_globals := [⟨some 1, false⟩]
              table := some [none, some 170, some 255, none] } := by decide
  have h2 := ((offset_from_immutable_global execute
    module_element_offset_from_imported_global [] [] [] [⟨some 1, false⟩] _ 0 ha2).2.2 _ 1
    hok2 (by decide)).1 [] ⟨.GlobalGet 0, [170, 255]⟩ [] rfl rfl
    (fun func_idx before _ => execute_table before func_idx [])
  have ha3 : allocate module_data_offset_from_global [] [] [] []
      = .ok instance_data_offset_from_global :=
    allocate_memory_and_global module_data_offset_from_global 1 (some 1) 42 rfl rfl rfl rfl
      (by decide)
  have hf3 : ∃ filled, fill_segments instance_data_offset_from_global = .ok filled :=
    fill_segments_ok_of_valid instance_data_offset_from_global
      (fun element he => by
        simp [instance_data_offset_from_global, module_data_offset_from_global] at he)
      (fun data hd => by
        have hdata : data = ⟨.GlobalGet 0, [170, 255]⟩ := by
          simpa [instance_data_offset_from_global, module_data_offset_from_global] using hd
        subst hdata
        refine ⟨42, by decide, ?_⟩
        show 42 + 2 ≤ (List.replicate (1 * PageSize) 0).length
        rw [List.length_replicate]
        decide)
  match hf3 with
  | ⟨filled, hf⟩ =>
    have hok3 := (instantiate_of_no_start execute module_data_offset_from_global [] [] [] []
      instance_data_offset_from_global filled ha3 hf rfl).1
    have h3 := ((offset_from_immutable_global execute module_data_offset_from_global
      [] [] [] [] instance_data_offset_from_global 0 ha3).2.2 filled 42 hok3 (by decide)).2 []
      ⟨.GlobalGet 0, [170, 255]⟩ [] rfl rfl
      (fun _ _ hs => by simp [module_data_offset_from_global] at hs)
    ⟨⟨_, hok1, h1 0 (by decide) (by simp), h1 1 (by decide) (by simp)⟩,
      ⟨_, hok2, h2 0 (by decide) (by simp), h2 1 (by decide) (by simp)⟩,
      ⟨filled, hok3, h3 0 (by decide) (by simp), h3 1 (by decide) (by simp)⟩⟩

/-! ## The start function -/

theorem run_body_unreachable (rest : List Instr) (inst : Instance) (stack : List Nat) :
    (run_body (.unreachable :: rest) inst stack).1 = true := rfl

theorem execute_unreachable (inst : Instance) (func_idx : Nat) (args : List Nat)
    (rest : List Instr) (himp : inst.imported_functions.length ≤ func_idx)
    (hbody : inst.module.codesec[func_idx - inst.imported_functions.length]?
      = some (.unreachable :: rest)) :
    (execute inst func_idx args).1.trapped = true := by
  simp only [execute, Nat.not_lt.mpr himp, if_false, hbody, run_body]

/-- C27: a trapping start function fails instantiation. For every module with
a start function that traps when it is invoked with no arguments, on the
very instance that `instantiate` has built for it with the imports resolved
and the segments applied: `instantiate` fails and returns no instance, and
the error is `Start function failed to execute` when the stages before the
start function have passed. The function of the interpreter whose body begins
with `unreachable` is such a function. -/
theorem trapping_start_fails
    (exec : Instance → Nat → List Nat → execution_result × Instance) (module : Module)
    (fs : List ExternalFunction) (ts : List ExternalTable) (ms : List ExternalMemory)
    (gs : List ExternalGlobal) (func_idx : Nat)
    (hstart : module.startfunc = some func_idx)
    (htrap : ∀ allocated filled, allocate module fs ts ms gs = .ok allocated →
      fill_segments allocated = .ok filled →
      (exec filled func_idx []).1.trapped = true) :
    (∃ e, (instantiate exec module fs ts ms gs).result = .error e) ∧
    (∀ inst, (instantiate exec module fs ts ms gs).result ≠ .ok inst) ∧
    ((∃ allocated filled, allocate module fs ts ms gs = .ok allocated ∧
        fill_segments allocated = .ok filled) →
      (instantiate exec module fs ts ms gs).result
        = .error ⟨"Start function failed to execute"⟩) ∧
    (∀ (inst : Instance) (rest : List Instr), inst.imported_functions.length ≤ func_idx →
      inst.module.codesec[func_idx - inst.imported_functions.length]?
        = some (.unreachable :: rest) →
      (execute inst func_idx []).1.trapped = true) := by
  have hmsg : ∀ allocated filled, allocate module fs ts ms gs = .ok allocated →
      fill_segments allocated = .ok filled →
      (instantiate exec module fs ts ms gs).result
        = .error ⟨"Start function failed to execute"⟩ := by
    intro allocated filled ha hf
    rw [(instantiate_of_start exec module fs ts ms gs allocated filled func_idx ha hf hstart).1,
      htrap allocated filled ha hf]
    rfl
  have hfail : ∃ e, (instantiate exec module fs ts ms gs).result = .error e := by
    cases ha : allocate module fs ts ms gs with
    | error e => exact ⟨e, (instantiate_of_allocate_error exec module fs ts ms gs e ha).1⟩
    | ok allocated =>
      cases hf : fill_segments allocated with
      | error e =>
        exact ⟨e, (instantiate_of_fill_error exec module fs ts ms gs allocated e ha hf).1⟩
      | ok filled => exact ⟨_, hmsg allocated filled ha hf⟩
  refine ⟨hfail, ?_, ?_, ?_⟩
  · intro inst hok
    obtain ⟨e, he⟩ := hfail
    rw [he] at hok
    simp at hok
  · rintro ⟨allocated, filled, ha, hf⟩
    exact hmsg allocated filled ha hf
  · intro inst rest himp hbody
    exact execute_unreachable inst func_idx [] rest himp hbody

/-- A concrete instance of `trapping_start_fails`: the module of the unit test
`start_unreachable`, whose start function has the body `unreachable`. -/
theorem trapping_start_fails_witness :
    (instantiate execute module_start_unreachable [] [] [] []).result
      = .error ⟨"Start function failed to execute"⟩ :=
  have ha : allocate module_start_unreachable [] [] [] []
      = .ok (bare_instance module_start_unreachable) := by decide
  have hf : fill_segments (bare_instance module_start_unreachable)
      = .ok (bare_instance module_start_unreachable) := by decide
  (trapping_start_fails execute module_start_unreachable [] [] [] [] 0 rfl
    (fun allocated filled h1 h2 => by
      rw [ha] at h1
      cases h1
      rw [hf] at h2
      cases h2
      decide)).2.2.1 ⟨_, _, ha, hf⟩

/-! ## Segment application is all or nothing -/

theorem fill_segments_error_element (inst : Instance)
    (hev : ∀ element ∈ inst.module.elementsec, ∃ offset,
      eval_constant_expression element.offset inst.imported_globals inst.module.globalsec
        inst.globals = .ok offset)
    (hoob : ∃ element ∈ inst.module.elementsec, ∃ offset,
      eval_constant_expression element.offset inst.imported_globals inst.module.globalsec
        inst.globals = .ok offset ∧
      storage_size inst.table < offset + element.init.length) :
    fill_segments inst = .error ⟨"Element segment is out of table bounds"⟩ := by
  obtain ⟨element, hmem, offset, ho, hlt⟩ := hoob
  obtain ⟨e, he⟩ := check_segments_error_of_out_of_bounds inst.imported_globals
    inst.module.globalsec inst.globals (storage_size inst.table)
    ⟨"Element segment is out of table bounds"⟩ (element_segments inst.module)
    ⟨(element.offset, element.init.map some),
      by simp only [element_segments, List.mem_map]; exact ⟨element, hmem, rfl⟩,
      offset, ho, by simpa using hlt⟩
  have hmsg := check_segments_error_message _ _ _ _ _ _ e he (by
    intro x hx
    simp only [element_segments, List.mem_map] at hx
    obtain ⟨el, hm, rfl⟩ := hx
    exact hev el hm)
  rw [fill_segments_eq, he, hmsg]

theorem fill_segments_error_data (inst : Instance)
    (hel : ∀ element ∈ inst.module.elementsec, ∃ offset,
      eval_constant_expression element.offset inst.imported_globals inst.module.globalsec
        inst.globals = .ok offset ∧ offset + element.init.length ≤ storage_size inst.table)
    (hev : ∀ data ∈ inst.module.datasec, ∃ offset,
      eval_constant_expression data.offset inst.imported_globals inst.module.globalsec
        inst.globals = .ok offset)
    (hoob : ∃ data ∈ inst.module.datasec, ∃ offset,
      eval_constant_expression data.offset inst.imported_globals inst.module.globalsec
        inst.globals = .ok offset ∧
      storage_size inst.memory < offset + data.init.length) :
    fill_segments inst = .error ⟨"Data segment is out of memory bounds"⟩ := by
  obtain ⟨elements, hels⟩ := check_segments_ok_of_valid inst.imported_globals
    inst.module.globalsec inst.globals (storage_size inst.table)
    ⟨"Element segment is out of table bounds"⟩ (element_segments inst.module) (by
      intro x hx
      simp only [element_segments, List.mem_map] at hx
      obtain ⟨element, hmem, rfl⟩ := hx
      obtain ⟨o, ho, hle⟩ := hel element hmem
      exact ⟨o, ho, by simpa using hle⟩)
  obtain ⟨data, hmem, offset, ho, hlt⟩ := hoob
  obtain ⟨e, he⟩ := check_segments_error_of_out_of_bounds inst.imported_globals
    inst.module.globalsec inst.globals (storage_size inst.memory)
    ⟨"Data segment is out of memory bounds"⟩ (data_segments inst.module)
    ⟨(data.offset, data.init),
      by simp only [data_segments, List.mem_map]; exact ⟨data, hmem, rfl⟩,
      offset, ho, hlt⟩
  have hmsg := check_segments_error_message _ _ _ _ _ _ e he (by
    intro x hx
    simp only [data_segments, List.mem_map] at hx
    obtain ⟨d, hm, rfl⟩ := hx
    exact hev d hm)
  rw [fill_segments_eq, hels]
  simp only [he, hmsg]

theorem eq_of_map_eq_self {α : Type} (f : α → α) (l : List α) (h : l.map f = l) :
    ∀ x ∈ l, f x = x := by
  induction l with
  | nil => intro x hx; simp at hx
  | cons y rest ih =>
    intro x hx
    simp only [List.map_cons, List.cons.injEq] at h
    rcases List.mem_cons.mp hx with rfl | hr
    · exact h.1
    · exact ih h.2 x hr

theorem allocate_shares_storage (module : Module) (fs : List ExternalFunction)
    (ts : List ExternalTable) (ms : List ExternalMemory) (gs : List ExternalGlobal)
    (allocated : Instance) (ha : allocate module fs ts ms gs = .ok allocated) :
    (∀ t ∈ ts, t.table = allocated.table) ∧ (∀ m ∈ ms, m.data = allocated.memory) ∧
    shared_tables allocated ts = ts ∧ shared_memories allocated ms = ms := by
  obtain ⟨_, _, _, _, htable, hmemory, _⟩ := allocate_ok module fs ts ms gs allocated ha
  have h1 := shared_tables_of_allocate_table module.tablesec ts allocated htable
  have h2 := shared_memories_of_allocate_memory module.memorysec ms allocated hmemory
  refine ⟨?_, ?_, h1, h2⟩
  · intro t ht
    have := eq_of_map_eq_self _ ts h1 t ht
    exact (congrArg ExternalTable.table this).symm
  · intro m hm
    have := eq_of_map_eq_self _ ms h2 m hm
    exact (congrArg ExternalMemory.data this).symm

theorem allocate_data_error (memory : bytes) (hlen : memory.length = PageSize) :
    allocate module_data_error [] [⟨some [none, none, none], ⟨3, none⟩⟩]
        [⟨some memory, ⟨1, some 1⟩⟩] []
      = .ok { module := module_data_error
              memory := some memory
              memory_max_pages := 1
              table := some [none, none, none]
              globals := []
              imported_functions := []
              imported_globals := [] } := by
  have h1 : match_imported_memories [⟨⟨1, none⟩⟩] [⟨some memory, ⟨1, some 1⟩⟩] = .ok () :=
    (match_imported_memories_ok _ _ _).mpr ⟨⟨⟨1, none⟩⟩, [], memory, rfl, by decide, rfl,
      by simp only [hlen]; decide, fun mx h => by
        simp only [Option.some.injEq] at h
        subst h
        exact ⟨by rw [hlen]; decide, by decide⟩⟩
  have h2 : match_imported_tables [⟨⟨3, none⟩⟩] [⟨some [none, none, none], ⟨3, none⟩⟩]
      = .ok () := by decide
  simp [allocate, imported_function_types, imported_table_types, imported_memory_types,
    imported_globals_mutability, module_data_error, match_imported_functions,
    match_function_types, h1, h2, match_imported_globals,
    match_global_types, allocate_table, allocate_memory, init_globals]

/-- C13: segment application is atomic. Take any module and imports for which
the resolution of the imports and the allocation pass; the table and the
memory of the instance are then the ones that the host has provided. If any
element segment is out of the bounds of the table or any data segment is out
of the bounds of the memory, wherever it is declared and whether or not other
segments of either kind are in bounds, then the segment stage ends with an
error and leaves the instance as it was, with nothing written; the call of
`instantiate` fails with this error; and every imported table and every
imported memory that the host holds after the call is what it was before the
call, entry for entry and byte for byte.
When every offset expression has a value, the error is `Element segment is out
of table bounds` if an element segment is out of bounds and every data segment
is in bounds, `Data segment is out of memory bounds` if a data segment is out
of bounds and every element segment is in bounds, and one of the two if
segments of both kinds are out of bounds. -/
theorem segment_atomicity
    (exec : Instance → Nat → List Nat → execution_result × Instance) (module : Module)
    (fs : List ExternalFunction) (ts : List ExternalTable) (ms : List ExternalMemory)
    (gs : List ExternalGlobal) (allocated : Instance)
    (ha : allocate module fs ts ms gs = .ok allocated)
    (hoob : (∃ element ∈ module.elementsec, ∃ offset,
          eval_constant_expression element.offset gs module.globalsec allocated.globals
            = .ok offset ∧
          storage_size allocated.table < offset + element.init.length) ∨
        (∃ data ∈ module.datasec, ∃ offset,
          eval_constant_expression data.offset gs module.globalsec allocated.globals
            = .ok offset ∧
          storage_size allocated.memory < offset + data.init.length)) :
    ∃ e, segment_stage allocated = (some e, allocated) ∧
      (∀ t ∈ ts, t.table = allocated.table) ∧
      (∀ m ∈ ms, m.data = allocated.memory) ∧
      (instantiate exec module fs ts ms gs).result = .error e ∧
      (instantiate exec module fs ts ms gs).imported_tables = ts ∧
      (instantiate exec module fs ts ms gs).imported_memories = ms ∧
      ((∀ element ∈ module.elementsec, ∃ offset,
          eval_constant_expression element.offset gs module.globalsec allocated.globals
            = .ok offset) →
        (∀ data ∈ module.datasec, ∃ offset,
          eval_constant_expression data.offset gs module.globalsec allocated.globals
            = .ok offset) →
        e.message = "Element segment is out of table bounds" ∨
          e.message = "Data segment is out of memory bounds") ∧
      ((∀ element ∈ module.elementsec, ∃ offset,
          eval_constant_expression element.offset gs module.globalsec allocated.globals
            = .ok offset) →
        (∃ element ∈ module.elementsec, ∃ offset,
          eval_constant_expression element.offset gs module.globalsec allocated.globals
            = .ok offset ∧
          storage_size allocated.table < offset + element.init.length) →
        (∀ data ∈ module.datasec, ∃ offset,
          eval_constant_expression data.offset gs module.globalsec allocated.globals
            = .ok offset ∧ offset + data.init.length ≤ storage_size allocated.memory) →
        e.message = "Element segment is out of table bounds") ∧
      ((∀ element ∈ module.elementsec, ∃ offset,
          eval_constant_expression element.offset gs module.globalsec allocated.globals
            = .ok offset ∧ offset + element.init.length ≤ storage_size allocated.table) →
        (∀ data ∈ module.datasec, ∃ offset,
          eval_constant_expression data.offset gs module.globalsec allocated.globals
            = .ok offset) →
        (∃ data ∈ module.datasec, ∃ offset,
          eval_constant_expression data.offset gs module.globalsec allocated.globals
            = .ok offset ∧
          storage_size allocated.memory < offset + data.init.length) →
        e.message = "Data segment is out of memory bounds") := by
  obtain ⟨_, _, _, _, _, _, _, hmod, _, hgs⟩ := allocate_ok module fs ts ms gs allocated ha
  obtain ⟨htab, hmem, _, _⟩ := allocate_shares_storage module fs ts ms gs allocated ha
  obtain ⟨e, he, hmsg⟩ := fill_segments_error_of_out_of_bounds allocated
    (by rw [hmod, hgs]; exact hoob)
  rw [hmod, hgs] at hmsg
  obtain ⟨hr, ht, hm⟩ := instantiate_of_fill_error exec module fs ts ms gs allocated e ha he
  refine ⟨e, segment_stage_of_fill_error allocated e he, htab, hmem, hr, ht, hm, hmsg, ?_, ?_⟩
  · intro hev hel _
    have h := fill_segments_error_element allocated (by rw [hmod, hgs]; exact hev)
      (by rw [hmod, hgs]; exact hel)
    rw [he, Except.error.injEq] at h
    rw [h]
  · intro hel hev hdata
    have h := fill_segments_error_data allocated (by rw [hmod, hgs]; exact hel)
      (by rw [hmod, hgs]; exact hev) (by rw [hmod, hgs]; exact hdata)
    rw [he, Except.error.injEq] at h
    rw [h]

/-- Two concrete instances of `segment_atomicity`. In the unit test
`element_section_out_of_bounds_doesnt_change_imported_table` the imported
table holds an entry at index 0 and the first element segment is in bounds: the
error is the one of the element segments and the table is as it was. In the
first half of the unit test `data_elem_section_errors_dont_change_imports` the
element segment and the first data segment are in bounds: the error is the one
of the data segments, and the table and the memory of one page are as they
were. -/
theorem segment_atomicity_witness :
    (∃ e, (instantiate execute module_element_out_of_bounds []
        [⟨some [some 187, none, none], ⟨3, none⟩⟩] [] []).result = .error e ∧
      e.message = "Element segment is out of table bounds" ∧
      (instantiate execute module_element_out_of_bounds []
        [⟨some [some 187, none, none], ⟨3, none⟩⟩] [] []).imported_tables
        = [⟨some [some 187, none, none], ⟨3, none⟩⟩]) ∧
    (∃ e, (instantiate execute module_data_error [] [⟨some [none, none, none], ⟨3, none⟩⟩]
        [⟨some (List.replicate PageSize 0), ⟨1, some 1⟩⟩] []).result = .error e ∧
      e.message = "Data segment is out of memory bounds" ∧
      (instantiate execute module_data_error [] [⟨some [none, none, none], ⟨3, none⟩⟩]
        [⟨some (List.replicate PageSize 0), ⟨1, some 1⟩⟩] []).imported_tables
        = [⟨some [none, none, none], ⟨3, none⟩⟩] ∧
      (instantiate execute module_data_error [] [⟨some [none, none, none], ⟨3, none⟩⟩]
        [⟨some (List.replicate PageSize 0), ⟨1, some 1⟩⟩] []).imported_memories
        = [⟨some (List.replicate PageSize 0), ⟨1, some 1⟩⟩]) :=
  have hlen : (List.replicate PageSize 0 : bytes).length = PageSize := List.length_replicate _ _
  ⟨match segment_atomicity execute module_element_out_of_bounds []
      [⟨some [some 187, none, none], ⟨3, none⟩⟩] [] []
      { module := module_element_out_of_bounds
        memory := none
        memory_max_pages := MemoryPagesLimit
        table := some [some 187, none, none]
        globals := []
        imported_functions := []
        imported_globals := [] }
      (by decide)
      (Or.inl ⟨⟨.Constant 2, [0, 0]⟩, by decide, 2, by decide, by decide⟩) with
    | ⟨e, _, _, _, h1, h2, _, _, h4, _⟩ =>
      ⟨e, h1,
        h4 (by simp [module_element_out_of_bounds, eval_constant_expression])
          ⟨⟨.Constant 2, [0, 0]⟩, by decide, 2, by decide, by decide⟩
          (by simp [module_element_out_of_bounds]),
        h2⟩,
    match segment_atomicity execute module_data_error []
      [⟨some [none, none, none], ⟨3, none⟩⟩]
      [⟨some (List.replicate PageSize 0), ⟨1, some 1⟩⟩] []
      { module := module_data_error
        memory := some (List.replicate PageSize 0)
        memory_max_pages := 1
        table := some [none, none, none]
        globals := []
        imported_functions := []
        imported_globals := [] }
      (allocate_data_error _ hlen)
      (Or.inr ⟨⟨.Constant 65536, [97]⟩, by decide, 65536, by decide,
        by simp [storage_size]⟩) with
    | ⟨e, _, _, _, h1, h2, h3, _, _, h5⟩ =>
      ⟨e, h1,
        h5 (by simp [module_data_error, eval_constant_expression, storage_size])
          (by simp [module_data_error, eval_constant_expression])
          ⟨⟨.Constant 65536, [97]⟩, by decide, 65536, by decide, by simp [storage_size]⟩,
        h2, h3⟩⟩

/-! ## The harness: decimal strings -/

theorem digitChar_toNat (d : Nat) (hd : d < 10) : (Nat.digitChar d).toNat = 48 + d := by
  interval_cases d <;> rfl

theorem isdigit_digitChar (d : Nat) (hd : d < 10) : isdigit (Nat.digitChar d) = true := by
  interval_cases d <;> rfl

theorem isspace_digitChar (d : Nat) (hd : d < 10) : isspace (Nat.digitChar d) = false := by
  interval_cases d <;> rfl

theorem digitChar_ne_sign (d : Nat) (hd : d < 10) :
    Nat.digitChar d ≠ '-' ∧ Nat.digitChar d ≠ '+' := by
  interval_cases d <;> decide

theorem foldl_digits (ds : List Nat) (hds : ∀ d ∈ ds, d < 10) :
    ∀ acc : Nat, (ds.map Nat.digitChar).foldl (fun acc c => 10 * acc + (c.toNat - 48)) acc
      = acc * 10 ^ ds.length + Nat.ofDigits 10 ds.reverse := by
  induction ds with
  | nil => intro acc; simp
  | cons d t ih =>
    intro acc
    have hd : d < 10 := hds d (List.mem_cons_self _ _)
    have ht : ∀ x ∈ t, x < 10 := fun x hx => hds x (List.mem_cons_of_mem _ hx)
    simp only [List.map_cons, List.foldl_cons, digitChar_toNat d hd, Nat.add_sub_cancel_left,
      ih ht, List.reverse_cons, Nat.ofDigits_append, Nat.ofDigits_singleton, List.length_reverse,
      List.length_cons]
    ring

theorem stoull_digits (ds : List Nat) (hne : ds ≠ []) (hds : ∀ d ∈ ds, d < 10) :
    stoull ⟨ds.map Nat.digitChar⟩
      = if WORD ≤ Nat.ofDigits 10 ds.reverse then .error .out_of_range
        else .ok (Nat.ofDigits 10 ds.reverse) := by
  obtain ⟨d, t, rfl⟩ := List.exists_cons_of_ne_nil hne
  have hd : d < 10 := hds d (List.mem_cons_self _ _)
  have hall : ∀ c ∈ (d :: t).map Nat.digitChar, isdigit c = true := by
    intro c hc
    simp only [List.mem_map] at hc
    obtain ⟨x, hx, rfl⟩ := hc
    exact isdigit_digitChar x (hds x hx)
  have htake : ((d :: t).map Nat.digitChar).takeWhile isdigit = (d :: t).map Nat.digitChar :=
    List.takeWhile_eq_self_iff.mpr hall
  have hfold := foldl_digits (d :: t) hds 0
  simp only [Nat.zero_mul, Nat.zero_add] at hfold
  have hskip : ((d :: t).map Nat.digitChar).dropWhile isspace = (d :: t).map Nat.digitChar := by
    simp only [List.map_cons, List.dropWhile_cons, isspace_digitChar d hd, Bool.false_eq_true,
      if_false]
  have hhead : ((d :: t).map Nat.digitChar).head? = some (Nat.digitChar d) := rfl
  simp only [stoull, hskip, hhead, Option.some.injEq, (digitChar_ne_sign d hd).1,
    (digitChar_ne_sign d hd).2, or_self, if_false, htake, hfold]
  simp

theorem toDigitsCore_digits (fuel : Nat) :
    ∀ (n : Nat) (acc : List Char), n < fuel →
      ∃ ds : List Nat, Nat.toDigitsCore 10 fuel n acc = ds.map Nat.digitChar ++ acc ∧
        ds ≠ [] ∧ (∀ d ∈ ds, d < 10) ∧ Nat.ofDigits 10 ds.reverse = n := by
  induction fuel with
  | zero => intro n acc h; omega
  | succ fuel ih =>
    intro n acc hn
    simp only [Nat.toDigitsCore]
    by_cases h0 : n / 10 = 0
    · simp only [h0, if_true]
      refine ⟨[n % 10], by simp, by simp, by simp; omega, ?_⟩
      simp only [List.reverse_singleton, Nat.ofDigits_singleton]
      omega
    · simp only [h0, if_false]
      obtain ⟨ds, h1, _, h3, h4⟩ := ih (n / 10) (Nat.digitChar (n % 10) :: acc) (by omega)
      refine ⟨ds ++ [n % 10], by simp [h1], by simp, ?_, ?_⟩
      · intro d hd
        simp only [List.mem_append, List.mem_singleton] at hd
        rcases hd with hd | rfl
        · exact h3 d hd
        · omega
      · simp only [List.reverse_append, List.reverse_singleton, List.singleton_append,
          Nat.ofDigits_cons, h4]
        omega

theorem toString_digits (n : Nat) :
    ∃ ds : List Nat, toString n = ⟨ds.map Nat.digitChar⟩ ∧ ds ≠ [] ∧ (∀ d ∈ ds, d < 10) ∧
      Nat.ofDigits 10 ds.reverse = n := by
  obtain ⟨ds, h1, h2, h3, h4⟩ := toDigitsCore_digits (n + 1) n [] (by omega)
  refine ⟨ds, ?_, h2, h3, h4⟩
  show Nat.repr n = _
  simp only [Nat.repr, Nat.toDigits, h1, List.append_nil, List.asString]

/-- C28: the harness converts JSON integers by width. For every string of
decimal digits that denotes a natural number `n` below `2^64`, leading zeros
allowed, and in particular for the decimal numeral of every `n` below `2^64`:
`json_to_value<int32_t>` returns `n mod 2^32`, a value below `2^32` held in a
`uint64_t`, and `json_to_value<int64_t>` returns `n` itself. -/
theorem json_to_value_by_width :
    (∀ ds : List Nat, ds ≠ [] → (∀ d ∈ ds, d < 10) → Nat.ofDigits 10 ds.reverse < 2 ^ 64 →
      json_to_value .int32_t (.string ⟨ds.map Nat.digitChar⟩)
        = .ok (Nat.ofDigits 10 ds.reverse % 2 ^ 32) ∧
      json_to_value .int64_t (.string ⟨ds.map Nat.digitChar⟩)
        = .ok (Nat.ofDigits 10 ds.reverse)) ∧
    (∀ n : Nat, n < 2 ^ 64 →
      json_to_value .int32_t (.string (toString n)) = .ok (n % 2 ^ 32) ∧
      n % 2 ^ 32 < 2 ^ 32 ∧
      json_to_value .int64_t (.string (toString n)) = .ok n) := by
  have key : ∀ ds : List Nat, ds ≠ [] → (∀ d ∈ ds, d < 10) →
      Nat.ofDigits 10 ds.reverse < 2 ^ 64 →
      json_to_value .int32_t (.string ⟨ds.map Nat.digitChar⟩)
        = .ok (Nat.ofDigits 10 ds.reverse % 2 ^ 32) ∧
      json_to_value .int64_t (.string ⟨ds.map Nat.digitChar⟩)
        = .ok (Nat.ofDigits 10 ds.reverse) := by
    intro ds hne hds hlt
    have hw : ¬ WORD ≤ Nat.ofDigits 10 ds.reverse := by
      simp only [WORD]; omega
    simp only [json_to_value, json.get_string, stoull_digits ds hne hds, hw, if_false,
      IntType.bits, Except.ok.injEq]
    constructor
    · simp only [WORD]; omega
    · simp only [WORD]; omega
  refine ⟨key, ?_⟩
  intro n hn
  obtain ⟨ds, h1, h2, h3, h4⟩ := toString_digits n
  have := key ds h2 h3 (by rw [h4]; exact hn)
  rw [h4, ← h1] at this
  exact ⟨this.1, Nat.mod_lt _ (by decide), this.2⟩

/-- A concrete instance of `json_to_value_by_width`: the string `4294967297`,
which denotes `2^32 + 1`, and the string `007` with leading zeros. -/
theorem json_to_value_by_width_witness :
    (json_to_value .int32_t (.string "4294967297") = .ok 1 ∧
      json_to_value .int64_t (.string "4294967297") = .ok 4294967297) ∧
    (json_to_value .int32_t (.string "007") = .ok 7 ∧
      json_to_value .int64_t (.string "007") = .ok 7) :=
  ⟨⟨(json_to_value_by_width.2 4294967297 (by decide)).1,
      (json_to_value_by_width.2 4294967297 (by decide)).2.2⟩,
    json_to_value_by_width.1 [0, 0, 7] (by decide) (by decide) (by decide)⟩

namespace OperandStack

/-! ## The list of the live slots -/

theorem take_set_self (st : List Nat) (n x : Nat) : (st.set n x).take n = st.take n := by
  apply List.ext_getElem?
  intro i
  rw [List.getElem?_take, List.getElem?_take]
  split
  · next h => rw [List.getElem?_set_ne (by omega)]
  · rfl

theorem take_succ_set (st : List Nat) (n x : Nat) (hn : n < st.length) :
    (st.set n x).take (n + 1) = st.take n ++ [x] := by
  rw [List.take_succ, take_set_self, List.getElem?_set_self hn]
  rfl

theorem getLast?_take_getD (st : List Nat) (n : Nat) (hn : 0 < n) (hl : n ≤ st.length) :
    (st.take n).getLast? = some (st.getD (n - 1) 0) := by
  rw [List.getLast?_take, if_neg (by omega), List.getD_eq_getElem?_getD,
    List.getElem?_eq_getElem (by omega)]
  rfl

theorem dropLast_take_pred (st : List Nat) (n : Nat) (hl : n ≤ st.length) :
    (st.take n).dropLast = st.take (n - 1) := by
  rw [List.dropLast_eq_take, List.take_take, List.length_take]
  congr 1
  omega

theorem live_slots_with_height (base : Nat) (st : List Nat) (n : Nat)
    (hl : SLOT * st.length < WORD / 2) (hn : n ≤ st.length) :
    (with_height base st n).live_slots = st.take n := by
  simp only [live_slots, size_with_height_of_le base st n hl hn]
  rfl

theorem drop_take (st : List Nat) (n k : Nat) (hl : SLOT * st.length < WORD / 2)
    (hn : n ≤ st.length) (hk : k ≤ n) :
    (Stack.drop ⟨st.take n⟩ (n - k)).items = st.take k := by
  have hsz : (Stack.mk (st.take n)).size = n := by
    simp only [Stack.size, List.length_take]
    omega
  have harith : (n + WORD - (n - k) % WORD) % WORD = k := by
    simp only [WORD, SLOT] at *
    omega
  simp only [Stack.drop, hsz, harith, Stack.resize, List.take_take, List.length_take]
  rw [Nat.min_eq_left hk, Nat.min_eq_left hn, Nat.sub_eq_zero_of_le hk]
  simp

/-- C29: the below-base pointer arithmetic is consistent modulo `2^64`. On
every stack, `shrink(0)` computes `0 - 1` in `size_t`, which wraps to `2^64 -
1`; adding that many 8-byte slots to the base gives the address one slot below
the base, the top pointer that the constructor sets; one slot above that
pointer is the base again, and `size()`, the difference `(top + 1) - base`, is
0. On a stack that satisfies the class invariant, for every `n` from 1 to
`size()`, `shrink(n)` computes `n - 1` without wrap, the byte offset of the top
slot is below `2^64`, the top pointer is `base + 8 * (n - 1)` exactly if the
array lies inside the address space, it designates slot `n - 1` of the array,
and `size()` is `n`. -/
theorem below_base_arithmetic (s : OperandStack) :
    (∃ s1, s.shrink 0 = .ok s1 ∧
      s1.m_top = ptr_add s.base ((0 + WORD - 1) % WORD) ∧
      ptr_add s.base ((0 + WORD - 1) % WORD) = ptr_add s.base (WORD - 1) ∧
      ptr_add s.base (WORD - 1) = ptr_sub s.base 1 ∧
      s1.m_top = (new s.base s.max_height).m_top ∧
      ptr_add s1.m_top 1 = s.base % WORD ∧
      s1.size = ptr_diff (ptr_add s1.m_top 1) s1.base ∧ s1.size = 0) ∧
    (∀ n, 1 ≤ n → Inv s → n ≤ s.size →
      ∃ s1, s.shrink n = .ok s1 ∧
        s1.m_top = ptr_add s.base ((n + WORD - 1) % WORD) ∧
        (n + WORD - 1) % WORD = n - 1 ∧ SLOT * (n - 1) < WORD ∧
        (s.base + SLOT * s.max_height ≤ WORD → s1.m_top = s.base + SLOT * (n - 1)) ∧
        s1.slot_of s1.m_top = .ok (n - 1) ∧
        s1.size = ptr_diff (ptr_add s1.m_top 1) s1.base ∧ s1.size = n) := by
  constructor
  · obtain ⟨top0, st, b⟩ := s
    have hsh : shrink ⟨top0, st, b⟩ 0 = .ok (with_height b st 0) := by
      simp only [shrink, with_height, ptr_add, WORD, SLOT, Nat.zero_le, not_true_eq_false,
        if_false, Except.ok.injEq, mk.injEq, and_true]
      omega
    refine ⟨with_height b st 0, hsh, ?_, rfl, ?_, ?_, ?_, rfl,
      size_with_height b st 0 (by decide)⟩
    · simp only [with_height, ptr_add, WORD, SLOT]
      omega
    · simp only [ptr_add, ptr_sub, WORD, SLOT]
      omega
    · simp only [new, with_height, ptr_sub, WORD, SLOT]
    · simp only [with_height, ptr_add, WORD, SLOT]
      omega
  · intro n h1 hs hn
    obtain ⟨b, st, m, hl, hm, rfl⟩ := exists_with_height hs
    rw [size_with_height_of_le b st m hl hm] at hn
    have hnl : n ≤ st.length := Nat.le_trans hn hm
    refine ⟨with_height b st n, shrink_with_height b st m n hl hm hn, ?_, ?_, ?_, ?_, ?_, rfl,
      size_with_height_of_le b st n hl hnl⟩
    · simp only [with_height, ptr_add, WORD, SLOT] at *
      omega
    · simp only [WORD, SLOT] at *
      omega
    · simp only [WORD, SLOT] at *
      omega
    · intro hfit
      simp only [with_height, max_height, WORD, SLOT] at *
      omega
    · have h := slot_of_with_height b st n 0 hl hnl (by omega)
      rw [ptr_sub_zero _ (m_top_with_height_lt b st n)] at h
      exact h

/-- A concrete instance of `below_base_arithmetic`: a stack of height 3 and
max height 4 at address 4096 is shrunk to height 2; the top pointer is then
`4096 + 8`. -/
theorem below_base_arithmetic_witness :
    ∃ s1, (with_height 4096 [5, 6, 7, 0] 3).shrink 2 = .ok s1 ∧ s1.m_top = 4096 + SLOT * (2 - 1) ∧
      s1.slot_of s1.m_top = .ok (2 - 1) ∧ s1.size = 2 :=
  match (below_base_arithmetic (with_height 4096 [5, 6, 7, 0] 3)).2 2 (by decide) (by decide)
      (by decide) with
  | ⟨s1, h1, _, _, _, h5, h6, _, h8⟩ => ⟨s1, h1, h5 (by decide), h6, h8⟩

/-- C30: `OperandStack` refines a plain list stack. Let the abstraction of an
`OperandStack` be the list of its live slots from bottom to top, the item that
`stack[i]` reads being the one at position `size() - 1 - i` of the list. On
every stack that satisfies the class invariant, and for every call made within
its precondition, `size` and `empty` agree with those of `Stack<uint64_t>` on
the abstraction; `push`, `pop` and `top` succeed, return what `push`, `pop`
and `top` of `Stack<uint64_t>` return and lead to the stack whose abstraction
is the list stack after the same call; `shrink(n)` does so for
`drop(size() - n)`; and the class invariant holds afterwards. -/
theorem refines_list_stack (s : OperandStack) (hs : Inv s) :
    (Stack.mk s.live_slots).size = s.size ∧
    ((Stack.mk s.live_slots).empty = true ↔ s.size = 0) ∧
    (∀ i, i < s.size → s.index i = .ok (s.live_slots.getD (s.size - 1 - i) 0, s)) ∧
    (∀ x, s.size < s.max_height →
      ∃ s1, s.push x = .ok s1 ∧ Inv s1 ∧
        Stack.mk s1.live_slots = (Stack.mk s.live_slots).push x) ∧
    (s.size ≠ 0 →
      ∃ v s1, s.pop = .ok (v, s1) ∧ Inv s1 ∧
        (Stack.mk s.live_slots).pop = some (v, Stack.mk s1.live_slots)) ∧
    (s.size ≠ 0 →
      ∃ v, s.top = .ok (v, s) ∧
        (Stack.mk s.live_slots).top = some (v, Stack.mk s.live_slots)) ∧
    (∀ n, n ≤ s.size →
      ∃ s1, s.shrink n = .ok s1 ∧ Inv s1 ∧
        Stack.mk s1.live_slots = (Stack.mk s.live_slots).drop (s.size - n)) := by
  obtain ⟨b, st, n, hl, hn, rfl⟩ := exists_with_height hs
  rw [size_with_height_of_le b st n hl hn, live_slots_with_height b st n hl hn]
  have hlen : (st.take n).length = n := by rw [List.length_take]; omega
  refine ⟨hlen, ?_, ?_, ?_, ?_, ?_, ?_⟩
  · simp only [Stack.empty, List.isEmpty_iff, ← List.length_eq_zero, hlen]
  · intro i hi
    rw [index_with_height b st n i hl hn hi]
    simp only [List.getD_eq_getElem?_getD, List.getElem?_take]
    rw [if_pos (by omega)]
  · intro x hlt
    have hlt2 : n < st.length := hlt
    refine ⟨_, push_with_height b st n x hl hlt2,
      inv_with_height b _ (n + 1) (by rw [List.length_set]; exact hl)
        (by rw [List.length_set]; exact hlt2), ?_⟩
    rw [live_slots_with_height b _ (n + 1) (by rw [List.length_set]; exact hl)
      (by rw [List.length_set]; exact hlt2), take_succ_set st n x hlt2]
    rfl
  · intro h0
    have hpos : 0 < n := Nat.pos_of_ne_zero h0
    refine ⟨_, _, pop_with_height b st n hl hn hpos,
      inv_with_height b st (n - 1) hl (by omega), ?_⟩
    rw [live_slots_with_height b st (n - 1) hl (by omega)]
    simp only [Stack.pop, Stack.top, getLast?_take_getD st n hpos hn,
      dropLast_take_pred st n hn]
  · intro h0
    have hpos : 0 < n := Nat.pos_of_ne_zero h0
    refine ⟨_, top_with_height b st n hl hn hpos, ?_⟩
    simp only [Stack.top, getLast?_take_getD st n hpos hn]
  · intro k hk
    refine ⟨_, shrink_with_height b st n k hl hn hk,
      inv_with_height b st k hl (Nat.le_trans hk hn), ?_⟩
    rw [live_slots_with_height b st k hl (Nat.le_trans hk hn)]
    have h := drop_take st n k hl hn hk
    cases hd : Stack.drop ⟨st.take n⟩ (n - k) with
    | mk items =>
      rw [hd] at h
      simp only at h
      rw [h]

/-- A concrete instance of `refines_list_stack`: the stack of height 2 and
max height 3 that holds 5 and 6; its abstraction is `[5, 6]`. -/
theorem refines_list_stack_witness :
    (with_height 4096 [5, 6, 9] 2).live_slots = [5, 6] ∧
    (∃ s1, (with_height 4096 [5, 6, 9] 2).push 7 = .ok s1 ∧ s1.live_slots = [5, 6, 7]) ∧
    (∃ s1, (with_height 4096 [5, 6, 9] 2).pop = .ok (6, s1) ∧ s1.live_slots = [5]) ∧
    (∃ s1, (with_height 4096 [5, 6, 9] 2).shrink 1 = .ok s1 ∧ s1.live_slots = [5]) :=
  have h := refines_list_stack (with_height 4096 [5, 6, 9] 2) (by decide)
  ⟨by decide,
    match h.2.2.2.1 7 (by decide) with
    | ⟨s1, h1, _, h3⟩ => ⟨s1, h1, congrArg Stack.items h3⟩,
    match h.2.2.2.2.1 (by decide) with
    | ⟨v, s1, h1, _, h3⟩ =>
      have hv : some (v, Stack.mk s1.live_slots) = some (6, Stack.mk [5]) := h3.symm.trans (by decide)
      ⟨s1, by
        simp only [Option.some.injEq, Prod.mk.injEq] at hv
        rw [h1, hv.1], by
        simp only [Option.some.injEq, Prod.mk.injEq, Stack.mk.injEq] at hv
        exact hv.2⟩,
    match h.2.2.2.2.2.2 1 (by decide) with
    | ⟨s1, h1, _, h3⟩ => ⟨s1, h1, (congrArg Stack.items h3).trans (by decide)⟩⟩

/-! ## `shrink` composes, and the slots above the top -/

/-- C32: `OperandStack::shrink` composes like truncation. On every stack that
satisfies the class invariant: `shrink(size())` leaves the stack as it is; for
every `m <= n <= size()`, `shrink(n)` followed by `shrink(m)` gives the stack
that `shrink(m)` alone gives; `shrink(n)` followed by `shrink(n)` gives the
stack that `shrink(n)` gives; and after `shrink(n)` the size is `n`, which is
not above the size of before. -/
theorem shrink_composes (s : OperandStack) (hs : Inv s) :
    s.shrink s.size = .ok s ∧
    (∀ m n, m ≤ n → n ≤ s.size →
      ∃ s1 s2, s.shrink n = .ok s1 ∧ s1.shrink m = .ok s2 ∧ s.shrink m = .ok s2 ∧
        s1.shrink n = .ok s1 ∧ s1.size = n ∧ s1.size ≤ s.size ∧ s2.size = m ∧ Inv s1 ∧
        Inv s2) := by
  obtain ⟨b, st, k, hl, hk, rfl⟩ := exists_with_height hs
  rw [size_with_height_of_le b st k hl hk]
  refine ⟨shrink_with_height b st k k hl hk (Nat.le_refl _), ?_⟩
  intro m n hmn hnk
  have hn : n ≤ st.length := Nat.le_trans hnk hk
  have hm : m ≤ st.length := Nat.le_trans hmn hn
  refine ⟨with_height b st n, with_height b st m, shrink_with_height b st k n hl hk hnk,
    shrink_with_height b st n m hl hn hmn,
    shrink_with_height b st k m hl hk (Nat.le_trans hmn hnk),
    shrink_with_height b st n n hl hn (Nat.le_refl _), ?_, ?_, ?_,
    inv_with_height b st n hl hn, inv_with_height b st m hl hm⟩
  · exact size_with_height_of_le b st n hl hn
  · rw [size_with_height_of_le b st n hl hn]; exact hnk
  · exact size_with_height_of_le b st m hl hm

/-- A concrete instance of `shrink_composes`: a stack of height 3 is shrunk to
height 2 and then to height 1. -/
theorem shrink_composes_witness :
    (with_height 4096 [5, 6, 7, 0] 3).shrink 3 = .ok (with_height 4096 [5, 6, 7, 0] 3) ∧
    ∃ s1 s2, (with_height 4096 [5, 6, 7, 0] 3).shrink 2 = .ok s1 ∧ s1.shrink 1 = .ok s2 ∧
      (with_height 4096 [5, 6, 7, 0] 3).shrink 1 = .ok s2 ∧ s1.size = 2 ∧ s2.size = 1 :=
  have h := shrink_composes (with_height 4096 [5, 6, 7, 0] 3) (by decide)
  ⟨h.1,
    match h.2 1 2 (by decide) (by decide) with
    | ⟨s1, s2, h1, h2, h3, _, h5, _, h7, _, _⟩ => ⟨s1, s2, h1, h2, h3, h5, h7⟩⟩

theorem getD_of_take_eq (st1 st2 : List Nat) (n i : Nat) (h : st1.take n = st2.take n)
    (hi : i < n) : st1.getD i 0 = st2.getD i 0 := by
  have h1 : (st1.take n)[i]? = (st2.take n)[i]? := by rw [h]
  rw [List.getElem?_take_of_lt hi, List.getElem?_take_of_lt hi] at h1
  rw [List.getD_eq_getElem?_getD, List.getD_eq_getElem?_getD, h1]

theorem take_of_take_eq (st1 st2 : List Nat) (n k : Nat) (h : st1.take n = st2.take n)
    (hk : k ≤ n) : st1.take k = st2.take k := by
  have h1 : (st1.take n).take k = (st2.take n).take k := by rw [h]
  rw [List.take_take, List.take_take, Nat.min_eq_left hk] at h1
  exact h1

theorem take_set_of_take_eq (st1 st2 : List Nat) (n i v : Nat)
    (h : st1.take n = st2.take n) : (st1.set i v).take n = (st2.set i v).take n := by
  rw [List.set_take, List.set_take, h]

theorem exec_above_top (c : Call) (b1 b2 : Nat) (st1 st2 : List Nat) (n : Nat)
    (hl : SLOT * st1.length < WORD / 2) (hlen : st1.length = st2.length)
    (hn : n ≤ st1.length) (hlive : st1.take n = st2.take n)
    (hp : c.pre (with_height b1 st1 n) = true) :
    c.pre (with_height b2 st2 n) = true ∧
    ∃ r st3 st4 k, c.exec (with_height b1 st1 n) = .ok (r, with_height b1 st3 k) ∧
      c.exec (with_height b2 st2 n) = .ok (r, with_height b2 st4 k) ∧
      st3.length = st1.length ∧ st4.length = st3.length ∧ k ≤ st3.length ∧
      st3.take k = st4.take k := by
  have hl2 : SLOT * st2.length < WORD / 2 := by rw [← hlen]; exact hl
  have hn2 : n ≤ st2.length := by rw [← hlen]; exact hn
  have hsz1 := size_with_height_of_le b1 st1 n hl hn
  have hsz2 := size_with_height_of_le b2 st2 n hl2 hn2
  cases c with
  | push x =>
    simp only [Call.pre, hsz1, hsz2, decide_eq_true_eq] at hp ⊢
    have hlt1 : n < st1.length := hp
    have hlt2 : n < st2.length := by rw [← hlen]; exact hlt1
    refine ⟨hlt2, none, st1.set n x, st2.set n x, n + 1, ?_, ?_, ?_, ?_, ?_, ?_⟩
    · simp only [Call.exec, push_with_height b1 st1 n x hl hlt1]
    · simp only [Call.exec, push_with_height b2 st2 n x hl2 hlt2]
    · rw [List.length_set]
    · rw [List.length_set, List.length_set, hlen]
    · rw [List.length_set]; exact hlt1
    · rw [take_succ_set st1 n x hlt1, take_succ_set st2 n x hlt2, hlive]
  | pop =>
    simp only [Call.pre, hsz1, hsz2, decide_eq_true_eq] at hp ⊢
    have h0 : 0 < n := Nat.pos_of_ne_zero hp
    refine ⟨hp, some (st1.getD (n - 1) 0), st1, st2, n - 1, ?_, ?_, rfl, hlen.symm,
      by omega, take_of_take_eq st1 st2 n (n - 1) hlive (by omega)⟩
    · simp only [Call.exec, pop_with_height b1 st1 n hl hn h0]
    · simp only [Call.exec, pop_with_height b2 st2 n hl2 hn2 h0,
        getD_of_take_eq st1 st2 n (n - 1) hlive (by omega)]
  | top =>
    simp only [Call.pre, hsz1, hsz2, decide_eq_true_eq] at hp ⊢
    have h0 : 0 < n := Nat.pos_of_ne_zero hp
    refine ⟨hp, some (st1.getD (n - 1) 0), st1, st2, n, ?_, ?_, rfl, hlen.symm, hn, hlive⟩
    · simp only [Call.exec, top_with_height b1 st1 n hl hn h0]
    · simp only [Call.exec, top_with_height b2 st2 n hl2 hn2 h0,
        getD_of_take_eq st1 st2 n (n - 1) hlive (by omega)]
  | top_assign v =>
    simp only [Call.pre, hsz1, hsz2, decide_eq_true_eq] at hp ⊢
    have h0 : 0 < n := Nat.pos_of_ne_zero hp
    refine ⟨hp, none, st1.set (n - 1) v, st2.set (n - 1) v, n, ?_, ?_, ?_, ?_, ?_,
      take_set_of_take_eq st1 st2 n (n - 1) v hlive⟩
    · simp only [Call.exec, top_assign_with_height b1 st1 n v hl hn h0]
    · simp only [Call.exec, top_assign_with_height b2 st2 n v hl2 hn2 h0]
    · rw [List.length_set]
    · rw [List.length_set, List.length_set, hlen]
    · rw [List.length_set]; exact hn
  | index i =>
    simp only [Call.pre, hsz1, hsz2, decide_eq_true_eq] at hp ⊢
    refine ⟨hp, some (st1.getD (n - 1 - i) 0), st1, st2, n, ?_, ?_, rfl, hlen.symm, hn,
      hlive⟩
    · simp only [Call.exec, index_with_height b1 st1 n i hl hn hp]
    · simp only [Call.exec, index_with_height b2 st2 n i hl2 hn2 hp,
        getD_of_take_eq st1 st2 n (n - 1 - i) hlive (by omega)]
  | index_assign i v =>
    simp only [Call.pre, hsz1, hsz2, decide_eq_true_eq] at hp ⊢
    refine ⟨hp, none, st1.set (n - 1 - i) v, st2.set (n - 1 - i) v, n, ?_, ?_, ?_, ?_, ?_,
      take_set_of_take_eq st1 st2 n (n - 1 - i) v hlive⟩
    · simp only [Call.exec, index_assign_with_height b1 st1 n i v hl hn hp]
    · simp only [Call.exec, index_assign_with_height b2 st2 n i v hl2 hn2 hp]
    · rw [List.length_set]
    · rw [List.length_set, List.length_set, hlen]
    · rw [List.length_set]; exact hn
  | shrink k =>
    simp only [Call.pre, hsz1, hsz2, decide_eq_true_eq] at hp ⊢
    refine ⟨hp, none, st1, st2, k, ?_, ?_, rfl, hlen.symm, Nat.le_trans hp hn,
      take_of_take_eq st1 st2 n k hlive hp⟩
    · simp only [Call.exec, shrink_with_height b1 st1 n k hl hn hp]
    · simp only [Call.exec, shrink_with_height b2 st2 n k hl2 hn2 hp]

theorem run_above_top (cs : List Call) :
    ∀ (b1 b2 : Nat) (st1 st2 : List Nat) (n : Nat),
      SLOT * st1.length < WORD / 2 → st1.length = st2.length → n ≤ st1.length →
      st1.take n = st2.take n → within_pre (with_height b1 st1 n) cs = true →
      within_pre (with_height b2 st2 n) cs = true ∧
      ∃ rs st3 st4 k, run (with_height b1 st1 n) cs = .ok (rs, with_height b1 st3 k) ∧
        run (with_height b2 st2 n) cs = .ok (rs, with_height b2 st4 k) ∧
        st3.length = st1.length ∧ st4.length = st3.length ∧ k ≤ st3.length ∧
        st3.take k = st4.take k := by
  induction cs with
  | nil =>
    intro b1 b2 st1 st2 n _ hlen hn hlive _
    exact ⟨rfl, [], st1, st2, n, rfl, rfl, rfl, hlen.symm, hn, hlive⟩
  | cons c cs ih =>
    intro b1 b2 st1 st2 n hl hlen hn hlive hp
    simp only [within_pre, Bool.and_eq_true] at hp
    obtain ⟨hpre2, r, st3, st4, k, he1, he2, hl3, hl4, hk, hlive2⟩ :=
      exec_above_top c b1 b2 st1 st2 n hl hlen hn hlive hp.1
    have hp2 := hp.2
    rw [he1] at hp2
    obtain ⟨hw, rs, st5, st6, k2, hr1, hr2, hl5, hl6, hk2, hlive3⟩ :=
      ih b1 b2 st3 st4 k (by rw [hl3]; exact hl) hl4.symm hk hlive2 hp2
    refine ⟨?_, r :: rs, st5, st6, k2, ?_, ?_, hl5.trans hl3, hl6, hk2, hlive3⟩
    · simp only [within_pre, hpre2, he2, Bool.true_and]
      exact hw
    · simp only [run, he1, hr1]
    · simp only [run, he2, hr2]

theorem within_pre_take (cs : List Call) :
    ∀ (s : OperandStack) (k : Nat), within_pre s cs = true →
      within_pre s (cs.take k) = true := by
  induction cs with
  | nil => intro s k _; simp [within_pre]
  | cons c cs ih =>
    intro s k hp
    cases k with
    | zero => simp [within_pre]
    | succ k =>
      simp only [within_pre, Bool.and_eq_true] at hp
      simp only [List.take_succ_cons, within_pre, hp.1, Bool.true_and]
      cases he : c.exec s with
      | error e => rfl
      | ok p =>
        obtain ⟨r, s1⟩ := p
        have h2 := hp.2
        rw [he] at h2
        exact ih s1 k h2

/-- C34: slots above the top of an `OperandStack` are unobservable. `pop` and
`shrink` do not touch the array, so that the slots they drop keep their
values, the popped one included. Yet take two stacks that satisfy the class
invariant and have the same max height, the same `size()` and the same live
items from bottom to top, whatever their slots above the top hold and wherever
their arrays are: every sequence of calls made within the preconditions on the
first one is within the preconditions on the second one, and after every
number of calls of the sequence the two runs have returned the same values and
have led to stacks of the same `size()` and the same live items. -/
theorem above_top_unobservable (s1 s2 : OperandStack) (hs1 : Inv s1) (hs2 : Inv s2)
    (hmax : s1.max_height = s2.max_height) (hsize : s1.size = s2.size)
    (hlive : s1.live_slots = s2.live_slots) :
    (s1.size ≠ 0 → ∃ v t, s1.pop = .ok (v, t) ∧ t.m_storage = s1.m_storage ∧
      t.m_storage.getD (s1.size - 1) 0 = v ∧ t.size = s1.size - 1) ∧
    (∀ n, n ≤ s1.size → ∃ t, s1.shrink n = .ok t ∧ t.m_storage = s1.m_storage) ∧
    (∀ cs, within_pre s1 cs = true →
      within_pre s2 cs = true ∧
      ∀ k, ∃ rs t1 t2, run s1 (cs.take k) = .ok (rs, t1) ∧ run s2 (cs.take k) = .ok (rs, t2) ∧
        rs.length = (cs.take k).length ∧ t1.size = t2.size ∧
        t1.live_slots = t2.live_slots) := by
  obtain ⟨b1, st1, n, hl, hn, rfl⟩ := exists_with_height hs1
  obtain ⟨b2, st2, n2, hl2, hn2, rfl⟩ := exists_with_height hs2
  rw [size_with_height_of_le b1 st1 n hl hn, size_with_height_of_le b2 st2 n2 hl2 hn2] at hsize
  subst hsize
  rw [live_slots_with_height b1 st1 n hl hn, live_slots_with_height b2 st2 n hl2 hn2] at hlive
  have hlen : st1.length = st2.length := hmax
  rw [size_with_height_of_le b1 st1 n hl hn]
  refine ⟨?_, ?_, ?_⟩
  · intro h0
    exact ⟨_, _, pop_with_height b1 st1 n hl hn (Nat.pos_of_ne_zero h0), rfl, rfl,
      size_with_height_of_le b1 st1 (n - 1) hl (by omega)⟩
  · intro k hk
    exact ⟨_, shrink_with_height b1 st1 n k hl hn hk, rfl⟩
  · intro cs hp
    refine ⟨(run_above_top cs b1 b2 st1 st2 n hl hlen hn hlive hp).1, ?_⟩
    intro k
    obtain ⟨_, rs, st3, st4, k2, hr1, hr2, hl3, hl4, hk2, hlive2⟩ :=
      run_above_top (cs.take k) b1 b2 st1 st2 n hl hlen hn hlive (within_pre_take cs _ k hp)
    have hl3b : SLOT * st3.length < WORD / 2 := by rw [hl3]; exact hl
    have hl4b : SLOT * st4.length < WORD / 2 := by rw [hl4]; exact hl3b
    have hk4 : k2 ≤ st4.length := by rw [hl4]; exact hk2
    obtain ⟨rs2, t, hrun, hrl, _⟩ := run_of_within_pre (cs.take k) (with_height b1 st1 n)
      (inv_with_height b1 st1 n hl hn) (within_pre_take cs _ k hp)
    refine ⟨rs, _, _, hr1, hr2, ?_, ?_, ?_⟩
    · rw [hr1] at hrun
      simp only [Except.ok.injEq, Prod.mk.injEq] at hrun
      rw [hrun.1]
      exact hrl
    · rw [size_with_height_of_le b1 st3 k2 hl3b hk2,
        size_with_height_of_le b2 st4 k2 hl4b hk4]
    · rw [live_slots_with_height b1 st3 k2 hl3b hk2,
        live_slots_with_height b2 st4 k2 hl4b hk4]
      exact hlive2

/-- A concrete instance of `above_top_unobservable`: two stacks of height 2
that hold 5 and 6, at different addresses and with different slots above the
top; on both, `pop`, `push(9)`, `stack[1]`, `shrink(1)` and `top` return 6,
nothing, 5, nothing and 5. -/
theorem above_top_unobservable_witness :
    ∃ t1 t2,
      run (with_height 4096 [5, 6, 7, 8] 2) [.pop, .push 9, .index 1, .shrink 1, .top]
        = .ok ([some 6, none, some 5, none, some 5], t1) ∧
      run (with_height 8192 [5, 6, 0, 0] 2) [.pop, .push 9, .index 1, .shrink 1, .top]
        = .ok ([some 6, none, some 5, none, some 5], t2) ∧
      t1.size = t2.size ∧ t1.live_slots = t2.live_slots :=
  match ((above_top_unobservable (with_height 4096 [5, 6, 7, 8] 2)
      (with_height 8192 [5, 6, 0, 0] 2) (by decide) (by decide) (by decide) (by decide)
      (by decide)).2.2 [.pop, .push 9, .index 1, .shrink 1, .top] (by decide)).2 5 with
  | ⟨rs, t1, t2, h1, h2, _, h4, h5⟩ =>
    have hrs : rs = [some 6, none, some 5, none, some 5] := by
      have h : run (with_height 4096 [5, 6, 7, 8] 2) [.pop, .push 9, .index 1, .shrink 1, .top]
          = .ok ([some 6, none, some 5, none, some 5],
              with_height 4096 [5, 9, 7, 8] 1) := by decide
      have h1b : run (with_height 4096 [5, 6, 7, 8] 2)
          [.pop, .push 9, .index 1, .shrink 1, .top] = .ok (rs, t1) := h1
      rw [h] at h1b
      simp only [Except.ok.injEq, Prod.mk.injEq] at h1b
      exact h1b.1.symm
    ⟨t1, t2, hrs ▸ h1, hrs ▸ h2, h4, h5⟩

end OperandStack

namespace Stack

/-! ## `Stack<T>`: `drop` composes -/

variable {T : Type}

theorem drop_eq_take [Inhabited T] (s : Stack T) (k : Nat) (hsz : s.size < WORD)
    (hk : k ≤ s.size) : s.drop k = ⟨s.items.take (s.size - k)⟩ := by
  have hmod : (s.size + WORD - k % WORD) % WORD = s.size - k := by
    simp only [WORD] at *
    omega
  have hle : s.size - k - s.items.length = 0 := by
    simp only [size]
    omega
  simp only [drop, resize, hmod, hle, List.replicate_zero, List.append_nil]

/-- C31: `Stack<T>::drop` acts additively. On every stack, whose size is a
`size_t` and so below `2^64`: `drop(0)` leaves the stack as it is, with the
same size, the same items and the same emptiness; for every `a` and `b` with
`a + b <= size()`, `drop(a)` followed by `drop(b)` gives the stack that
`drop(a + b)` gives; and `drop(size())` gives the stack that `clear()` gives,
of size 0. -/
theorem drop_additive [Inhabited T] (s : Stack T) (hsz : s.size < WORD) :
    (s.drop 0 = s ∧ (s.drop 0).size = s.size ∧ (s.drop 0).items = s.items ∧
      (s.drop 0).empty = s.empty) ∧
    (∀ a b, a + b ≤ s.size → (s.drop a).drop b = s.drop (a + b) ∧
      ((s.drop a).drop b).size = s.size - (a + b)) ∧
    (s.drop s.size = s.clear ∧ (s.drop s.size).size = 0 ∧ (s.drop s.size).empty = true) := by
  have h0 : s.drop 0 = s := by
    rw [drop_eq_take s 0 hsz (Nat.zero_le _)]
    cases s with
    | mk items => simp [size]
  refine ⟨⟨h0, by rw [h0], by rw [h0], by rw [h0]⟩, ?_, ?_⟩
  · intro a b hab
    have ha : a ≤ s.size := by omega
    have hsa : (s.drop a).size = s.size - a := by
      rw [drop_eq_take s a hsz ha]
      simp only [size, List.length_take]
      omega
    have h1 : (s.drop a).drop b = ⟨s.items.take (s.size - (a + b))⟩ := by
      rw [drop_eq_take (s.drop a) b (by rw [hsa]; omega) (by rw [hsa]; omega), hsa,
        drop_eq_take s a hsz ha]
      simp only [List.take_take, mk.injEq]
      congr 1
      omega
    refine ⟨by rw [h1, drop_eq_take s (a + b) hsz hab], ?_⟩
    rw [h1]
    simp only [size, List.length_take]
    omega
  · have h : s.drop s.size = s.clear := by
      rw [drop_eq_take s s.size hsz (Nat.le_refl _)]
      simp [clear]
    exact ⟨h, by rw [h]; rfl, by rw [h]; rfl⟩

/-- A concrete instance of `drop_additive`: on the stack of the unit test
`stack.drop_and_peek`, `drop(1)` and then `drop(2)` give what `drop(3)` gives,
the stack that holds 1. -/
theorem drop_additive_witness :
    (⟨[1, 2, 3, 4]⟩ : Stack Nat).drop 0 = ⟨[1, 2, 3, 4]⟩ ∧
    (((⟨[1, 2, 3, 4]⟩ : Stack Nat).drop 1).drop 2 = (⟨[1, 2, 3, 4]⟩ : Stack Nat).drop 3 ∧
      (((⟨[1, 2, 3, 4]⟩ : Stack Nat).drop 1).drop 2).size = 1) ∧
    (⟨[1, 2, 3, 4]⟩ : Stack Nat).drop 4 = (⟨[1, 2, 3, 4]⟩ : Stack Nat).clear :=
  have h := drop_additive (⟨[1, 2, 3, 4]⟩ : Stack Nat) (by decide)
  ⟨h.1.1, h.2.1 1 2 (by decide), h.2.2.1⟩

end Stack

/-! ## The test runner: one counter for every command -/

namespace test_runner

theorem pass_results (r r1 : test_runner) (h : r.pass = .ok r1) :
    r1.results = { r.results with passed := r.results.passed + 1 } := by
  simp only [pass, increment] at h
  split at h
  · cases h
  · next n hn =>
    split at hn
    · cases hn
    · simp only [Except.ok.injEq] at hn h
      rw [← h, ← hn]

theorem fail_results (r r1 : test_runner) (h : r.fail = .ok r1) :
    r1.results = { r.results with failed := r.results.failed + 1 } := by
  simp only [fail, increment] at h
  split at h
  · cases h
  · next n hn =>
    split at hn
    · cases hn
    · simp only [Except.ok.injEq] at hn h
      rw [← h, ← hn]

theorem skip_results (r r1 : test_runner) (h : r.skip = .ok r1) :
    r1.results = { r.results with skipped := r.results.skipped + 1 } := by
  simp only [skip, increment] at h
  split at h
  · cases h
  · next n hn =>
    split at hn
    · cases hn
    · simp only [Except.ok.injEq] at hn h
      rw [← h, ← hn]

theorem pass_one_more (r r1 : test_runner) (h : r.pass = .ok r1) :
    r.results.one_more r1.results := Or.inl (pass_results r r1 h)

theorem fail_one_more (r r1 : test_runner) (h : r.fail = .ok r1) :
    r.results.one_more r1.results := Or.inr (Or.inl (fail_results r r1 h))

theorem skip_one_more (r r1 : test_runner) (h : r.skip = .ok r1) :
    r.results.one_more r1.results := Or.inr (Or.inr (skip_results r r1 h))

theorem invoke_results (lib : Library) (action : json) (r : test_runner) :
    (∀ r1, r.invoke lib action = .ok (none, r1) →
      r1.results = { r.results with skipped := r.results.skipped + 1 }) ∧
    (∀ result r1, r.invoke lib action = .ok (some result, r1) → r1.results = r.results) := by
  constructor
  · intro r1 h
    simp only [invoke] at h
    repeat' split at h
    all_goals first
      | (cases h; done)
      | (cases h
         apply skip_results
         assumption)
  · intro result r1 h
    simp only [invoke] at h
    repeat' split at h
    all_goals first
      | (cases h; done)
      | (cases h
         rfl)

theorem check_result_one_more (cmd : json) (result : execution_result) (r r1 : test_runner)
    (h : check_result cmd result r = .ok r1) : r.results.one_more r1.results := by
  simp only [check_result] at h
  repeat' split at h
  all_goals first
    | cases h
    | exact pass_one_more r r1 h
    | exact fail_one_more r r1 h
    | exact skip_one_more r r1 h

theorem run_module_one_more (lib : Library) (path : String) (cmd : json)
    (r r1 : test_runner) (h : run_module lib path cmd r = .ok r1) :
    r.results.one_more r1.results := by
  simp only [run_module] at h
  repeat' split at h
  all_goals first
    | (cases h; done)
    | (have hp := pass_one_more _ _ h
       exact hp)
    | (cases h
       have hf := fail_one_more _ _ (by assumption)
       exact hf)

theorem run_assert_return_one_more (lib : Library) (cmd : json)
    (r r1 : test_runner) (h : run_assert_return lib cmd r = .ok r1) :
    r.results.one_more r1.results := by
  simp only [run_assert_return] at h
  repeat' split at h
  all_goals first
    | (cases h; done)
    | exact skip_one_more r r1 h
    | (cases h
       exact Or.inr (Or.inr ((invoke_results lib _ r).1 _ (by assumption))))
    | (have hr := (invoke_results lib _ r).2 _ _ (by assumption)
       have := check_result_one_more _ _ _ r1 h
       rw [hr] at this
       exact this)

theorem run_assert_trap_one_more (lib : Library) (cmd : json)
    (r r1 : test_runner) (h : run_assert_trap lib cmd r = .ok r1) :
    r.results.one_more r1.results := by
  simp only [run_assert_trap] at h
  repeat' split at h
  all_goals first
    | (cases h; done)
    | exact skip_one_more r r1 h
    | (cases h
       exact Or.inr (Or.inr ((invoke_results lib _ r).1 _ (by assumption))))
    | (have hr := (invoke_results lib _ r).2 _ _ (by assumption)
       have := fail_one_more _ r1 h
       rw [hr] at this
       exact this)
    | (have hr := (invoke_results lib _ r).2 _ _ (by assumption)
       have := pass_one_more _ r1 h
       rw [hr] at this
       exact this)

theorem run_assert_invalid_one_more (lib : Library) (path type : String) (cmd : json)
    (r r1 : test_runner) (h : run_assert_invalid lib path type cmd r = .ok r1) :
    r.results.one_more r1.results := by
  simp only [run_assert_invalid] at h
  repeat' split at h
  all_goals first
    | cases h
    | exact pass_one_more r r1 h
    | exact fail_one_more r r1 h
    | exact skip_one_more r r1 h

theorem run_command_one_more (lib : Library) (path : String) (cmd : json)
    (r r1 : test_runner) (h : run_command lib path cmd r = .ok r1) :
    r.results.one_more r1.results := by
  simp only [run_command] at h
  repeat' split at h
  all_goals first
    | cases h
    | exact run_module_one_more lib path cmd r r1 h
    | exact run_assert_return_one_more lib cmd r r1 h
    | exact run_assert_trap_one_more lib cmd r r1 h
    | exact run_assert_invalid_one_more lib path _ cmd r r1 h
    | exact skip_one_more r r1 h

theorem sum_of_one_more (before after : test_results) (h : before.one_more after) :
    after.passed + after.failed + after.skipped
      = before.passed + before.failed + before.skipped + 1 := by
  rcases h with h | h | h <;> rw [h] <;> simp only <;> omega

theorem run_commands_sum (lib : Library) (path : String) (cmds : List json) :
    ∀ r r1 : test_runner, run_commands lib path cmds r = .ok r1 →
      r1.results.passed + r1.results.failed + r1.results.skipped
        = r.results.passed + r.results.failed + r.results.skipped + cmds.length := by
  induction cmds with
  | nil =>
    intro r r1 h
    simp only [run_commands, Except.ok.injEq] at h
    rw [h]
    simp
  | cons cmd rest ih =>
    intro r r1 h
    simp only [run_commands] at h
    split at h
    · cases h
    · next r2 h2 =>
      have h3 := sum_of_one_more _ _ (run_command_one_more lib path cmd r r2 h2)
      have h4 := ih r2 r1 h
      rw [h4, h3]
      simp only [List.length_cons, Nat.cast_add, Nat.cast_one]
      omega

theorem run_commands_append (lib : Library) (path : String) (xs ys : List json) :
    ∀ r : test_runner, run_commands lib path (xs ++ ys) r =
      match run_commands lib path xs r with
      | .error e => .error e
      | .ok r1 => run_commands lib path ys r1 := by
  induction xs with
  | nil => intro r; rfl
  | cons cmd rest ih =>
    intro r
    simp only [List.cons_append, run_commands]
    cases run_command lib path cmd r with
    | error e => rfl
    | ok r1 => exact ih r1

theorem run_commands_at (lib : Library) (path : String) (cmds : List json)
    (r after : test_runner) (h : run_commands lib path cmds r = .ok after)
    (k : Nat) (hk : k < cmds.length) :
    ∃ cmd r1 r2, cmds[k]? = some cmd ∧
      run_commands lib path (cmds.take k) r = .ok r1 ∧
      run_command lib path cmd r1 = .ok r2 ∧
      run_commands lib path (cmds.take (k + 1)) r = .ok r2 ∧
      r1.results.one_more r2.results ∧
      r1.results.passed + r1.results.failed + r1.results.skipped
        = r.results.passed + r.results.failed + r.results.skipped + k := by
  have hsplit : cmds = cmds.take k ++ cmds[k] :: cmds.drop (k + 1) := by
    rw [← List.drop_eq_getElem_cons hk, List.take_append_drop]
  rw [hsplit, run_commands_append] at h
  split at h
  · cases h
  · next r1 h1 =>
    simp only [run_commands] at h
    split at h
    · cases h
    · next r2 h2 =>
      refine ⟨cmds[k], r1, r2, List.getElem?_eq_getElem hk, h1, h2, ?_,
        run_command_one_more lib path _ r1 r2 h2, ?_⟩
      · rw [List.take_succ, List.getElem?_eq_getElem hk, run_commands_append, h1]
        simp only [Option.toList, run_commands, h2]
      · have hs := run_commands_sum lib path (cmds.take k) r r1 h1
        rw [hs, List.length_take, Nat.min_eq_left (Nat.le_of_lt hk)]

theorem run_from_file_ok (lib : Library) (path : String) (r : test_runner)
    (results : test_results) (after : test_runner)
    (h : r.run_from_file lib path = .ok (results, after)) :
    ∃ j commands, lib.json_parse path = some j ∧ j.at_key "commands" = .ok commands ∧
      run_commands lib path commands.elements r = .ok after ∧ results = after.results := by
  simp only [run_from_file] at h
  split at h
  · cases h
  · next j hj =>
    split at h
    · cases h
    · next commands hc =>
      split at h
      · cases h
      · next r1 h1 =>
        split at h
        · cases h
        · split at h
          · cases h
          · cases h
            exact ⟨j, commands, hj, hc, h1, rfl⟩

/-- C33: the spectest runner counts every command exactly once. For every
library, file and state of the runner: a command that the loop body of
`run_from_file` processes without an exception increments exactly one of
`passed`, `failed`, `skipped` by one and leaves the two others as they were;
an `invoke` that returns no result has incremented `skipped` by one, which is
the count of that command, and an `invoke` that returns a result has changed
no counter; in a run of a list of commands every command is counted so, the
command at position `k` starting from a sum of `k` more than at the start; and
when `run_from_file` returns, the results are the counters of the runner and
`passed + failed + skipped` has grown by the number of commands of the file,
so for a new runner the sum is the number of commands. -/
theorem counts_every_command_once (lib : Library) (path : String) :
    (∀ (cmd : json) (r r1 : test_runner), run_command lib path cmd r = .ok r1 →
      r.results.one_more r1.results ∧
      r1.results.passed + r1.results.failed + r1.results.skipped
        = r.results.passed + r.results.failed + r.results.skipped + 1) ∧
    (∀ (action : json) (r r1 : test_runner), r.invoke lib action = .ok (none, r1) →
      r1.results = { r.results with skipped := r.results.skipped + 1 }) ∧
    (∀ (action : json) (r r1 : test_runner) (result : execution_result),
      r.invoke lib action = .ok (some result, r1) → r1.results = r.results) ∧
    (∀ (cmds : List json) (r after : test_runner),
      run_commands lib path cmds r = .ok after →
      (∀ k, k < cmds.length → ∃ cmd r1 r2, cmds[k]? = some cmd ∧
        run_commands lib path (cmds.take k) r = .ok r1 ∧
        run_command lib path cmd r1 = .ok r2 ∧
        run_commands lib path (cmds.take (k + 1)) r = .ok r2 ∧
        r1.results.one_more r2.results ∧
        r1.results.passed + r1.results.failed + r1.results.skipped
          = r.results.passed + r.results.failed + r.results.skipped + k) ∧
      after.results.passed + after.results.failed + after.results.skipped
        = r.results.passed + r.results.failed + r.results.skipped + cmds.length) ∧
    (∀ (r after : test_runner) (results : test_results),
      r.run_from_file lib path = .ok (results, after) →
      ∃ j commands, lib.json_parse path = some j ∧ j.at_key "commands" = .ok commands ∧
        run_commands lib path commands.elements r = .ok after ∧
        results = after.results ∧
        results.passed + results.failed + results.skipped
          = r.results.passed + r.results.failed + r.results.skipped
            + commands.elements.length) ∧
    (∀ (ts : test_settings) (after : test_runner) (results : test_results),
      (new ts).run_from_file lib path = .ok (results, after) →
      ∃ j commands, lib.json_parse path = some j ∧ j.at_key "commands" = .ok commands ∧
        results.passed + results.failed + results.skipped = commands.elements.length) := by
  refine ⟨?_, ?_, ?_, ?_, ?_, ?_⟩
  · intro cmd r r1 h
    exact ⟨run_command_one_more lib path cmd r r1 h,
      sum_of_one_more _ _ (run_command_one_more lib path cmd r r1 h)⟩
  · intro action r r1 h
    exact (invoke_results lib action r).1 r1 h
  · intro action r r1 result h
    exact (invoke_results lib action r).2 result r1 h
  · intro cmds r after h
    exact ⟨fun k hk => run_commands_at lib path cmds r after h k hk,
      run_commands_sum lib path cmds r after h⟩
  · intro r after results h
    obtain ⟨j, commands, hj, hc, hrun, hres⟩ := run_from_file_ok lib path r results after h
    refine ⟨j, commands, hj, hc, hrun, hres, ?_⟩
    rw [hres]
    exact run_commands_sum lib path _ r after hrun
  · intro ts after results h
    obtain ⟨j, commands, hj, hc, hrun, hres⟩ :=
      run_from_file_ok lib path (new ts) results after h
    refine ⟨j, commands, hj, hc, ?_⟩
    rw [hres, run_commands_sum lib path _ (new ts) after hrun]
    simp [new]

/-- The run of the test script of ten commands by a new runner returns 4
passed, 2 failed and 4 skipped, and the script has ten commands. -/
theorem counts_every_command_once_witness :
    ∃ (after : test_runner) (results : test_results),
      (new {}).run_from_file library_of_script "script.json" = .ok (results, after) ∧
      results = ⟨4, 2, 4⟩ ∧
      ∃ j commands, library_of_script.json_parse "script.json" = some j ∧
        j.at_key "commands" = .ok commands ∧
        commands.elements.length = 10 ∧
        results.passed + results.failed + results.skipped = commands.elements.length := by
  have hrun : ((new {}).run_from_file library_of_script "script.json").toOption.map
      (fun x => x.1) = some ⟨4, 2, 4⟩ := by decide
  cases h : (new {}).run_from_file library_of_script "script.json" with
  | error e =>
    rw [h] at hrun
    cases hrun
  | ok x =>
    obtain ⟨results, after⟩ := x
    rw [h] at hrun
    have hres : results = ⟨4, 2, 4⟩ := by
      simpa [Except.toOption] using hrun
    obtain ⟨j, commands, hj, hc, hsum⟩ :=
      (counts_every_command_once library_of_script "script.json").2.2.2.2.2 {} after results h
    refine ⟨after, results, rfl, hres, j, commands, hj, hc, ?_, hsum⟩
    rw [hres] at hsum
    have h10 : ((commands.elements.length : Nat) : Int) = 10 := by
      rw [← hsum]
      rfl
    exact_mod_cast h10

end test_runner

end fizzy
